import Mathlib

/-!
# go-umoparse: feed access and caching engine

A shallow embedding of `pkg/v1/api` and `internal/utils`.

* Go's `int`, `int64` and `time.Duration` are mathematical integers reduced with
  `wrapInt64` wherever the source does arithmetic on them.
* `time.Time` is the number of nanoseconds since the zero `Time`.
* Everything outside the repository (the HTTP client, the wall clock,
  `encoding/json`, `strconv.ParseFloat`) is an oracle collected in `Env`.
* Mutable process state (the clock position, the attempts made so far, the
  allocator, the package variable `DefaultApiHandlerOptions`) is the explicit
  `World` threaded through every operation.
* A Go call either returns, panics or never returns: `Run`.
-/

namespace Umo

/-! ## Machine integers, durations and instants -/

/-- Largest value of Go's 64-bit `int` / `int64` / `time.Duration`. -/
def maxInt64 : Int := 9223372036854775807

/-- Smallest value of Go's 64-bit `int` / `int64` / `time.Duration`. -/
def minInt64 : Int := -9223372036854775808

/-- Two's-complement reduction of an integer to 64 bits (Go arithmetic wraps silently). -/
def wrapInt64 (x : Int) : Int :=
  (x + 9223372036854775808) % 18446744073709551616 - 9223372036854775808

/-- Nanosecond count, `time.Duration`. -/
abbrev Duration := Int

/-- Instant, `time.Time`, as nanoseconds since the zero `Time` (January 1, year 1, UTC). -/
abbrev Time := Int

/-- The constant `time.Millisecond`. -/
def Millisecond : Duration := 1000000

/-- The constant `time.Second`. -/
def Second : Duration := 1000000000

/-- Product of two durations as Go computes it: `a * b` in wrapping 64-bit arithmetic. -/
def Duration.mul (a b : Duration) : Duration := wrapInt64 (a * b)

/-- The method `Time.Sub`: the difference `t - u`, saturated to the range of `Duration`. -/
def Time.Sub (t u : Time) : Duration :=
  if t - u > maxInt64 then maxInt64
  else if t - u < minInt64 then minInt64
  else t - u

/-- Nanoseconds from the zero `Time` to the Unix epoch (62135596800 seconds). -/
def unixEpoch : Time := 62135596800 * 1000000000

/-- The function `time.UnixMilli`. -/
def UnixMilli (msec : Int) : Time := unixEpoch + msec * 1000000

/-! ## Dynamically typed values -/

/-- An IEEE 754 binary64 value, identified by its bit pattern. -/
structure Float64 where
  bits : Nat
deriving DecidableEq, Repr

/-- A Go `interface{}` value, by dynamic type. `encoding/json` produces every
constructor except `int` (JSON numbers decode to `float64`). -/
inductive Iface where
  | nil
  | bool (b : Bool)
  | float64 (f : Float64)
  | int (n : Int)
  | str (s : String)
  | slice (xs : List Iface)
  | map (kv : List (String × Iface))

/-- A `map[string]interface{}` as a key/value table. -/
abbrev JMap := List (String × Iface)

/-- The two-result index `v, ok := m[k]`. -/
def JMap.get? (m : JMap) (k : String) : Option Iface := m.lookup k

/-- The one-result index `m[k]`: the nil interface when the key is absent. -/
def JMap.idx (m : JMap) (k : String) : Iface := (m.lookup k).getD Iface.nil

/-- Type assertion `v.([]interface{})`. -/
def Iface.asSlice : Iface → Option (List Iface)
  | .slice xs => some xs
  | _ => none

/-- Type assertion `v.(map[string]interface{})`. -/
def Iface.asMap : Iface → Option JMap
  | .map kv => some kv
  | _ => none

/-! ## internal/utils -/

/-- The function `strconv.Atoi`: an optional sign, then one or more decimal digits, the value
within the range of `int`. -/
def Atoi (s : String) : Option Int :=
  let digits (cs : List Char) : Option Int :=
    if cs ≠ [] ∧ cs.all Char.isDigit then
      some (cs.foldl (fun n c => n * 10 + ((c.toNat - 48 : Nat) : Int)) 0)
    else none
  let r : Option Int :=
    match s.data with
    | '-' :: cs => (digits cs).map (fun n => -n)
    | '+' :: cs => digits cs
    | cs => digits cs
  match r with
  | some n => if minInt64 ≤ n ∧ n ≤ maxInt64 then some n else none
  | none => none

/-- The function `utils.IfaceToString`. -/
def IfaceToString : Iface → String × Bool
  | .str out => (out, true)
  | _ => ("", false)

/-- The function `utils.IfaceToFloat`; `parseFloat` is `strconv.ParseFloat(str, 64)`. -/
def IfaceToFloat (parseFloat : String → Option Float64) : Iface → Float64 × Bool
  | .float64 out => (out, true)
  | .str s =>
    match parseFloat s with
    | some out => (out, true)
    | none => (⟨0⟩, false)
  | _ => (⟨0⟩, false)

/-- The function `utils.IfaceToInt`. -/
def IfaceToInt : Iface → Int × Bool
  | .int out => (out, true)
  | .str sout =>
    match Atoi sout with
    | some out => (out, true)
    | none => (0, false)
  | _ => (0, false)

/-- The function `utils.IfaceToBool`. In Go a `case` clause does not fall through: the clauses
`"1"`, `"true"`, `"0"` and `"false"` have empty bodies, leave the `switch` and reach the final
`return false, false`. `String.toLower` lowers ASCII letters only, which agrees with
`strings.ToLower` on whether the result is one of the six literals: no other character
lowers to a character occurring in them. -/
def IfaceToBool : Iface → Bool × Bool
  | .bool b => (b, true)
  | .str s =>
    let l := s.toLower
    if l = "1" then (false, false)
    else if l = "true" then (false, false)
    else if l = "yes" then (true, true)
    else if l = "0" then (false, false)
    else if l = "false" then (false, false)
    else if l = "no" then (false, true)
    else (false, false)
  | _ => (false, false)

/-! ## Results of running Go code -/

/-- Errors, identified by their message. -/
abbrev Err := String

/-- How a call ends: it returns a value, it panics, or it never returns. -/
inductive Run (α : Type) where
  | ret (a : α)
  | panic
  | diverge
deriving DecidableEq, Repr

/-- Sequencing of calls: a panic or a divergence ends the caller too. -/
def Run.bind {α β : Type} (x : Run α) (f : α → Run β) : Run β :=
  match x with
  | .ret a => f a
  | .panic => .panic
  | .diverge => .diverge

/-! ## Transport: request.go -/

/-- Payload bytes (`[]byte`), written as text. -/
abbrev Bytes := String

/-- What the code reads of an `*http.Response`: the status code and the outcome
`data, err := io.ReadAll(resp.Body)`. -/
structure HttpResponse where
  StatusCode : Int
  Body : Bytes
  readErr : Option Err
deriving DecidableEq, Repr

/-- Outcome of `c.Do(request)`: an error (no response) or a response of any status. The
standard client reports no error for a non-2xx status. -/
inductive DoResult where
  | failed (err : Err)
  | response (resp : HttpResponse)
deriving DecidableEq, Repr

/-- The struct `ApiResponse`; `none` is a nil pointer, a nil error or a nil slice. -/
structure ApiResponse where
  Response : Option HttpResponse
  err : Option Err
  Data : Option Bytes
deriving DecidableEq, Repr

/-- The method `ApiResponse.Error`. -/
def ApiResponse.Error (ar : ApiResponse) : Option Err := ar.err

/-- The struct `ApiHandlerOptions` of api.go. -/
structure ApiHandlerOptions where
  UseCache : Bool
  CacheMaxAge : Int
deriving DecidableEq, Repr

/-- The type `ApiHandlerOption`: a mutator of the options it is handed. -/
abbrev ApiHandlerOption := ApiHandlerOptions → ApiHandlerOptions

/-- The option `WithoutCache`. -/
def WithoutCache : ApiHandlerOption := fun a => { a with UseCache := false }

/-- The option `WithCacheMaxAge`. -/
def WithCacheMaxAge (seconds : Int) : ApiHandlerOption := fun a => { a with CacheMaxAge := seconds }

/-- Declared value of the package variable `DefaultApiHandlerOptions`. -/
def DefaultApiHandlerOptions : ApiHandlerOptions := { UseCache := true, CacheMaxAge := 60 }

/-- Everything outside the repository.
* `now k` is what the `k`-th reading of `time.Now()` returns;
* `newRequest url` is the error of `http.NewRequestWithContext`, if any;
* `Do k url` is the outcome of `c.Do` in the `k`-th single attempt (deadlines and
  cancellation included);
* `jsonUnmarshal data` is `json.Unmarshal(data, &m)` on a fresh `map[string]interface{}`;
* `parseFloat` is `strconv.ParseFloat(s, 64)`. -/
structure Env where
  now : Nat → Time
  newRequest : String → Option Err
  Do : Nat → String → DoResult
  jsonUnmarshal : Bytes → Except Err JMap
  parseFloat : String → Option Float64

/-- Mutable process state.
* `ticks`: readings of `time.Now()` taken so far;
* `attempts`: the command of every single attempt (`get`) made so far, oldest first;
* `calls`: the command of every `ApiHandler.Get` call made so far, oldest first;
* `slept`: the arguments of the `time.Sleep` calls so far, oldest first;
* `heapNext`: the next fresh address for a `&T{...}` allocation;
* `dflt`: current contents of the package variable `DefaultApiHandlerOptions`. -/
structure World where
  ticks : Nat
  attempts : List String
  calls : List String
  slept : List Duration
  heapNext : Nat
  dflt : ApiHandlerOptions
deriving DecidableEq, Repr

/-- Process state at start-up: nothing has happened and the package variable holds its
declared value. -/
def World.init : World :=
  { ticks := 0, attempts := [], calls := [], slept := [], heapNext := 0,
    dflt := DefaultApiHandlerOptions }

/-- The call `time.Now()`. -/
def timeNow (env : Env) (w : World) : Time × World :=
  (env.now w.ticks, { w with ticks := w.ticks + 1 })

/-- The call `time.Sleep(d)`. -/
def timeSleep (d : Duration) (w : World) : World := { w with slept := w.slept ++ [d] }

/-- A fresh address for `&T{...}`. -/
def alloc (w : World) : Nat × World := (w.heapNext, { w with heapNext := w.heapNext + 1 })

/-- The constant `API_URI`. -/
def API_URI : String := "https://retro.umoiq.com/service/publicJSONFeed"

/-- The type `ApiMethod`. -/
abbrev ApiMethod := Unit → String

/-- The command `MethodRoutes`. -/
def MethodRoutes (agency : String) : ApiMethod :=
  fun _ => "?command=routeList&a=" ++ agency

/-- The command `MethodRouteConfig`. -/
def MethodRouteConfig (agency route : String) : ApiMethod :=
  fun _ => "?command=routeConfig&a=" ++ agency ++ "&r=" ++ route ++ "&verbose"

/-- The command `MethodAgencyList`. -/
def MethodAgencyList : ApiMethod := fun _ => "?command=agencyList"

/-- The command `MethodPredictions`. -/
def MethodPredictions (agency stopId route : String) : ApiMethod :=
  fun _ =>
    let apiCmd := "?command=predictions&a=" ++ agency ++ "&stopId=" ++ stopId
    if route ≠ "" then apiCmd ++ "&routeTag=" ++ route else apiCmd

/-- The struct `GetConfig`. `CustomHeaders` and `Context` only decorate the request handed to
the client, whose outcome is the oracle `Env.Do`; they are not represented. -/
structure GetConfig where
  Timeout : Int
  RetryLimit : Int
  RetryDelay : Int
deriving DecidableEq, Repr

/-- The single-attempt function `get`. The status code of a delivered response is never
inspected. -/
def get (env : Env) (m : ApiMethod) (w : World) : ApiResponse × World :=
  let apiCmd := m ()
  let k := w.attempts.length
  let w1 := { w with attempts := w.attempts ++ [apiCmd] }
  match env.newRequest (API_URI ++ apiCmd) with
  | some err => ({ Response := none, err := some err, Data := none }, w1)
  | none =>
    match env.Do k (API_URI ++ apiCmd) with
    | .failed err => ({ Response := none, err := some err, Data := none }, w1)
    | .response resp => ({ Response := some resp, err := resp.readErr, Data := some resp.Body }, w1)

/-- Body of the loop of `ApiHandler.Get`, run `n` times: one attempt, then a sleep of
`RetryDelay` milliseconds when the attempt failed; in both cases the loop goes on to its next
iteration, keeping only the latest response. -/
def getLoop (env : Env) (cfg : GetConfig) (m : ApiMethod) :
    Nat → Option ApiResponse → World → Option ApiResponse × World
  | 0, resp, w => (resp, w)
  | n + 1, _, w =>
    let (resp, w1) := get env m w
    if resp.Error ≠ none then
      getLoop env cfg m n (some resp) (timeSleep (Duration.mul cfg.RetryDelay Millisecond) w1)
    else
      getLoop env cfg m n (some resp) w1

/-- Number of iterations of `for i := 0; i <= bound; i++` over 64-bit `i`: none for a negative
bound, `bound + 1` otherwise, except that the loop never ends when `bound` is the largest
`int` (`none`). -/
def loopTrips (bound : Int) : Option Nat :=
  if bound = maxInt64 then none else some (bound + 1).toNat

/-- The method `ApiHandler.Get` for a handler with configuration `cfg`. The result `none` is
a nil `*ApiResponse` (the loop body never ran). -/
def Get (env : Env) (cfg : GetConfig) (m : ApiMethod) (w : World) :
    Run (Option ApiResponse × World) :=
  let w0 := { w with calls := w.calls ++ [m ()] }
  if cfg.RetryDelay < 50 then
    .ret (some { Response := none,
                 err := some "Unable to use retry delay lower than 50ms",
                 Data := none }, w0)
  else
    match loopTrips (wrapInt64 (1 + cfg.RetryLimit)) with
    | none => .diverge
    | some n => .ret (getLoop env cfg m n none w0)

/-! ## Entities

Objects created with `&T{...}` carry the address `addr` they were allocated at, so that
pointer comparison is comparison of addresses. The back-references `api` and `agency` are
passed to the methods as arguments; the references a `Prediction` holds to its `Service`
and `Route`, and a `Service` to its `Route`, are the addresses of these objects. -/

/-- The struct `Prediction`. -/
structure Prediction where
  addr : Nat
  Service : Option Nat
  Route : Option Nat
  Eta : Time
  Minutes : Int
  Seconds : Int
  Branch : String
  AffectedByLayover : Bool
  IsDeparture : Bool
  TripTag : String
  ScheduleBased : Bool
  Delayed : Bool
  PredictionTime : Time
deriving DecidableEq, Repr

/-- The struct `Stop`; `Predictions = none` is the nil slice. -/
structure Stop where
  addr : Nat
  StopID : String
  Tag : String
  Title : String
  ShortTitle : String
  Longitude : Float64
  Latitude : Float64
  Predictions : Option (List Prediction)
  cacheAge : Time
deriving DecidableEq, Repr

/-- The struct `Service`; `route` is the address of the owning `Route`. -/
structure Service where
  addr : Nat
  Tag : String
  Name : String
  Title : String
  UseForUI : Bool
  Stops : Option (List Stop)
  route : Nat
deriving DecidableEq, Repr

/-- The struct `Route`. -/
structure Route where
  addr : Nat
  Title : String
  ShortTitle : String
  Tag : String
  Services : Option (List Service)
  Stops : Option (List Stop)
deriving DecidableEq, Repr

/-- The struct `Agency`. -/
structure Agency where
  addr : Nat
  Title : String
  Tag : String
  ShortTitle : String
  RegionTitle : String
  Routes : Option (List Route)
  cacheAge : Time
deriving DecidableEq, Repr

/-- The struct `ApiHandler`; the HTTP client `c` is the oracle `Env.Do`. -/
structure ApiHandler where
  cfg : GetConfig
  agencies : Option (List Agency)
  cacheAge : Time
  cacheMaxAge : Duration
deriving DecidableEq, Repr

/-- The type `ApiOption`. -/
abbrev ApiOption := ApiHandler → ApiHandler

/-- The option `WithMaxCacheAge`. -/
def WithMaxCacheAge (seconds : Int) : ApiOption :=
  fun a => { a with cacheMaxAge := Duration.mul seconds Second }

/-- The constructor `NewApiHandler`. -/
def NewApiHandler (cfg : GetConfig) (opts : List ApiOption) : ApiHandler :=
  let h : ApiHandler := { cfg := cfg, agencies := none, cacheAge := 0, cacheMaxAge := 3600 }
  opts.foldl (fun h opt => opt h) h

/-- The package variable `DefaultApiHandler`. -/
def DefaultApiHandler : ApiHandler :=
  NewApiHandler { Timeout := 30, RetryLimit := 0, RetryDelay := 100 } []

/-- A Go result pair `(value, error)` in which either component may be nil. It is used for
the exported fetch-or-refresh methods; a function whose every `return` is literally
`nil, err` or `value, nil` returns an `Except Err` instead. -/
abbrev Result (α : Type) := Option α × Option Err

/-- Loop of `ApiHandler.unmarshalAgencies` over the remaining elements of `agencyList`;
`agencies` is the slice built so far. -/
def unmarshalAgenciesLoop : List Iface → List Agency → World → Except Err (List Agency) × World
  | [], agencies, w => (.ok agencies, w)
  | agencyProto :: rest, agencies, w =>
    match agencyProto.asMap with
    | none => (.error "Could not convert interface to object", w)
    | some agency =>
      let (p, w1) := alloc w
      let a : Agency := { addr := p, Title := "", Tag := "", ShortTitle := "",
                          RegionTitle := "", Routes := none, cacheAge := 0 }
      let (title, ok) := IfaceToString (agency.idx "title")
      if ok then
        let a := { a with Title := title }
        let (tag, ok) := IfaceToString (agency.idx "tag")
        if ok then
          let a := { a with Tag := tag }
          let (sTitle, ok) := IfaceToString (agency.idx "shortTitle")
          let a := if ok then { a with ShortTitle := sTitle } else { a with ShortTitle := a.Title }
          let (rTitle, ok) := IfaceToString (agency.idx "regionTitle")
          let a := if ok then { a with RegionTitle := rTitle } else a
          unmarshalAgenciesLoop rest (agencies ++ [a]) w1
        else (.error "Could not get tag, this shouldn't happen", w1)
      else (.error "Could not get title, this shouldn't happen", w1)

/-- The method `ApiHandler.unmarshalAgencies`. -/
def unmarshalAgencies (v : Iface) (w : World) : Except Err (List Agency) × World :=
  match v.asMap with
  | none => (.error "invalid input", w)
  | some obj =>
    match (obj.idx "agency").asSlice with
    | none => (.error "could not get agencies from response", w)
    | some agencyList => unmarshalAgenciesLoop agencyList [] w

/-- The method `ApiHandler.GetAgencies`. `aho` is the pointer `DefaultApiHandlerOptions`
itself, so the options are applied to the package variable. `useCache` starts as the zero
value `false` and is only ever assigned `false`. Neither `a.agencies` nor `a.cacheAge` is
assigned. The last statement is `return agencies, nil`: when `unmarshalAgencies` fails,
`agencies` is nil and its error is dropped. The handler is returned unchanged next to the
result. -/
def GetAgencies (env : Env) (a : ApiHandler) (opts : List ApiHandlerOption) (w : World) :
    Run (Result (List Agency) × ApiHandler × World) :=
  let w1 := { w with dflt := opts.foldl (fun aho opt => opt aho) w.dflt }
  let aho := w1.dflt
  let useCache := false
  let (now, w2) := timeNow env w1
  let useCache := if Time.Sub now a.cacheAge > a.cacheMaxAge then false else useCache
  let useCache := if !aho.UseCache then false else useCache
  if a.agencies.isSome ∧ useCache = true then
    .ret ((a.agencies, none), a, w2)
  else
    (Get env a.cfg MethodAgencyList w2).bind fun (resp?, w3) =>
      match resp? with
      | none => .panic
      | some resp =>
        match resp.Error with
        | some err => .ret ((none, some err), a, w3)
        | none =>
          match env.jsonUnmarshal (resp.Data.getD "") with
          | .error err => .ret ((none, some err), a, w3)
          | .ok unmarshalIface =>
            match unmarshalAgencies (.map unmarshalIface) w3 with
            | (.error _err, w4) => .ret ((none, none), a, w4)
            | (.ok agencies, w4) => .ret ((some agencies, none), a, w4)

/-- The method `ApiHandler.GetAgency`. -/
def GetAgency (env : Env) (a : ApiHandler) (agencyTag : String) (opts : List ApiHandlerOption)
    (w : World) : Run (Except Err Agency × ApiHandler × World) :=
  (GetAgencies env a opts w).bind fun ((agencies, err), a1, w1) =>
    match err with
    | some err => .ret (.error err, a1, w1)
    | none =>
      match (agencies.getD []).find? (fun agency => agency.Tag = agencyTag) with
      | some agency => .ret (.ok agency, a1, w1)
      | none => .ret (.error ("Agency " ++ agencyTag ++ " not found."), a1, w1)

/-! ## route.go -/

/-- The method `Route.GetService`. -/
def Route.GetService (r : Route) (tag : String) : Except Err Service :=
  match r.Services with
  | none => .error "NilServicesErr"
  | some svcs =>
    match svcs.find? (fun v => v.Tag = tag) with
    | some v => .ok v
    | none => .error "ServiceNotFound"

/-- The method `Route.GetStop`. -/
def Route.GetStop (r : Route) (stopId : String) : Except Err Stop :=
  match r.Stops with
  | none => .error "NilStopsErr"
  | some stops =>
    match stops.find? (fun v => v.StopID = stopId) with
    | some v => .ok v
    | none => .error "StopNotFound"

/-- The method `Route.GetStopByTag`. -/
def Route.GetStopByTag (r : Route) (stopTag : String) : Except Err Stop :=
  match r.Stops with
  | none => .error "NilStopsErr"
  | some stops =>
    match stops.find? (fun v => v.Tag = stopTag) with
    | some v => .ok v
    | none => .error "StopNotFound"

/-- The function `unmarshalRouteStop`: the stop `s` after the call, or the error. A missing
`shortTitle` leaves `ShortTitle` untouched. -/
def unmarshalRouteStop (env : Env) (s : Stop) (v : Iface) : Except Err Stop :=
  match v.asMap with
  | none => .error "Could not marshal stop to map[string]interface{}"
  | some stop =>
    let (tag, ok) := IfaceToString (stop.idx "tag")
    let s := if ok then { s with Tag := tag } else s
    let (id, ok) := IfaceToString (stop.idx "stopId")
    let s := if ok then { s with StopID := id } else s
    let (title, ok) := IfaceToString (stop.idx "title")
    let s := if ok then { s with Title := title } else s
    let (stitle, ok) := IfaceToString (stop.idx "shortTitle")
    let s := if ok then { s with ShortTitle := stitle } else s
    let (lon, ok) := IfaceToFloat env.parseFloat (stop.idx "lon")
    let s := if ok then { s with Longitude := lon } else s
    let (lat, ok) := IfaceToFloat env.parseFloat (stop.idx "lat")
    let s := if ok then { s with Latitude := lat } else s
    .ok s

/-- The local slice `stops` that the last loop of `unmarshalServiceRoute` builds from the
route's stops. -/
def serviceStopList (r : Route) : List Iface → List Stop → List Stop
  | [], stops => stops
  | stopProto :: rest, stops =>
    match stopProto.asMap with
    | none => serviceStopList r rest stops
    | some stopIface =>
      let (stopTag, ok) := IfaceToString (stopIface.idx "tag")
      if ok then
        match r.GetStopByTag stopTag with
        | .ok stop => serviceStopList r rest (stops ++ [stop])
        | .error _ => serviceStopList r rest stops
      else serviceStopList r rest stops

/-- The function `unmarshalServiceRoute`; `r` is the route `s.route` points to. The local
`stops` is built and then dropped: `s.Stops` is never assigned. -/
def unmarshalServiceRoute (r : Route) (s : Service) (v : Iface) : Except Err Service :=
  match v.asMap with
  | none => .error "Could not unmarshal service to map[string]interface{}"
  | some svc =>
    let (tag, ok) := IfaceToString (svc.idx "tag")
    let s := if ok then { s with Tag := tag } else s
    let (name, ok) := IfaceToString (svc.idx "name")
    let s := if ok then { s with Name := name } else s
    let (title, ok) := IfaceToString (svc.idx "title")
    let s := if ok then { s with Title := title } else s
    let (ufui, ok) := IfaceToBool (svc.idx "useForUI")
    let s := if ok then { s with UseForUI := ufui } else s
    match (svc.idx "stop").asSlice with
    | none => .error ("Could not retrieve stop list from service route " ++ tag)
    | some stopList =>
      let _stops := serviceStopList r stopList []
      .ok s

/-- First loop of `Agency.unmarshalRouteConfig`: one fresh `Stop` per element of `stopList`. -/
def routeStopsLoop (env : Env) : List Iface → List Stop → World → Except Err (List Stop) × World
  | [], stops, w => (.ok stops, w)
  | protoStop :: rest, stops, w =>
    let (p, w1) := alloc w
    let s : Stop := { addr := p, StopID := "", Tag := "", Title := "", ShortTitle := "",
                      Longitude := ⟨0⟩, Latitude := ⟨0⟩, Predictions := none, cacheAge := 0 }
    match unmarshalRouteStop env s protoStop with
    | .error err => (.error err, w1)
    | .ok s => routeStopsLoop env rest (stops ++ [s]) w1

/-- Second loop of `Agency.unmarshalRouteConfig`: one fresh `Service` per element of
`svcList`. -/
def routeServicesLoop (r : Route) : List Iface → List Service → World →
    Except Err (List Service) × World
  | [], svcs, w => (.ok svcs, w)
  | svcProto :: rest, svcs, w =>
    let (p, w1) := alloc w
    let svc : Service := { addr := p, Tag := "", Name := "", Title := "", UseForUI := false,
                           Stops := none, route := r.addr }
    match unmarshalServiceRoute r svc svcProto with
    | .error err => (.error err, w1)
    | .ok svc => routeServicesLoop r rest (svcs ++ [svc]) w1

/-- The method `Agency.unmarshalRouteConfig`. -/
def unmarshalRouteConfig (env : Env) (v : Iface) (w : World) : Except Err Route × World :=
  match v.asMap with
  | none => (.error "could not cast input to map[string]interface{}", w)
  | some iface =>
    let (p, w1) := alloc w
    let r : Route := { addr := p, Title := "", ShortTitle := "", Tag := "",
                       Services := none, Stops := none }
    match (iface.idx "route").asMap with
    | none => (.error "could not get route from response", w1)
    | some rteIface =>
      let (tag, ok) := IfaceToString (rteIface.idx "tag")
      let r := if ok then { r with Tag := tag } else r
      let (title, ok) := IfaceToString (rteIface.idx "title")
      let r := if ok then { r with Title := title } else r
      let (sTitle, ok) := IfaceToString (rteIface.idx "shortTitle")
      let r := if ok then { r with ShortTitle := sTitle } else { r with ShortTitle := title }
      match (rteIface.idx "stop").asSlice with
      | none => (.error "Could not get list of stops from routeConfig", w1)
      | some stopList =>
        match routeStopsLoop env stopList [] w1 with
        | (.error err, w2) => (.error err, w2)
        | (.ok stops, w2) =>
          let r := { r with Stops := some stops }
          let svcList? : Option (List Iface) :=
            match (rteIface.idx "direction").asSlice with
            | some svcList => some svcList
            | none =>
              match (rteIface.idx "direction").asMap with
              | some singleSvc => some [Iface.map singleSvc]
              | none => none
          match svcList? with
          | none => (.error "Could not get service routes from routeConfig", w2)
          | some svcList =>
            match routeServicesLoop r svcList [] w2 with
            | (.error err, w3) => (.error err, w3)
            | (.ok svcs, w3) => (.ok { r with Services := some svcs }, w3)

/-! ## agency.go -/

/-- Range loop of `Agency.GetRoutes` over `rl`: the tags appended to `routes`. -/
def routeTagsLoop : List Iface → List String → List String
  | [], routes => routes
  | v :: rest, routes =>
    match v.asMap with
    | none => routeTagsLoop rest routes
    | some rte =>
      let (tag, ok) := IfaceToString (rte.idx "tag")
      if ok then routeTagsLoop rest (routes ++ [tag]) else routeTagsLoop rest routes

/-- The route tags `Agency.GetRoutes` discovers in a decoded routeList response. A `route`
field that is neither an array nor a mapping makes the unchecked assertion
`routeList.(map[string]interface{})` panic (`none`). -/
def routeTags (routesIface : JMap) : Option (List String) :=
  match routesIface.get? "route" with
  | none => some []
  | some routeList =>
    match routeList.asSlice with
    | some rl => some (routeTagsLoop rl [])
    | none =>
      match routeList.asMap with
      | some single => some (routeTagsLoop [Iface.map single] [])
      | none => none

/-- Second loop of `Agency.GetRoutes`: one routeConfig request per tag; the first failure
ends the call with that error. The result is the slice `rtes`. -/
def routeConfigsLoop (env : Env) (h : ApiHandler) (agencyTag : String) :
    List String → List Route → World → Run (Except Err (List Route) × World)
  | [], rtes, w => .ret (.ok rtes, w)
  | r :: rest, rtes, w =>
    (Get env h.cfg (MethodRouteConfig agencyTag r) w).bind fun (resp?, w1) =>
      match resp? with
      | none => .panic
      | some resp =>
        match resp.Error with
        | some err => .ret (.error err, w1)
        | none =>
          match env.jsonUnmarshal (resp.Data.getD "") with
          | .error err => .ret (.error err, w1)
          | .ok rIface =>
            match unmarshalRouteConfig env (.map rIface) w1 with
            | (.error err, w2) => .ret (.error err, w2)
            | (.ok rcfg, w2) => routeConfigsLoop env h agencyTag rest (rtes ++ [rcfg]) w2

/-- The refresh of `Agency.GetRoutes` (everything after the cache test): one routeList
request, the discovery of the route tags, one routeConfig request per tag, then the
assignments `a.Routes = rtes` and `a.cacheAge = time.Now()`. Every early `return nil, err`
leaves the agency as it was. -/
def refreshRoutes (env : Env) (h : ApiHandler) (a : Agency) (w1 : World) :
    Run (Result (List Route) × Agency × World) :=
  (Get env h.cfg (MethodRoutes a.Tag) w1).bind fun (resp?, w2) =>
    match resp? with
    | none => .panic
    | some resp =>
      match resp.Error with
      | some err => .ret ((none, some err), a, w2)
      | none =>
        match env.jsonUnmarshal (resp.Data.getD "") with
        | .error err => .ret ((none, some err), a, w2)
        | .ok routesIface =>
          match routeTags routesIface with
          | none => .panic
          | some routes =>
            (routeConfigsLoop env h a.Tag routes [] w2).bind fun (res, w3) =>
              match res with
              | .error err => .ret ((none, some err), a, w3)
              | .ok rtes =>
                let a1 := { a with Routes := some rtes }
                let (stamp, w4) := timeNow env w3
                let a2 := { a1 with cacheAge := stamp }
                .ret ((some rtes, none), a2, w4)

/-- The method `Agency.GetRoutes`; `h` is the handler `a.api`. The parameter `opts` is never
read. The agency after the call is returned next to the result. -/
def GetRoutes (env : Env) (h : ApiHandler) (a : Agency) (_opts : List ApiHandlerOption)
    (w : World) : Run (Result (List Route) × Agency × World) :=
  let aho := w.dflt
  let useCache := aho.UseCache
  let useCache := if a.Routes.isNone then false else useCache
  let (now, w1) := timeNow env w
  let useCache :=
    if Time.Sub now a.cacheAge > Duration.mul h.cacheMaxAge Second then false else useCache
  if useCache = true then
    .ret ((a.Routes, none), a, w1)
  else
    refreshRoutes env h a w1

/-- The method `Agency.GetRoute`. -/
def Agency.GetRoute (env : Env) (h : ApiHandler) (a : Agency) (routeTag : String) (w : World) :
    Run (Except Err Route × Agency × World) :=
  let scan (a : Agency) (w : World) : Run (Except Err Route × Agency × World) :=
    match (a.Routes.getD []).find? (fun route => route.Tag = routeTag) with
    | some route => .ret (.ok route, a, w)
    | none => .ret (.error "RouteNotFoundErr", a, w)
  if a.Routes.isNone then
    (GetRoutes env h a [] w).bind fun ((_, err), a1, w1) =>
      match err with
      | some err => .ret (.error err, a1, w1)
      | none => scan a1 w1
  else scan a w

/-- The method `Agency.GetServiceByRoute`. -/
def Agency.GetServiceByRoute (env : Env) (h : ApiHandler) (a : Agency) (routeTag svcTag : String)
    (w : World) : Run (Except Err Service × Agency × World) :=
  (Agency.GetRoute env h a routeTag w).bind fun (res, a1, w1) =>
    match res with
    | .error err => .ret (.error err, a1, w1)
    | .ok route =>
      match route.GetService svcTag with
      | .error err => .ret (.error err, a1, w1)
      | .ok svc => .ret (.ok svc, a1, w1)

/-- Loop of `Agency.GetService` over the remaining `routes`. -/
def getServiceLoop (env : Env) (h : ApiHandler) (svcTag : String) :
    List Route → Agency → World → Run (Except Err Service × Agency × World)
  | [], a, w => .ret (.error "ServiceNotFoundErr", a, w)
  | route :: rest, a, w =>
    (Agency.GetServiceByRoute env h a route.Tag svcTag w).bind fun (res, a1, w1) =>
      match res with
      | .error _ => getServiceLoop env h svcTag rest a1 w1
      | .ok svc => .ret (.ok svc, a1, w1)

/-- The method `Agency.GetService`. -/
def Agency.GetService (env : Env) (h : ApiHandler) (a : Agency) (svcTag : String) (w : World) :
    Run (Except Err Service × Agency × World) :=
  (GetRoutes env h a [] w).bind fun ((routes, err), a1, w1) =>
    match err with
    | some err => .ret (.error err, a1, w1)
    | none => getServiceLoop env h svcTag (routes.getD []) a1 w1

/-- First loop of `Agency.GetStop`: `stops = append(stops, route.Stops...)` for every
route in order. -/
def flattenStops : List Route → List Stop → List Stop
  | [], stops => stops
  | route :: rest, stops => flattenStops rest (stops ++ route.Stops.getD [])

/-- The method `Agency.GetStop`. -/
def Agency.GetStop (env : Env) (h : ApiHandler) (a : Agency) (stopId : String) (w : World) :
    Run (Except Err Stop × Agency × World) :=
  let scan (a : Agency) (w : World) : Run (Except Err Stop × Agency × World) :=
    let stops := flattenStops (a.Routes.getD []) []
    match stops.find? (fun stop => stop.StopID = stopId) with
    | some stop => .ret (.ok stop, a, w)
    | none => .ret (.error "StopNotFoundErr", a, w)
  if a.Routes.isNone then
    (GetRoutes env h a [] w).bind fun ((_, err), a1, w1) =>
      match err with
      | some _ => .ret (.error "Could not get stops from routes from api", a1, w1)
      | none => scan a1 w1
  else scan a w

/-- Loop of `Agency.GetStopRoutes` over the routes: a route is kept when the identifiers
of its stops contain `stopId`. -/
def stopRoutesLoop (stopId : String) : List Route → List Route → List Route
  | [], routes => routes
  | route :: rest, routes =>
    let stops : List String := (route.Stops.getD []).map (fun stop => stop.StopID)
    if stopId ∈ stops then stopRoutesLoop stopId rest (routes ++ [route])
    else stopRoutesLoop stopId rest routes

/-- The method `Agency.GetStopRoutes`. -/
def Agency.GetStopRoutes (env : Env) (h : ApiHandler) (a : Agency) (stopId : String)
    (w : World) : Run (Except Err (List Route) × Agency × World) :=
  if a.Routes.isNone then
    (GetRoutes env h a [] w).bind fun ((_, err), a1, w1) =>
      match err with
      | some _ => .ret (.error "Could not get stops from routes from api", a1, w1)
      | none => .ret (.ok (stopRoutesLoop stopId (a1.Routes.getD []) []), a1, w1)
  else .ret (.ok (stopRoutesLoop stopId (a.Routes.getD []) []), a, w)

/-- First loop of `Agency.GetStopServiceRoutes`:
`searchSvcs = append(searchSvcs, route.Services...)`. -/
def searchServices : List Route → List Service → List Service
  | [], searchSvcs => searchSvcs
  | route :: rest, searchSvcs => searchServices rest (searchSvcs ++ route.Services.getD [])

/-- Inner loop of `Agency.GetStopServiceRoutes` over the stops of `svc`: the service is
appended once for every stop of its own list whose identifier is `stopId`. -/
def serviceStopMatches (stopId : String) (svc : Service) : List Stop → List Service → List Service
  | [], svcRoutes => svcRoutes
  | stop :: rest, svcRoutes =>
    if stop.StopID = stopId then serviceStopMatches stopId svc rest (svcRoutes ++ [svc])
    else serviceStopMatches stopId svc rest svcRoutes

/-- Outer loop of `Agency.GetStopServiceRoutes` over `searchSvcs`. -/
def stopServicesLoop (stopId : String) : List Service → List Service → List Service
  | [], svcRoutes => svcRoutes
  | svc :: rest, svcRoutes =>
    stopServicesLoop stopId rest (serviceStopMatches stopId svc (svc.Stops.getD []) svcRoutes)

/-- The method `Agency.GetStopServiceRoutes`. -/
def Agency.GetStopServiceRoutes (env : Env) (h : ApiHandler) (a : Agency) (stopId : String)
    (w : World) : Run (Except Err (List Service) × Agency × World) :=
  (Agency.GetStopRoutes env h a stopId w).bind fun (res, a1, w1) =>
    match res with
    | .error err => .ret (.error err, a1, w1)
    | .ok routes =>
      let searchSvcs := searchServices routes []
      .ret (.ok (stopServicesLoop stopId searchSvcs []), a1, w1)

/-- Inner loop of `Agency.GetStops` over the stops of one route. `slices.Contains` on a
`[]*Stop` compares pointers: a stop is skipped only when the very same object is already in
`stops`. -/
def unionStopList : List Stop → List Stop → List Stop
  | [], stops => stops
  | stop :: rest, stops =>
    if stops.any (fun x => x.addr = stop.addr) then unionStopList rest stops
    else unionStopList rest (stops ++ [stop])

/-- Outer loop of `Agency.GetStops` over the routes. -/
def unionStopsLoop : List Route → List Stop → List Stop
  | [], stops => stops
  | route :: rest, stops => unionStopsLoop rest (unionStopList (route.Stops.getD []) stops)

/-- The method `Agency.GetStops`. -/
def Agency.GetStops (env : Env) (h : ApiHandler) (a : Agency) (opts : List ApiHandlerOption)
    (w : World) : Run (Except Err (List Stop) × Agency × World) :=
  (GetRoutes env h a opts w).bind fun ((routes, err), a1, w1) =>
    match err with
    | some err => .ret (.error err, a1, w1)
    | none => .ret (.ok (unionStopsLoop (routes.getD []) []), a1, w1)

/-! ## prediction.go -/

/-- The method `Prediction.unmarshalPrediction`; `a` is the agency `p.agency` points to. -/
def unmarshalPrediction (env : Env) (h : ApiHandler) (a : Agency) (p : Prediction) (v : Iface)
    (w : World) : Run (Except Err Prediction × Agency × World) :=
  match v.asMap with
  | none => .ret (.error "Could not unmarshal prediction to map[string]interface{}", a, w)
  | some pIface =>
    let (svcTag, ok) := IfaceToString (pIface.idx "dirTag")
    if !ok then .ret (.error "Could not get service from prediction", a, w)
    else
      (Agency.GetService env h a svcTag w).bind fun (res, a1, w1) =>
        match res with
        | .error err => .ret (.error err, a1, w1)
        | .ok svc =>
          let p := { p with Service := some svc.addr, Route := some svc.route }
          let (etaVal, ok) := IfaceToInt (pIface.idx "epochTime")
          if !ok then .ret (.error "Could not get prediction time from response", a1, w1)
          else
            let p := { p with Eta := UnixMilli etaVal }
            let (min, ok) := IfaceToInt (pIface.idx "minutes")
            let p := if ok then { p with Minutes := min } else p
            let (sec, ok) := IfaceToInt (pIface.idx "seconds")
            let p := if ok then { p with Seconds := sec } else p
            let (branch, ok) := IfaceToString (pIface.idx "branch")
            let p := if ok then { p with Branch := branch } else p
            let (layover, _) := IfaceToBool (pIface.idx "affectedByLayover")
            let p := { p with AffectedByLayover := layover }
            let (depart, _) := IfaceToBool (pIface.idx "isDeparture")
            let p := { p with IsDeparture := depart }
            let (ttag, ok) := IfaceToString (pIface.idx "tripTag")
            let p := if ok then { p with TripTag := ttag } else p
            let (sched, _) := IfaceToBool (pIface.idx "isScheduleBased")
            let p := { p with ScheduleBased := sched }
            let (delayed, _) := IfaceToBool (pIface.idx "delayed")
            let p := { p with Delayed := delayed }
            if p.PredictionTime = (0 : Time) then
              let (now, w2) := timeNow env w1
              .ret (.ok { p with PredictionTime := now }, a1, w2)
            else .ret (.ok p, a1, w1)

/-- Innermost loop of `unmarshalPredictionServiceRoutes`, over the predictions of one
direction; `now` was read before the loop. -/
def predictionsLoop (env : Env) (h : ApiHandler) (now : Time) :
    List Iface → List Prediction → Agency → World →
      Run (Except Err (List Prediction) × Agency × World)
  | [], preds, a, w => .ret (.ok preds, a, w)
  | pred :: rest, preds, a, w =>
    let (addr, w1) := alloc w
    let p : Prediction :=
      { addr := addr, Service := none, Route := none, Eta := 0, Minutes := 0, Seconds := 0,
        Branch := "", AffectedByLayover := false, IsDeparture := false, TripTag := "",
        ScheduleBased := false, Delayed := false, PredictionTime := now }
    (unmarshalPrediction env h a p pred w1).bind fun (res, a1, w2) =>
      match res with
      | .error err => .ret (.error err, a1, w2)
      | .ok p => predictionsLoop env h now rest (preds ++ [p]) a1 w2

/-- Outer loop of `unmarshalPredictionServiceRoutes`, over the directions. -/
def servicePredictionsLoop (env : Env) (h : ApiHandler) :
    List Iface → List Prediction → Agency → World →
      Run (Except Err (List Prediction) × Agency × World)
  | [], preds, a, w => .ret (.ok preds, a, w)
  | svc :: rest, preds, a, w =>
    match svc.asMap with
    | none => servicePredictionsLoop env h rest preds a w
    | some sp =>
      let spPreds? : Option (List Iface) :=
        match (sp.idx "prediction").asSlice with
        | some spPreds => some spPreds
        | none =>
          match (sp.idx "prediction").asMap with
          | some spPredSingle => some [Iface.map spPredSingle]
          | none => none
      match spPreds? with
      | none => servicePredictionsLoop env h rest preds a w
      | some spPreds =>
        let (now, w1) := timeNow env w
        (predictionsLoop env h now spPreds preds a w1).bind fun (res, a1, w2) =>
          match res with
          | .error err => .ret (.error err, a1, w2)
          | .ok preds => servicePredictionsLoop env h rest preds a1 w2

/-- The function `unmarshalPredictionServiceRoutes`; `a` is the agency `stop.agency`. -/
def unmarshalPredictionServiceRoutes (env : Env) (h : ApiHandler) (a : Agency) (v : Iface)
    (w : World) : Run (Except Err (List Prediction) × Agency × World) :=
  let svcPreds? : Option (List Iface) :=
    match v.asSlice with
    | some svcPreds => some svcPreds
    | none =>
      match v.asMap with
      | some svcPredSingle => some [Iface.map svcPredSingle]
      | none => none
  match svcPreds? with
  | none => .ret (.error "ServicePredictionsUnmarshalErr", a, w)
  | some svcPreds => servicePredictionsLoop env h svcPreds [] a w

/-! ## stop.go -/

/-- The method `Stop.predictionRequest`; `a` is the agency `s.agency`. -/
def predictionRequest (env : Env) (h : ApiHandler) (a : Agency) (s : Stop) (routeTag : String)
    (w : World) : Run (Result Bytes × World) :=
  (Get env h.cfg (MethodPredictions a.Tag s.StopID routeTag) w).bind fun (resp?, w1) =>
    match resp? with
    | none => .panic
    | some resp =>
      match resp.Error with
      | some err => .ret ((none, some err), w1)
      | none => .ret ((resp.Data, none), w1)

/-- Loop of `Stop.GetPredictions` over `predArray`. -/
def routePredictionsLoop (env : Env) (h : ApiHandler) :
    List Iface → List Prediction → Agency → World →
      Run (Except Err (List Prediction) × Agency × World)
  | [], predictions, a, w => .ret (.ok predictions, a, w)
  | routePreds :: rest, predictions, a, w =>
    match routePreds.asMap with
    | none => .ret (.error "RoutePredictionUnmarshalErr", a, w)
    | some rp =>
      let (_, emptyTest) := IfaceToString (rp.idx "dirTitleBecauseNoPredictions")
      if emptyTest then routePredictionsLoop env h rest predictions a w
      else
        match rp.get? "direction" with
        | none => routePredictionsLoop env h rest predictions a w
        | some svcPreds =>
          (unmarshalPredictionServiceRoutes env h a svcPreds w).bind fun (res, a1, w1) =>
            match res with
            | .error err => .ret (.error err, a1, w1)
            | .ok pset => routePredictionsLoop env h rest (predictions ++ pset) a1 w1

/-- The fetch of `Stop.GetPredictions` (everything after the cache test). The error of
`predictionRequest` is overwritten by that of `json.Unmarshal`. On success only
`s.Predictions` is assigned: `s.cacheAge` is never written. -/
def fetchPredictions (env : Env) (h : ApiHandler) (a : Agency) (s : Stop) (w1 : World) :
    Run (Result (List Prediction) × Stop × Agency × World) :=
  (predictionRequest env h a s "" w1).bind fun ((data, _err), w2) =>
    match env.jsonUnmarshal (data.getD "") with
    | .error err => .ret ((none, some err), s, a, w2)
    | .ok pIface =>
      match pIface.get? "predictions" with
      | none => .ret ((none, some "PredictionUnmarshalErr"), s, a, w2)
      | some preds =>
        let predArray? : Option (List Iface) :=
          match preds.asSlice with
          | some predArray => some predArray
          | none =>
            match preds.asMap with
            | some predSingle => some [Iface.map predSingle]
            | none => none
        match predArray? with
        | none => .ret ((none, some "PredictionUnmarshalErr"), s, a, w2)
        | some predArray =>
          (routePredictionsLoop env h predArray [] a w2).bind fun (res, a1, w3) =>
            match res with
            | .error err => .ret ((none, some err), s, a1, w3)
            | .ok predictions =>
              .ret ((some predictions, none), { s with Predictions := some predictions },
                a1, w3)

/-- The method `Stop.GetPredictions`; `h` is `s.api` and `a` is `s.agency`. The options are
applied to a fresh `ApiHandlerOptions{UseCache: true}`. The stop and the agency after the
call are returned next to the result. -/
def GetPredictions (env : Env) (h : ApiHandler) (a : Agency) (s : Stop)
    (opts : List ApiHandlerOption) (w : World) :
    Run (Result (List Prediction) × Stop × Agency × World) :=
  let aho : ApiHandlerOptions :=
    opts.foldl (fun aho opt => opt aho) { UseCache := true, CacheMaxAge := 0 }
  let cacheMaxAge : Int := 0
  let (now, w1) := timeNow env w
  let cacheMaxAge := if aho.CacheMaxAge ≠ 0 then aho.CacheMaxAge else cacheMaxAge
  let useCache := true
  let useCache := if s.Predictions.isNone then false else useCache
  let useCache :=
    if Time.Sub now s.cacheAge > Duration.mul cacheMaxAge Second then false else useCache
  let useCache := if aho.UseCache = false then false else useCache
  if useCache = true then
    .ret ((s.Predictions, none), s, a, w1)
  else
    fetchPredictions env h a s w1

/-! ## Stub transports -/

/-- An environment whose client answers the `k`-th single attempt with `outcomes k`; request
construction always succeeds, the clock reads `clock k` at its `k`-th reading and
`decode` stands for `json.Unmarshal`. -/
def stubEnv (outcomes : Nat → DoResult) (clock : Nat → Time)
    (decode : Bytes → Except Err JMap) : Env :=
  { now := clock, newRequest := fun _ => none, Do := fun k _ => outcomes k,
    jsonUnmarshal := decode, parseFloat := fun _ => none }

/-- A decoder that accepts nothing. -/
def noJSON : Bytes → Except Err JMap := fun _ => .error "unexpected end of JSON input"

/-- A client that fails twice and then always succeeds with the bytes `payload`. -/
def failTwiceThenOk : Nat → DoResult := fun k =>
  if k < 2 then .failed "connection refused"
  else .response { StatusCode := 200, Body := "payload", readErr := none }

/-- A client whose third attempt alone succeeds. -/
def onlyThirdOk : Nat → DoResult := fun k =>
  if k = 2 then .response { StatusCode := 200, Body := "payload", readErr := none }
  else .failed "connection refused"

/-- A client that always fails. -/
def alwaysFail : Nat → DoResult := fun _ => .failed "connection refused"

/-- A client that always delivers a 404 response with a readable body. -/
def always404 : Nat → DoResult := fun _ =>
  .response { StatusCode := 404, Body := "Not Found", readErr := none }

/-! ## A small feed fixture

Response bodies are JSON text (braces and quotes written as character escapes) and
`feedDecode` gives the value `json.Unmarshal` decodes each of them to. -/

/-- Body `{"agency":[{"tag":"ttc","title":"Toronto Transit Commission"}]}`. -/
def agencyListBody : Bytes :=
  "\x7b\x22agency\x22:[\x7b\x22tag\x22:\x22ttc\x22,\x22title\x22:\x22Toronto Transit Commission\x22\x7d]\x7d"

/-- Body `{}`: a JSON object without an `agency` field. -/
def emptyObjectBody : Bytes := "\x7b\x7d"

/-- Body `{"agency":[{"title":"Toronto Transit Commission"}]}`: the element has no `tag`. -/
def agencyNoTagBody : Bytes :=
  "\x7b\x22agency\x22:[\x7b\x22title\x22:\x22Toronto Transit Commission\x22\x7d]\x7d"

/-- Body `{"route":[{"tag":"501"},{"tag":"504"}]}`. -/
def routeListBody : Bytes :=
  "\x7b\x22route\x22:[\x7b\x22tag\x22:\x22501\x22\x7d,\x7b\x22tag\x22:\x22504\x22\x7d]\x7d"

/-- Body `{"route":{"tag":"501","title":"501-Queen","stop":[{"tag":"s1","stopId":"1001",
"title":"Queen St"}],"direction":{"tag":"501_0","title":"East","stop":[{"tag":"s1"}]}}}`. -/
def routeConfig501Body : Bytes :=
  "\x7b\x22route\x22:\x7b\x22tag\x22:\x22501\x22,\x22title\x22:\x22501-Queen\x22,\x22stop\x22:[\x7b\x22tag\x22:\x22s1\x22,\x22stopId\x22:\x221001\x22,\x22title\x22:\x22Queen St\x22\x7d],\x22direction\x22:\x7b\x22tag\x22:\x22501_0\x22,\x22title\x22:\x22East\x22,\x22stop\x22:[\x7b\x22tag\x22:\x22s1\x22\x7d]\x7d\x7d\x7d"

/-- Body `{"route":{"tag":"504","title":"504-King","stop":[{"tag":"k1","stopId":"1001",
"title":"King St"}],"direction":[{"tag":"504_0","title":"East","stop":[{"tag":"k1"}]}]}}`. -/
def routeConfig504Body : Bytes :=
  "\x7b\x22route\x22:\x7b\x22tag\x22:\x22504\x22,\x22title\x22:\x22504-King\x22,\x22stop\x22:[\x7b\x22tag\x22:\x22k1\x22,\x22stopId\x22:\x221001\x22,\x22title\x22:\x22King St\x22\x7d],\x22direction\x22:[\x7b\x22tag\x22:\x22504_0\x22,\x22title\x22:\x22East\x22,\x22stop\x22:[\x7b\x22tag\x22:\x22k1\x22\x7d]\x7d]\x7d\x7d"

/-- Body `{"predictions":{"routeTag":"501","dirTitleBecauseNoPredictions":"East"}}`. -/
def noPredictionsBody : Bytes :=
  "\x7b\x22predictions\x22:\x7b\x22routeTag\x22:\x22501\x22,\x22dirTitleBecauseNoPredictions\x22:\x22East\x22\x7d\x7d"

/-- The decoded value of each fixture body. -/
def feedDecode : Bytes → Except Err JMap := fun data =>
  if data = agencyListBody then
    .ok [("agency", .slice [.map [("tag", .str "ttc"),
                                  ("title", .str "Toronto Transit Commission")]])]
  else if data = emptyObjectBody then .ok []
  else if data = agencyNoTagBody then
    .ok [("agency", .slice [.map [("title", .str "Toronto Transit Commission")]])]
  else if data = routeListBody then
    .ok [("route", .slice [.map [("tag", .str "501")], .map [("tag", .str "504")]])]
  else if data = routeConfig501Body then
    .ok [("route", .map [("tag", .str "501"), ("title", .str "501-Queen"),
      ("stop", .slice [.map [("tag", .str "s1"), ("stopId", .str "1001"),
                             ("title", .str "Queen St")]]),
      ("direction", .map [("tag", .str "501_0"), ("title", .str "East"),
                          ("stop", .slice [.map [("tag", .str "s1")]])])])]
  else if data = routeConfig504Body then
    .ok [("route", .map [("tag", .str "504"), ("title", .str "504-King"),
      ("stop", .slice [.map [("tag", .str "k1"), ("stopId", .str "1001"),
                             ("title", .str "King St")]]),
      ("direction", .slice [.map [("tag", .str "504_0"), ("title", .str "East"),
                                  ("stop", .slice [.map [("tag", .str "k1")]])]])])]
  else if data = noPredictionsBody then
    .ok [("predictions", .map [("routeTag", .str "501"),
                               ("dirTitleBecauseNoPredictions", .str "East")])]
  else .error "invalid character looking for beginning of value"

/-- A client serving the fixture: the body registered for the command, with status 200. -/
def feedDo (agencyList : Bytes) : Nat → String → DoResult := fun _ url =>
  if url = API_URI ++ "?command=agencyList" then .response ⟨200, agencyList, none⟩
  else if url = API_URI ++ "?command=routeList&a=ttc" then .response ⟨200, routeListBody, none⟩
  else if url = API_URI ++ "?command=routeConfig&a=ttc&r=501&verbose" then
    .response ⟨200, routeConfig501Body, none⟩
  else if url = API_URI ++ "?command=routeConfig&a=ttc&r=504&verbose" then
    .response ⟨200, routeConfig504Body, none⟩
  else if url = API_URI ++ "?command=predictions&a=ttc&stopId=1001" then
    .response ⟨200, noPredictionsBody, none⟩
  else .failed "no such host"

/-- An instant in the year 2026, in nanoseconds since the zero `Time`. -/
def t2026 : Time := 63900000000 * 1000000000

/-- A clock whose `k`-th reading is `10 * k` seconds after `t2026`. -/
def feedClock : Nat → Time := fun k => t2026 + (k : Int) * (10 * 1000000000)

/-- The fixture environment; `agencyList` is the body served for the agencyList command. -/
def feedEnv (agencyList : Bytes) : Env :=
  { now := feedClock, newRequest := fun _ => none, Do := feedDo agencyList,
    jsonUnmarshal := feedDecode, parseFloat := fun _ => none }

/-- The agency of the fixture as `unmarshalAgencies` builds it at address 0. -/
def ttc : Agency :=
  { addr := 0, Title := "Toronto Transit Commission", Tag := "ttc",
    ShortTitle := "Toronto Transit Commission", RegionTitle := "", Routes := none,
    cacheAge := 0 }

/-- The stop of route 501 as `unmarshalRouteConfig` builds it at address 2. -/
def queenStop : Stop :=
  { addr := 2, StopID := "1001", Tag := "s1", Title := "Queen St", ShortTitle := "",
    Longitude := ⟨0⟩, Latitude := ⟨0⟩, Predictions := none, cacheAge := 0 }

/-- The stop of route 504 (the same physical stop, identifier 1001) at address 5. -/
def kingStop : Stop :=
  { addr := 5, StopID := "1001", Tag := "k1", Title := "King St", ShortTitle := "",
    Longitude := ⟨0⟩, Latitude := ⟨0⟩, Predictions := none, cacheAge := 0 }

/-- Route 501 of the fixture as `unmarshalRouteConfig` builds it from address `p` on. -/
def route501At (p : Nat) : Route :=
  { addr := p, Title := "501-Queen", ShortTitle := "501-Queen", Tag := "501",
    Services := some [{ addr := p + 2, Tag := "501_0", Name := "", Title := "East",
                        UseForUI := false, Stops := none, route := p }],
    Stops := some [{ queenStop with addr := p + 1 }] }

/-- Route 504 of the fixture as `unmarshalRouteConfig` builds it from address `p` on. -/
def route504At (p : Nat) : Route :=
  { addr := p, Title := "504-King", ShortTitle := "504-King", Tag := "504",
    Services := some [{ addr := p + 2, Tag := "504_0", Name := "", Title := "East",
                        UseForUI := false, Stops := none, route := p }],
    Stops := some [{ kingStop with addr := p + 1 }] }

/-- Route 501 as built by the first refresh from `wStart`. -/
def route501 : Route := route501At 1

/-- Route 504 as built by the first refresh from `wStart`. -/
def route504 : Route := route504At 4

/-- The commands of one routes refresh of the fixture agency. -/
def routeCalls : List String :=
  ["?command=routeList&a=ttc", "?command=routeConfig&a=ttc&r=501&verbose",
   "?command=routeConfig&a=ttc&r=504&verbose"]

/-- The single attempts of one routes refresh under `DefaultApiHandler`: two per command. -/
def routeAttempts : List String :=
  ["?command=routeList&a=ttc", "?command=routeList&a=ttc",
   "?command=routeConfig&a=ttc&r=501&verbose", "?command=routeConfig&a=ttc&r=501&verbose",
   "?command=routeConfig&a=ttc&r=504&verbose", "?command=routeConfig&a=ttc&r=504&verbose"]

/-- The state in which the fixture agency exists (address 0 is taken) and nothing else has
happened. -/
def wStart : World := { World.init with heapNext := 1 }

/-- The fixture agency after its first routes refresh from `wStart`, stamped with the second
reading of `feedClock`. -/
def ttcLoaded : Agency :=
  { ttc with Routes := some [route501, route504], cacheAge := t2026 + 10 * 1000000000 }

/-- The state after the first routes refresh from `wStart`. -/
def wLoaded : World :=
  { ticks := 2, attempts := routeAttempts, calls := routeCalls, slept := [], heapNext := 7,
    dflt := DefaultApiHandlerOptions }

/-- The fixture environment with a clock that stands still at `t2026`. -/
def frozenEnv (agencyList : Bytes) : Env :=
  { now := fun _ => t2026, newRequest := fun _ => none, Do := feedDo agencyList,
    jsonUnmarshal := feedDecode, parseFloat := fun _ => none }

/-! ## Statements about decoded payloads -/

/-- What `unmarshalAgencies` makes of one well-formed element of the `agency` array. -/
def agencyMatches (e : JMap) (a : Agency) : Prop :=
  e.idx "title" = .str a.Title ∧ e.idx "tag" = .str a.Tag ∧
  (∀ st, e.idx "shortTitle" = .str st → a.ShortTitle = st) ∧
  ((∀ st, e.idx "shortTitle" ≠ .str st) → a.ShortTitle = a.Title)

/-- The elements of a decoded agency list: the first has no `shortTitle`, the second has
one. -/
def twoAgencyElems : List JMap :=
  [[("tag", .str "ttc"), ("title", .str "Toronto Transit Commission")],
   [("tag", .str "sf-muni"), ("title", .str "San Francisco Muni"),
    ("shortTitle", .str "SF Muni"), ("regionTitle", .str "California-Northern")]]

/-- A decoded agency list holding `twoAgencyElems`. -/
def twoAgencyList : JMap := [("agency", .slice (twoAgencyElems.map Iface.map))]

/-- The literal `&Stop{api: a.api, agency: a}` of `unmarshalRouteConfig` at address `p`. -/
def freshStop (p : Nat) : Stop :=
  { addr := p, StopID := "", Tag := "", Title := "", ShortTitle := "",
    Longitude := ⟨0⟩, Latitude := ⟨0⟩, Predictions := none, cacheAge := 0 }

/-- A decoded stop mapping with a title and no `shortTitle`:
`{"tag":"s1","stopId":"1001","title":"Queen St"}`. -/
def queenStopMap : JMap :=
  [("tag", .str "s1"), ("stopId", .str "1001"), ("title", .str "Queen St")]

/-- An environment without transport: only `strconv.ParseFloat` matters to the decoders,
and the fixtures carry no coordinates. -/
def offlineEnv : Env := stubEnv alwaysFail feedClock noJSON

/-- Decoded routeConfig of route N: stops `a` (identifier 100) and `b` (identifier 200);
direction `N_in` lists `a` only, direction `N_out` lists `b` only. -/
def cfgN : JMap :=
  [("route", .map [("tag", .str "N"), ("title", .str "N-Judah"),
    ("stop", .slice [.map [("tag", .str "a"), ("stopId", .str "100"),
                           ("title", .str "Market St")],
                     .map [("tag", .str "b"), ("stopId", .str "200"),
                           ("title", .str "Ocean Beach")]]),
    ("direction", .slice [.map [("tag", .str "N_in"), ("title", .str "Inbound"),
                                ("stop", .slice [.map [("tag", .str "a")]])],
                          .map [("tag", .str "N_out"), ("title", .str "Outbound"),
                                ("stop", .slice [.map [("tag", .str "b")]])]])])]

/-- Decoded routeConfig of route J: stops `a` (identifier 100) and `c` (identifier 300);
direction `J_in` lists `a` only, direction `J_out` lists `c` only. -/
def cfgJ : JMap :=
  [("route", .map [("tag", .str "J"), ("title", .str "J-Church"),
    ("stop", .slice [.map [("tag", .str "a"), ("stopId", .str "100"),
                           ("title", .str "Market St")],
                     .map [("tag", .str "c"), ("stopId", .str "300"),
                           ("title", .str "Balboa Park")]]),
    ("direction", .slice [.map [("tag", .str "J_in"), ("title", .str "Inbound"),
                                ("stop", .slice [.map [("tag", .str "a")]])],
                          .map [("tag", .str "J_out"), ("title", .str "Outbound"),
                                ("stop", .slice [.map [("tag", .str "c")]])]])])]

/-- Route N as `unmarshalRouteConfig` builds it from `cfgN` at addresses 1 to 5. -/
def routeN : Route :=
  { addr := 1, Title := "N-Judah", ShortTitle := "N-Judah", Tag := "N",
    Services := some [{ addr := 4, Tag := "N_in", Name := "", Title := "Inbound",
                        UseForUI := false, Stops := none, route := 1 },
                      { addr := 5, Tag := "N_out", Name := "", Title := "Outbound",
                        UseForUI := false, Stops := none, route := 1 }],
    Stops := some [{ freshStop 2 with StopID := "100", Tag := "a", Title := "Market St" },
                   { freshStop 3 with StopID := "200", Tag := "b", Title := "Ocean Beach" }] }

/-- Route J as `unmarshalRouteConfig` builds it from `cfgJ` at addresses 6 to 10. -/
def routeJ : Route :=
  { addr := 6, Title := "J-Church", ShortTitle := "J-Church", Tag := "J",
    Services := some [{ addr := 9, Tag := "J_in", Name := "", Title := "Inbound",
                        UseForUI := false, Stops := none, route := 6 },
                      { addr := 10, Tag := "J_out", Name := "", Title := "Outbound",
                        UseForUI := false, Stops := none, route := 6 }],
    Stops := some [{ freshStop 7 with StopID := "100", Tag := "a", Title := "Market St" },
                   { freshStop 8 with StopID := "300", Tag := "c", Title := "Balboa Park" }] }

/-- An agency holding the routes N and J. -/
def muni : Agency :=
  { addr := 0, Title := "San Francisco Muni", Tag := "sf-muni", ShortTitle := "SF Muni",
    RegionTitle := "California-Northern", Routes := some [routeN, routeJ],
    cacheAge := t2026 }

/-- The decoded direction of route 501: a single bare mapping. -/
def dir501 : JMap :=
  [("tag", .str "501_0"), ("title", .str "East"), ("stop", .slice [.map [("tag", .str "s1")]])]

/-- The decoded route mapping of the fixture routeConfig of route 501, whose `direction` is
the bare mapping `dir501`. -/
def rte501 : JMap :=
  [("tag", .str "501"), ("title", .str "501-Queen"), ("stop", .slice [.map queenStopMap]),
   ("direction", .map dir501)]

/-- The same route mapping with `direction` written as the one-element array `[dir501]`. -/
def rte501Array : JMap :=
  [("tag", .str "501"), ("title", .str "501-Queen"), ("stop", .slice [.map queenStopMap]),
   ("direction", .slice [.map dir501])]

/-- The same route mapping with `stop` collapsed to the bare mapping `queenStopMap`. -/
def rte501BareStop : JMap :=
  [("tag", .str "501"), ("title", .str "501-Queen"), ("stop", .map queenStopMap),
   ("direction", .map dir501)]

/-- The service `unmarshalRouteConfig` builds from the direction mapping `d` for the route
at address `routeAddr`: tag, name and title are the mapping's string fields (empty when
absent), the UI flag is what `IfaceToBool` makes of `useForUI`. -/
def serviceBuiltFrom (routeAddr : Nat) (d : JMap) (svc : Service) : Prop :=
  svc.Tag = (IfaceToString (d.idx "tag")).1 ∧
  svc.Name = (IfaceToString (d.idx "name")).1 ∧
  svc.Title = (IfaceToString (d.idx "title")).1 ∧
  svc.UseForUI = (IfaceToBool (d.idx "useForUI")).1 ∧
  svc.route = routeAddr

/-- Body `{"route":null}`: the `route` field is present and is neither an array nor a
mapping. -/
def routeNullBody : Bytes := "\x7b\x22route\x22:null\x7d"

/-- Body `{"route":"501"}`: the `route` field is a string. -/
def routeStringBody : Bytes := "\x7b\x22route\x22:\x22501\x22\x7d"

/-- The decoded value of the malformed routeList bodies. -/
def shapeDecode : Bytes → Except Err JMap := fun data =>
  if data = routeNullBody then .ok [("route", .nil)]
  else if data = routeStringBody then .ok [("route", .str "501")]
  else .error "invalid character looking for beginning of value"

/-- An environment whose every request is answered with status 200 and the body `body`,
decoded by `shapeDecode`. -/
def shapeEnv (body : Bytes) : Env :=
  stubEnv (fun _ => .response ⟨200, body, none⟩) feedClock shapeDecode

/-- The fixture feed with a broken route 504: its routeConfig request always fails. -/
def brokenFeedDo : Nat → String → DoResult := fun k url =>
  if url = API_URI ++ "?command=routeConfig&a=ttc&r=504&verbose" then
    .failed "connection reset by peer"
  else feedDo agencyListBody k url

/-- The fixture environment with the broken route 504. -/
def brokenEnv : Env :=
  { now := feedClock, newRequest := fun _ => none, Do := brokenFeedDo,
    jsonUnmarshal := feedDecode, parseFloat := fun _ => none }

/-! ## Reference definitions taken from the specification -/

/-- Reference definition of the boolean coercion, written from the wording of the
specification: a boolean is returned as it is; a string whose lower-cased form is `1`, `true`
or `yes` is true, one whose lower-cased form is `0`, `false` or `no` is false; every other
value is rejected. It is compared with `IfaceToBool`, which is translated from the code. -/
def IfaceToBoolSpec : Iface → Bool × Bool
  | .bool b => (b, true)
  | .str s =>
    let l := s.toLower
    if l = "1" ∨ l = "true" ∨ l = "yes" then (true, true)
    else if l = "0" ∨ l = "false" ∨ l = "no" then (false, true)
    else (false, false)
  | _ => (false, false)

/-- The value `a.api.cacheMaxAge*time.Second` that `Agency.GetRoutes` compares the elapsed
time against. -/
def routesThreshold (h : ApiHandler) : Duration := Duration.mul h.cacheMaxAge Second

/-! ## Prediction fixtures -/

/-- The service `501_0` of the loaded fixture agency. -/
def svc501 : Service :=
  { addr := 3, Tag := "501_0", Name := "", Title := "East", UseForUI := false, Stops := none,
    route := 1 }

/-- A prediction as `unmarshalPredictionServiceRoutes` allocates it before decoding, with the
time of the decode already recorded. -/
def blankPrediction : Prediction :=
  { addr := 7, Service := none, Route := none, Eta := 0, Minutes := 0, Seconds := 0,
    Branch := "", AffectedByLayover := false, IsDeparture := false, TripTag := "",
    ScheduleBased := false, Delayed := false, PredictionTime := t2026 + 30 * 1000000000 }

/-- The binary64 value 1700000000000 (bit pattern `0x4278BCFE56800000`), which is what
`encoding/json` makes of the JSON number `1700000000000`. -/
def epoch1700 : Float64 := ⟨4789786004267466752⟩

/-- Decoded prediction `{"dirTag":"501_0","epochTime":1700000000000,"minutes":"5"}`: the
arrival time is a JSON number. -/
def numericEpochPrediction : JMap :=
  [("dirTag", .str "501_0"), ("epochTime", .float64 epoch1700), ("minutes", .str "5")]

/-- Decoded prediction `{"dirTag":"501_0","epochTime":"1700000000000","minutes":"5"}`: the
arrival time is a JSON string of digits. -/
def stringEpochPrediction : JMap :=
  [("dirTag", .str "501_0"), ("epochTime", .str "1700000000000"), ("minutes", .str "5")]

/-- Decoded prediction whose four flag fields are the string `true`. -/
def flaggedPrediction : JMap :=
  [("dirTag", .str "501_0"), ("epochTime", .str "1700000000000"),
   ("affectedByLayover", .str "true"), ("isDeparture", .str "true"),
   ("isScheduleBased", .str "true"), ("delayed", .str "true")]

/-! ## The cache test of `Stop.GetPredictions` -/

/-- The cache test of `Stop.GetPredictions`, read off its first lines: the call is answered
from the cache when the stop holds a prediction set, the time elapsed since `s.cacheAge` does
not exceed the requested maximum age and the options have not switched the cache off. -/
def predictionsCacheHit (env : Env) (s : Stop) (opts : List ApiHandlerOption) (w : World) :
    Bool :=
  let aho : ApiHandlerOptions :=
    opts.foldl (fun aho opt => opt aho) { UseCache := true, CacheMaxAge := 0 }
  let cacheMaxAge : Int := if aho.CacheMaxAge ≠ 0 then aho.CacheMaxAge else 0
  decide (s.Predictions.isSome = true ∧
    ¬ Time.Sub (env.now w.ticks) s.cacheAge > Duration.mul cacheMaxAge Second ∧
    aho.UseCache = true)

/-- The fixture stop holding an earlier, non-empty prediction set. -/
def queenStopWithPrediction : Stop := { queenStop with Predictions := some [blankPrediction] }

/-- The decoded value of `noPredictionsBody`: a single group with the no-predictions
marker. -/
def noPredictionsGroup : JMap :=
  [("routeTag", .str "501"), ("dirTitleBecauseNoPredictions", .str "East")]

/-! ## Services of the cached routes -/

/-- The services of a route collection in route order and, within a route, in service
order; a route without a service collection contributes none. -/
def cachedServices (rs : List Route) : List Service :=
  rs.flatMap (fun r => r.Services.getD [])

/-- Body `{"route":{"title":"501-Queen","stop":[{"tag":"s1","stopId":"1001",
"title":"Queen St"}],"direction":{"tag":"501_0","title":"East","stop":[{"tag":"s1"}]}}}`:
the routeConfig of route 501 without the `tag` of the route. -/
def routeConfig501NoTagBody : Bytes :=
  "\x7b\x22route\x22:\x7b\x22title\x22:\x22501-Queen\x22,\x22stop\x22:[\x7b\x22tag\x22:\x22s1\x22,\x22stopId\x22:\x221001\x22,\x22title\x22:\x22Queen St\x22\x7d],\x22direction\x22:\x7b\x22tag\x22:\x22501_0\x22,\x22title\x22:\x22East\x22,\x22stop\x22:[\x7b\x22tag\x22:\x22s1\x22\x7d]\x7d\x7d\x7d"

/-- Body `{"route":{"title":"504-King","stop":[{"tag":"k1","stopId":"1001",
"title":"King St"}],"direction":[{"tag":"504_0","title":"East","stop":[{"tag":"k1"}]}]}}`:
the routeConfig of route 504 without the `tag` of the route. -/
def routeConfig504NoTagBody : Bytes :=
  "\x7b\x22route\x22:\x7b\x22title\x22:\x22504-King\x22,\x22stop\x22:[\x7b\x22tag\x22:\x22k1\x22,\x22stopId\x22:\x221001\x22,\x22title\x22:\x22King St\x22\x7d],\x22direction\x22:[\x7b\x22tag\x22:\x22504_0\x22,\x22title\x22:\x22East\x22,\x22stop\x22:[\x7b\x22tag\x22:\x22k1\x22\x7d]\x7d]\x7d\x7d"

/-- The decoded value of the routeList body and of the two routeConfig bodies without a
route tag. -/
def noTagDecode : Bytes → Except Err JMap := fun data =>
  if data = routeListBody then
    .ok [("route", .slice [.map [("tag", .str "501")], .map [("tag", .str "504")]])]
  else if data = routeConfig501NoTagBody then
    .ok [("route", .map [("title", .str "501-Queen"),
      ("stop", .slice [.map [("tag", .str "s1"), ("stopId", .str "1001"),
                             ("title", .str "Queen St")]]),
      ("direction", .map [("tag", .str "501_0"), ("title", .str "East"),
                          ("stop", .slice [.map [("tag", .str "s1")]])])])]
  else if data = routeConfig504NoTagBody then
    .ok [("route", .map [("title", .str "504-King"),
      ("stop", .slice [.map [("tag", .str "k1"), ("stopId", .str "1001"),
                             ("title", .str "King St")]]),
      ("direction", .slice [.map [("tag", .str "504_0"), ("title", .str "East"),
                                  ("stop", .slice [.map [("tag", .str "k1")]])]])])]
  else .error "invalid character looking for beginning of value"

/-- A client serving the routeList of the fixture and the routeConfig bodies without a
route tag. -/
def noTagDo : Nat → String → DoResult := fun _ url =>
  if url = API_URI ++ "?command=routeList&a=ttc" then .response ⟨200, routeListBody, none⟩
  else if url = API_URI ++ "?command=routeConfig&a=ttc&r=501&verbose" then
    .response ⟨200, routeConfig501NoTagBody, none⟩
  else if url = API_URI ++ "?command=routeConfig&a=ttc&r=504&verbose" then
    .response ⟨200, routeConfig504NoTagBody, none⟩
  else .response ⟨404, "", none⟩

/-- The fixture environment with the routeConfig bodies without a route tag. -/
def noTagEnv : Env :=
  { now := feedClock, newRequest := fun _ => none, Do := noTagDo,
    jsonUnmarshal := noTagDecode, parseFloat := fun _ => none }

/-- Route 501 as built from the routeConfig without a route tag: its `Tag` is empty. -/
def untagged501 : Route := { route501 with Tag := "" }

/-- Route 504 as built from the routeConfig without a route tag: its `Tag` is empty. -/
def untagged504 : Route := { route504 with Tag := "" }

/-- The fixture agency after a routes refresh from `noTagEnv`. -/
def ttcUntagged : Agency :=
  { ttc with Routes := some [untagged501, untagged504], cacheAge := t2026 + 10 * 1000000000 }

/-- The service `504_0` of the fixture. -/
def svc504 : Service :=
  { addr := 6, Tag := "504_0", Name := "", Title := "East", UseForUI := false, Stops := none,
    route := 4 }

/-! ## The fixture after `GetAgencies(WithoutCache())` -/

/-- The state after `GetAgencies(WithoutCache())` from start-up on the fixture feed: one
agencyList request was made, the agency is at address 0, and the package variable
`DefaultApiHandlerOptions` is left with `UseCache` false. -/
def wDefaultOff : World :=
  { ticks := 1, attempts := ["?command=agencyList", "?command=agencyList"],
    calls := ["?command=agencyList"], slept := [], heapNext := 1,
    dflt := { UseCache := false, CacheMaxAge := 60 } }

/-- The fixture agency after the routes refresh from `wDefaultOff`, stamped at the clock
reading number 2. -/
def ttcLoadedOff : Agency :=
  { ttc with Routes := some [route501, route504], cacheAge := feedClock 2 }

/-- The state after the routes refresh from `wDefaultOff`. -/
def wLoadedOff : World :=
  { ticks := 3, attempts := ["?command=agencyList", "?command=agencyList"] ++ routeAttempts,
    calls := "?command=agencyList" :: routeCalls, slept := [], heapNext := 7,
    dflt := { UseCache := false, CacheMaxAge := 60 } }

/-- The fixture agency after a second routes refresh from `wLoadedOff`: the routes are
rebuilt from address 7 on. -/
def ttcReloadedOff : Agency :=
  { ttc with Routes := some [route501At 7, route504At 10], cacheAge := feedClock 4 }

/-- The state after a second routes refresh from `wLoadedOff`. -/
def wReloadedOff (ticks : Nat) : World :=
  { ticks := ticks,
    attempts := ["?command=agencyList", "?command=agencyList"] ++ routeAttempts ++ routeAttempts,
    calls := "?command=agencyList" :: routeCalls ++ routeCalls, slept := [], heapNext := 13,
    dflt := { UseCache := false, CacheMaxAge := 60 } }

/-! # Theorems -/

/-! ## Transport -/

theorem get_attempts (env : Env) (m : ApiMethod) (w : World) :
    (get env m w).2 = { w with attempts := w.attempts ++ [m ()] } := by
  unfold get
  dsimp only
  split
  · rfl
  · split <;> rfl

theorem getLoop_frame (env : Env) (cfg : GetConfig) (m : ApiMethod) (n : Nat) :
    ∀ (r : Option ApiResponse) (w : World),
      (getLoop env cfg m n r w).2.attempts = w.attempts ++ List.replicate n (m ()) ∧
      (getLoop env cfg m n r w).2.calls = w.calls ∧
      (getLoop env cfg m n r w).2.dflt = w.dflt ∧
      (getLoop env cfg m n r w).2.ticks = w.ticks ∧
      (getLoop env cfg m n r w).2.heapNext = w.heapNext := by
  induction n with
  | zero => intro r w; simp [getLoop]
  | succ n ih =>
    intro r w
    have hg := get_attempts env m w
    simp only [getLoop]
    split
    · have := ih (some (get env m w).1)
        (timeSleep (Duration.mul cfg.RetryDelay Millisecond) (get env m w).2)
      rw [hg] at this
      rw [hg]
      simpa [timeSleep, List.replicate_succ] using this
    · have := ih (some (get env m w).1) (get env m w).2
      rw [hg] at this
      rw [hg]
      simpa [List.replicate_succ] using this

theorem get_resp_congr (env : Env) (m : ApiMethod) (w w1 : World)
    (h : w.attempts.length = w1.attempts.length) : (get env m w).1 = (get env m w1).1 := by
  unfold get
  dsimp only
  rw [h]
  split
  · rfl
  · split <;> rfl

theorem getLoop_last (env : Env) (cfg : GetConfig) (m : ApiMethod) (n : Nat) :
    ∀ (r : Option ApiResponse) (w : World),
      (getLoop env cfg m (n + 1) r w).1 = some (get env m (getLoop env cfg m n r w).2).1 := by
  induction n with
  | zero =>
    intro r w
    simp only [getLoop]
    split <;> rfl
  | succ n ih =>
    intro r w
    rw [getLoop]
    dsimp only
    split
    · rw [ih]
      conv_rhs => rw [getLoop]
      dsimp only
      rw [if_pos (by assumption)]
    · rw [ih]
      conv_rhs => rw [getLoop]
      dsimp only
      rw [if_neg (by assumption)]

theorem wrapInt64_of_range (x : Int) (h1 : minInt64 ≤ x) (h2 : x ≤ maxInt64) :
    wrapInt64 x = x := by
  unfold wrapInt64
  unfold minInt64 at h1
  unfold maxInt64 at h2
  omega

theorem loopTrips_retry (L : Int) (h1 : 0 ≤ L) (h2 : L ≤ maxInt64 - 2) :
    loopTrips (wrapInt64 (1 + L)) = some (L.toNat + 2) := by
  have hw : wrapInt64 (1 + L) = 1 + L := by
    apply wrapInt64_of_range <;> (simp only [minInt64, maxInt64] at *; omega)
  rw [hw]
  unfold loopTrips
  unfold maxInt64 at *
  rw [if_neg (by omega)]
  congr 1
  omega

/-- Under a valid configuration `ApiHandler.Get` runs its loop body `RetryLimit + 2` times and
returns what the last of these attempts returned. -/
theorem Get_runs_all_attempts (env : Env) (cfg : GetConfig) (m : ApiMethod) (w : World)
    (hd : 50 ≤ cfg.RetryDelay) (hl : 0 ≤ cfg.RetryLimit) (hu : cfg.RetryLimit ≤ maxInt64 - 2) :
    ∃ w1 w2, Get env cfg m w = .ret (some (get env m w1).1, w2) ∧
      w1.attempts.length = w.attempts.length + cfg.RetryLimit.toNat + 1 ∧
      w2.attempts = w.attempts ++ List.replicate (cfg.RetryLimit.toNat + 2) (m ()) ∧
      w2.calls = w.calls ++ [m ()] ∧ w2.dflt = w.dflt ∧ w2.ticks = w.ticks ∧
      w2.heapNext = w.heapNext := by
  unfold Get
  dsimp only
  rw [if_neg (by omega), loopTrips_retry _ hl hu]
  dsimp only
  refine ⟨(getLoop env cfg m (cfg.RetryLimit.toNat + 1) none
      { w with calls := w.calls ++ [m ()] }).2, (getLoop env cfg m (cfg.RetryLimit.toNat + 2) none
      { w with calls := w.calls ++ [m ()] }).2, ?_, ?_, ?_⟩
  · have := getLoop_last env cfg m (cfg.RetryLimit.toNat + 1) none
      { w with calls := w.calls ++ [m ()] }
    rw [← this]
  · have := (getLoop_frame env cfg m (cfg.RetryLimit.toNat + 1) none
      { w with calls := w.calls ++ [m ()] }).1
    rw [this]
    simp
    omega
  · exact getLoop_frame env cfg m (cfg.RetryLimit.toNat + 2) none
      { w with calls := w.calls ++ [m ()] }

/-- C1 (code defect, evaluated): with `RetryLimit = 2` and a client that fails twice and then
succeeds, `ApiHandler.Get` makes four single attempts, not three: the loop does not stop at
the first success. When the third attempt is the only one that succeeds, the fourth attempt
overwrites it and `Get` returns a failure with no data. -/
theorem Get_keeps_attempting_after_success :
    Get (stubEnv failTwiceThenOk (fun _ => 0) noJSON) ⟨30, 2, 100⟩ MethodAgencyList World.init
      = .ret (some ⟨some ⟨200, "payload", none⟩, none, some "payload"⟩,
          { World.init with attempts := List.replicate 4 "?command=agencyList",
                            calls := ["?command=agencyList"],
                            slept := [100000000, 100000000] }) ∧
    Get (stubEnv onlyThirdOk (fun _ => 0) noJSON) ⟨30, 2, 100⟩ MethodAgencyList World.init
      = .ret (some ⟨none, some "connection refused", none⟩,
          { World.init with attempts := List.replicate 4 "?command=agencyList",
                            calls := ["?command=agencyList"],
                            slept := [100000000, 100000000, 100000000] }) := by
  constructor <;> decide

/-- C2 (code defect, general): for every `RetryLimit >= 0` and `RetryDelay >= 50`, when every
single attempt fails, `ApiHandler.Get` makes exactly `RetryLimit + 2` attempts (one more than
an initial attempt plus `RetryLimit` retries) and returns the failure of the last of
them. -/
theorem Get_exhausts_one_attempt_too_many (env : Env) (cfg : GetConfig) (m : ApiMethod)
    (w : World) (e : Nat → Err)
    (hd : 50 ≤ cfg.RetryDelay) (hl : 0 ≤ cfg.RetryLimit) (hu : cfg.RetryLimit ≤ maxInt64 - 2)
    (hreq : env.newRequest (API_URI ++ m ()) = none)
    (hfail : ∀ k, env.Do k (API_URI ++ m ()) = .failed (e k)) :
    ∃ w2, Get env cfg m w
        = .ret (some ⟨none, some (e (w.attempts.length + cfg.RetryLimit.toNat + 1)), none⟩, w2) ∧
      w2.attempts = w.attempts ++ List.replicate (cfg.RetryLimit.toNat + 2) (m ()) ∧
      w2.attempts.length = w.attempts.length + (cfg.RetryLimit.toNat + 2) := by
  obtain ⟨w1, w2, hget, hlen, hatt, -⟩ := Get_runs_all_attempts env cfg m w hd hl hu
  refine ⟨w2, ?_, hatt, ?_⟩
  · rw [hget]
    have : (get env m w1).1
        = ⟨none, some (e (w.attempts.length + cfg.RetryLimit.toNat + 1)), none⟩ := by
      unfold get
      dsimp only
      rw [hreq, hlen, hfail]
    rw [this]
  · rw [hatt]
    simp

/-- C2, at `RetryLimit = 2` with an always-failing client: four attempts are made. -/
theorem Get_exhausts_one_attempt_too_many_witness :
    ∃ w2, Get (stubEnv alwaysFail (fun _ => 0) noJSON) ⟨30, 2, 100⟩ MethodAgencyList World.init
        = .ret (some ⟨none, some "connection refused", none⟩, w2) ∧
      w2.attempts = [] ++ List.replicate (2 + 2) "?command=agencyList" ∧
      w2.attempts.length = 0 + (2 + 2) :=
  Get_exhausts_one_attempt_too_many (stubEnv alwaysFail (fun _ => 0) noJSON) ⟨30, 2, 100⟩
    MethodAgencyList World.init (fun _ => "connection refused")
    (by decide) (by decide) (by decide) rfl (fun _ => rfl)

/-- C3: for every configuration with `RetryDelay < 50`, every command, every `RetryLimit` and
every state, `ApiHandler.Get` returns a response with a non-nil error, no data and no HTTP
response, having made no single attempt (and no sleep). -/
theorem Get_rejects_short_retry_delay (env : Env) (cfg : GetConfig) (m : ApiMethod) (w : World)
    (h : cfg.RetryDelay < 50) :
    ∃ r w1, Get env cfg m w = .ret (some r, w1) ∧
      r.Error ≠ none ∧ r.Data = none ∧ r.Response = none ∧
      w1.attempts = w.attempts ∧ w1.slept = w.slept := by
  unfold Get
  dsimp only
  rw [if_pos h]
  exact ⟨_, _, rfl, by simp [ApiResponse.Error], rfl, rfl, rfl, rfl⟩

/-- C3, at `RetryDelay = 10`. -/
theorem Get_rejects_short_retry_delay_witness :
    ∃ r w1, Get (stubEnv failTwiceThenOk (fun _ => 0) noJSON) ⟨30, 2, 10⟩ MethodAgencyList
        World.init = .ret (some r, w1) ∧
      r.Error ≠ none ∧ r.Data = none ∧ r.Response = none ∧
      w1.attempts = World.init.attempts ∧ w1.slept = World.init.slept :=
  Get_rejects_short_retry_delay (stubEnv failTwiceThenOk (fun _ => 0) noJSON) ⟨30, 2, 10⟩
    MethodAgencyList World.init (by decide)

/-- C4 (refuted as stated): a delivered 404 response whose body is read without error makes
`get` return a nil `Error()`, and `ApiHandler.Get` returns it as a success. -/
theorem get_404_is_not_an_error :
    (stubEnv always404 (fun _ => 0) noJSON).Do 0 (API_URI ++ MethodAgencyList ())
      = .response ⟨404, "Not Found", none⟩ ∧
    (get (stubEnv always404 (fun _ => 0) noJSON) MethodAgencyList World.init).1
      = ⟨some ⟨404, "Not Found", none⟩, none, some "Not Found"⟩ ∧
    (get (stubEnv always404 (fun _ => 0) noJSON) MethodAgencyList World.init).1.Error = none ∧
    Get (stubEnv always404 (fun _ => 0) noJSON) ⟨30, 0, 100⟩ MethodAgencyList World.init
      = .ret (some ⟨some ⟨404, "Not Found", none⟩, none, some "Not Found"⟩,
          { World.init with attempts := List.replicate 2 "?command=agencyList",
                            calls := ["?command=agencyList"] }) := by
  refine ⟨rfl, ?_, ?_, ?_⟩ <;> decide

/-- C4 (amended): whatever the status code of a response the client delivers, if its body is
read without error then `get` returns a nil `Error()` with the body as data; the loop of
`ApiHandler.Get` goes on without a backoff sleep after such an attempt, and when it is the
last attempt of a call `Get` returns it with a nil error. -/
theorem get_ignores_status_code (env : Env) (cfg : GetConfig) (m : ApiMethod) (w : World)
    (resp : HttpResponse)
    (hd : 50 ≤ cfg.RetryDelay) (hl : 0 ≤ cfg.RetryLimit) (hu : cfg.RetryLimit ≤ maxInt64 - 2)
    (hreq : env.newRequest (API_URI ++ m ()) = none)
    (hdo : env.Do (w.attempts.length + cfg.RetryLimit.toNat + 1) (API_URI ++ m ())
      = .response resp)
    (hread : resp.readErr = none) :
    (∀ w1 : World, w1.attempts.length = w.attempts.length + cfg.RetryLimit.toNat + 1 →
      (get env m w1).1 = ⟨some resp, none, some resp.Body⟩ ∧
      (get env m w1).1.Error = none ∧
      ∀ n r, getLoop env cfg m (n + 1) r w1
        = getLoop env cfg m n (some (get env m w1).1) (get env m w1).2) ∧
    ∃ w2, Get env cfg m w = .ret (some ⟨some resp, none, some resp.Body⟩, w2) := by
  have key : ∀ w1 : World, w1.attempts.length = w.attempts.length + cfg.RetryLimit.toNat + 1 →
      (get env m w1).1 = ⟨some resp, none, some resp.Body⟩ := by
    intro w1 h1
    unfold get
    dsimp only
    rw [hreq, h1, hdo]
    dsimp only
    rw [hread]
  refine ⟨fun w1 h1 => ⟨key w1 h1, by rw [key w1 h1]; rfl, ?_⟩, ?_⟩
  · intro n r
    rw [getLoop]
    dsimp only
    rw [if_neg]
    rw [key w1 h1]
    simp [ApiResponse.Error]
  · obtain ⟨w1, w2, hget, hlen, -⟩ := Get_runs_all_attempts env cfg m w hd hl hu
    exact ⟨w2, by rw [hget, key w1 hlen]⟩

/-- C4 (amended), at a 500 response answering the last attempt of a call with one retry. -/
theorem get_ignores_status_code_witness :
    (∀ w1 : World, w1.attempts.length = World.init.attempts.length + (1 : Int).toNat + 1 →
      (get (stubEnv (fun _ => .response ⟨500, "oops", none⟩) (fun _ => 0) noJSON)
          MethodAgencyList w1).1 = ⟨some ⟨500, "oops", none⟩, none, some "oops"⟩ ∧
      (get (stubEnv (fun _ => .response ⟨500, "oops", none⟩) (fun _ => 0) noJSON)
          MethodAgencyList w1).1.Error = none ∧
      ∀ n r, getLoop (stubEnv (fun _ => .response ⟨500, "oops", none⟩) (fun _ => 0) noJSON)
          ⟨30, 1, 100⟩ MethodAgencyList (n + 1) r w1
        = getLoop (stubEnv (fun _ => .response ⟨500, "oops", none⟩) (fun _ => 0) noJSON)
          ⟨30, 1, 100⟩ MethodAgencyList n
            (some (get (stubEnv (fun _ => .response ⟨500, "oops", none⟩) (fun _ => 0) noJSON)
              MethodAgencyList w1).1)
            (get (stubEnv (fun _ => .response ⟨500, "oops", none⟩) (fun _ => 0) noJSON)
              MethodAgencyList w1).2) ∧
    ∃ w2, Get (stubEnv (fun _ => .response ⟨500, "oops", none⟩) (fun _ => 0) noJSON)
        ⟨30, 1, 100⟩ MethodAgencyList World.init
      = .ret (some ⟨some ⟨500, "oops", none⟩, none, some "oops"⟩, w2) :=
  get_ignores_status_code (stubEnv (fun _ => .response ⟨500, "oops", none⟩) (fun _ => 0) noJSON)
    ⟨30, 1, 100⟩ MethodAgencyList World.init ⟨500, "oops", none⟩
    (by decide) (by decide) (by decide) rfl rfl rfl

/-! ## Cache of routes -/

theorem Get_ret_frame (env : Env) (cfg : GetConfig) (m : ApiMethod) (w : World)
    (r : Option ApiResponse) (w1 : World) (h : Get env cfg m w = .ret (r, w1)) :
    w1.calls = w.calls ++ [m ()] ∧ w1.ticks = w.ticks ∧ w1.dflt = w.dflt := by
  unfold Get at h
  dsimp only at h
  split at h
  · injection h with h
    injection h with _ h
    subst h
    exact ⟨rfl, rfl, rfl⟩
  · split at h
    · exact absurd h (by simp)
    · next n _ =>
      injection h with h
      have hf := getLoop_frame env cfg m n none { w with calls := w.calls ++ [m ()] }
      rw [h] at hf
      exact ⟨hf.2.1, hf.2.2.2.1, hf.2.2.1⟩

theorem routeStopsLoop_frame (env : Env) (l : List Iface) :
    ∀ (stops : List Stop) (w : World),
      (routeStopsLoop env l stops w).2.calls = w.calls ∧
      (routeStopsLoop env l stops w).2.ticks = w.ticks ∧
      (routeStopsLoop env l stops w).2.dflt = w.dflt := by
  induction l with
  | nil => intro stops w; exact ⟨rfl, rfl, rfl⟩
  | cons x rest ih =>
    intro stops w
    simp only [routeStopsLoop, alloc]
    split
    · exact ⟨rfl, rfl, rfl⟩
    · exact ih _ _

theorem routeServicesLoop_frame (r : Route) (l : List Iface) :
    ∀ (svcs : List Service) (w : World),
      (routeServicesLoop r l svcs w).2.calls = w.calls ∧
      (routeServicesLoop r l svcs w).2.ticks = w.ticks ∧
      (routeServicesLoop r l svcs w).2.dflt = w.dflt := by
  induction l with
  | nil => intro svcs w; exact ⟨rfl, rfl, rfl⟩
  | cons x rest ih =>
    intro svcs w
    simp only [routeServicesLoop, alloc]
    split
    · exact ⟨rfl, rfl, rfl⟩
    · exact ih _ _

theorem routeStopsLoop_frame_eq {env : Env} {l : List Iface} {stops : List Stop} {w w2 : World}
    {res : Except Err (List Stop)} (h : routeStopsLoop env l stops w = (res, w2)) :
    w2.calls = w.calls ∧ w2.ticks = w.ticks ∧ w2.dflt = w.dflt := by
  have := routeStopsLoop_frame env l stops w
  rw [h] at this
  exact this

theorem routeServicesLoop_frame_eq {r : Route} {l : List Iface} {svcs : List Service}
    {w w2 : World} {res : Except Err (List Service)}
    (h : routeServicesLoop r l svcs w = (res, w2)) :
    w2.calls = w.calls ∧ w2.ticks = w.ticks ∧ w2.dflt = w.dflt := by
  have := routeServicesLoop_frame r l svcs w
  rw [h] at this
  exact this

theorem unmarshalRouteConfig_frame (env : Env) (v : Iface) (w : World) :
    (unmarshalRouteConfig env v w).2.calls = w.calls ∧
    (unmarshalRouteConfig env v w).2.ticks = w.ticks ∧
    (unmarshalRouteConfig env v w).2.dflt = w.dflt := by
  unfold unmarshalRouteConfig
  simp only [alloc]
  split
  · exact ⟨rfl, rfl, rfl⟩
  · split
    · exact ⟨rfl, rfl, rfl⟩
    · split
      · exact ⟨rfl, rfl, rfl⟩
      · split
        · next err w2 heq =>
          have h2 := routeStopsLoop_frame_eq heq
          exact h2
        · next stops w2 heq =>
          have h2 := routeStopsLoop_frame_eq heq
          split
          · exact h2
          · split
            · next err w3 heq3 =>
              have h3 := routeServicesLoop_frame_eq heq3
              exact ⟨h3.1.trans h2.1, h3.2.1.trans h2.2.1, h3.2.2.trans h2.2.2⟩
            · next svcs w3 heq3 =>
              have h3 := routeServicesLoop_frame_eq heq3
              exact ⟨h3.1.trans h2.1, h3.2.1.trans h2.2.1, h3.2.2.trans h2.2.2⟩

theorem unmarshalRouteConfig_frame_eq {env : Env} {v : Iface} {w w2 : World}
    {res : Except Err Route} (h : unmarshalRouteConfig env v w = (res, w2)) :
    w2.calls = w.calls ∧ w2.ticks = w.ticks ∧ w2.dflt = w.dflt := by
  have := unmarshalRouteConfig_frame env v w
  rw [h] at this
  exact this

theorem routeConfigsLoop_ok (env : Env) (h : ApiHandler) (tag : String) (routes : List String) :
    ∀ (rtes : List Route) (w : World) (rs : List Route) (w2 : World),
      routeConfigsLoop env h tag routes rtes w = .ret (.ok rs, w2) →
      w2.calls = w.calls ++ routes.map (fun r => MethodRouteConfig tag r ()) ∧
      w2.ticks = w.ticks ∧ w2.dflt = w.dflt ∧ rs.length = rtes.length + routes.length := by
  induction routes with
  | nil =>
    intro rtes w rs w2 hrun
    simp only [routeConfigsLoop] at hrun
    injection hrun with hrun
    injection hrun with h1 h2
    injection h1 with h1
    subst h1 h2
    simp
  | cons r rest ih =>
    intro rtes w rs w2 hrun
    rw [routeConfigsLoop] at hrun
    cases hG : Get env h.cfg (MethodRouteConfig tag r) w with
    | panic => rw [hG] at hrun; simp [Run.bind] at hrun
    | diverge => rw [hG] at hrun; simp [Run.bind] at hrun
    | ret p =>
      obtain ⟨resp?, w1⟩ := p
      have hf := Get_ret_frame env h.cfg _ w resp? w1 hG
      rw [hG] at hrun
      simp only [Run.bind] at hrun
      split at hrun
      · simp at hrun
      · split at hrun
        · simp at hrun
        · split at hrun
          · simp at hrun
          · split at hrun
            · simp at hrun
            · next rcfg w3 heq =>
              have hu := unmarshalRouteConfig_frame_eq heq
              have := ih _ _ _ _ hrun
              refine ⟨?_, ?_, ?_, ?_⟩
              · rw [this.1, hu.1, hf.1]; simp
              · rw [this.2.1, hu.2.1, hf.2.1]
              · rw [this.2.2.1, hu.2.2, hf.2.2]
              · rw [this.2.2.2]; simp; omega

theorem Time.Sub_le_of_le (t u m : Int) (hm : minInt64 ≤ m) (h : t - u ≤ m) :
    Time.Sub t u ≤ m := by
  unfold Time.Sub
  simp only [minInt64, maxInt64, Time, Duration] at *
  split
  · omega
  · split <;> omega

theorem Time.lt_Sub_of_lt (t u m : Int) (hm : m < maxInt64) (h : m < t - u) :
    m < Time.Sub t u := by
  unfold Time.Sub
  simp only [minInt64, maxInt64, Time, Duration] at *
  split
  · omega
  · split <;> omega

theorem Duration.mul_Second_range (c : Int) :
    minInt64 ≤ Duration.mul c Second ∧ Duration.mul c Second < maxInt64 := by
  simp only [Duration.mul, wrapInt64, Second, minInt64, maxInt64, Duration]
  omega

/-- A successful refresh issued one routeList request and one routeConfig request per
discovered tag, read the clock once at its end and stored that reading with the routes. -/
theorem refreshRoutes_ok (env : Env) (h : ApiHandler) (a : Agency) (w1 : World)
    (rs : List Route) (a2 : Agency) (w3 : World)
    (hrun : refreshRoutes env h a w1 = .ret ((some rs, none), a2, w3)) :
    ∃ resp w2 routesIface tags,
      Get env h.cfg (MethodRoutes a.Tag) w1 = .ret (some resp, w2) ∧
      resp.Error = none ∧
      env.jsonUnmarshal (resp.Data.getD "") = .ok routesIface ∧
      routeTags routesIface = some tags ∧
      w3.calls = w1.calls ++ MethodRoutes a.Tag () ::
        tags.map (fun r => MethodRouteConfig a.Tag r ()) ∧
      rs.length = tags.length ∧
      w3.ticks = w1.ticks + 1 ∧ w3.dflt = w1.dflt ∧
      a2 = { a with Routes := some rs, cacheAge := env.now w1.ticks } := by
  unfold refreshRoutes at hrun
  cases hG : Get env h.cfg (MethodRoutes a.Tag) w1 with
  | panic => rw [hG] at hrun; simp [Run.bind] at hrun
  | diverge => rw [hG] at hrun; simp [Run.bind] at hrun
  | ret p =>
    obtain ⟨resp?, w2⟩ := p
    have hf := Get_ret_frame env h.cfg _ _ resp? w2 hG
    rw [hG] at hrun
    simp only [Run.bind] at hrun
    split at hrun
    · simp at hrun
    · next resp =>
      split at hrun
      · simp at hrun
      · next herr =>
        split at hrun
        · simp at hrun
        · next routesIface hdec =>
          split at hrun
          · simp at hrun
          · next tags htags =>
            cases hL : routeConfigsLoop env h a.Tag tags [] w2 with
            | panic => rw [hL] at hrun; simp at hrun
            | diverge => rw [hL] at hrun; simp at hrun
            | ret q =>
              obtain ⟨res, w2b⟩ := q
              rw [hL] at hrun
              cases res with
              | error e => simp at hrun
              | ok rtes =>
                have hl := routeConfigsLoop_ok env h a.Tag tags [] w2 rtes w2b hL
                simp only [timeNow, Run.ret.injEq, Prod.mk.injEq, Option.some.injEq,
                  and_true] at hrun
                obtain ⟨hrs, ha2, hw3⟩ := hrun
                subst hrs
                refine ⟨resp, w2, routesIface, tags, rfl, herr, hdec, htags, ?_, ?_, ?_, ?_, ?_⟩
                · rw [← hw3]
                  simp only
                  rw [hl.1, hf.1]
                  simp
                · simpa using hl.2.2.2
                · rw [← hw3]
                  simp only
                  rw [hl.2.1, hf.2.1]
                · rw [← hw3]
                  simp only
                  rw [hl.2.2.1, hf.2.2]
                · rw [← ha2, hl.2.1, hf.2.1]

/-- The cache test of `GetRoutes`: the cached collection is returned, after one reading of
the clock and nothing else, exactly when the package default `UseCache` is set, `Routes` is
present and the elapsed time does not exceed `cacheMaxAge*time.Second`; otherwise the call
is the refresh. -/
theorem GetRoutes_eq (env : Env) (h : ApiHandler) (a : Agency) (opts : List ApiHandlerOption)
    (w : World) :
    GetRoutes env h a opts w =
      if w.dflt.UseCache = true ∧ a.Routes.isSome = true ∧
          ¬ Time.Sub (env.now w.ticks) a.cacheAge > Duration.mul h.cacheMaxAge Second then
        .ret ((a.Routes, none), a, { w with ticks := w.ticks + 1 })
      else refreshRoutes env h a { w with ticks := w.ticks + 1 } := by
  unfold GetRoutes
  simp only [timeNow]
  by_cases hc : Time.Sub (env.now w.ticks) a.cacheAge > Duration.mul h.cacheMaxAge Second
  · simp [hc]
  · cases hn : a.Routes with
    | none => simp [hc]
    | some x =>
      cases hu : w.dflt.UseCache <;> simp [hc, hu]

/-- The cache of `Agency.GetRoutes` while the package default `UseCache` is set: after a
successful `Agency.GetRoutes` the agency holds the returned collection, and
when that call refreshed, its `cacheAge` is the clock reading `t0` taken at the end of the
refresh. With `m = cacheMaxAge*time.Second` the handler's maximum age (3600 seconds for a
handler from `NewApiHandler` without options) and the package default `UseCache` set, a
later call without options at a time `t` with `t - t0 <= m` returns the same collection
having only read the clock (no `Get` call, no attempt); a later successful call with
`t - t0 > m` issued exactly one routeList request followed by one routeConfig request per
route tag discovered in the routeList response, and stamped `cacheAge` with the clock
reading taken at its end. -/
theorem GetRoutes_cache_within_max_age (env : Env) (h : ApiHandler) (cfg : GetConfig)
    (a : Agency) (w : World) (rs : List Route) (a1 : Agency) (w1 : World)
    (hfirst : GetRoutes env h a [] w = .ret ((some rs, none), a1, w1)) :
    a1.Routes = some rs ∧
    (w1.calls ≠ w.calls → a1.cacheAge = env.now (w1.ticks - 1)) ∧
    (∀ w2 : World, w2.dflt.UseCache = true →
      env.now w2.ticks - a1.cacheAge ≤ Duration.mul h.cacheMaxAge Second →
      GetRoutes env h a1 [] w2
        = .ret ((some rs, none), a1, { w2 with ticks := w2.ticks + 1 })) ∧
    (∀ (w2 : World) (rs2 : List Route) (a2 : Agency) (w3 : World),
      env.now w2.ticks - a1.cacheAge > Duration.mul h.cacheMaxAge Second →
      GetRoutes env h a1 [] w2 = .ret ((some rs2, none), a2, w3) →
      ∃ resp wg routesIface tags,
        Get env h.cfg (MethodRoutes a1.Tag) { w2 with ticks := w2.ticks + 1 }
          = .ret (some resp, wg) ∧
        env.jsonUnmarshal (resp.Data.getD "") = .ok routesIface ∧
        routeTags routesIface = some tags ∧
        w3.calls = w2.calls ++ MethodRoutes a1.Tag () ::
          tags.map (fun r => MethodRouteConfig a1.Tag r ()) ∧
        rs2.length = tags.length ∧
        a2.Routes = some rs2 ∧ a2.cacheAge = env.now (w3.ticks - 1)) ∧
    Duration.mul (NewApiHandler cfg []).cacheMaxAge Second = 3600 * Second := by
  have hrange := Duration.mul_Second_range h.cacheMaxAge
  have hR : a1.Routes = some rs := by
    rw [GetRoutes_eq] at hfirst
    split at hfirst
    · simp only [Run.ret.injEq, Prod.mk.injEq, and_true] at hfirst
      rw [← hfirst.2.1]
      exact hfirst.1
    · obtain ⟨_, _, _, _, _, _, _, _, _, _, _, _, ha⟩ := refreshRoutes_ok env h a _ rs a1 w1 hfirst
      rw [ha]
  refine ⟨hR, ?_, ?_, ?_, ?_⟩
  · intro hcalls
    rw [GetRoutes_eq] at hfirst
    split at hfirst
    · simp only [Run.ret.injEq, Prod.mk.injEq] at hfirst
      exact absurd (by rw [← hfirst.2.2]) hcalls
    · obtain ⟨_, _, _, _, _, _, _, _, _, _, ht, _, ha⟩ :=
        refreshRoutes_ok env h a _ rs a1 w1 hfirst
      rw [ha, ht]
      simp
  · intro w2 huse hle
    rw [GetRoutes_eq, if_pos, hR]
    refine ⟨huse, by rw [hR]; rfl, ?_⟩
    exact not_lt.mpr (Time.Sub_le_of_le _ _ _ hrange.1 hle)
  · intro w2 rs2 a2 w3 hgt hrun
    have hstale := Time.lt_Sub_of_lt _ _ _ hrange.2 hgt
    rw [GetRoutes_eq, if_neg (by intro hc; exact hc.2.2 hstale)] at hrun
    obtain ⟨resp, wg, routesIface, tags, hG, _, hdec, htags, hcalls, hlen, ht, _, ha⟩ :=
      refreshRoutes_ok env h a1 _ rs2 a2 w3 hrun
    refine ⟨resp, wg, routesIface, tags, hG, hdec, htags, hcalls, hlen, ?_, ?_⟩
    · rw [ha]
    · rw [ha, ht]
      simp
  · show Duration.mul 3600 Second = 3600 * Second
    decide

set_option maxRecDepth 100000 in
/-- The previous theorem on the fixture, started with the package default `UseCache` set:
the first call refreshes (three requests), a call ten seconds after
the stamp is answered from the cache, and a call 9990 seconds after the stamp refreshes
again with the same three requests. -/
theorem GetRoutes_cache_within_max_age_witness :
    GetRoutes (feedEnv agencyListBody) DefaultApiHandler ttc [] wStart
      = .ret ((some [route501, route504], none), ttcLoaded, wLoaded) ∧
    ttcLoaded.cacheAge = feedClock 1 ∧
    GetRoutes (feedEnv agencyListBody) DefaultApiHandler ttcLoaded [] wLoaded
      = .ret ((some [route501, route504], none), ttcLoaded, { wLoaded with ticks := 3 }) ∧
    GetRoutes (feedEnv agencyListBody) DefaultApiHandler ttcLoaded []
        { wLoaded with ticks := 1000 }
      = .ret ((some [route501At 7, route504At 10], none),
          { ttcLoaded with Routes := some [route501At 7, route504At 10],
                           cacheAge := feedClock 1001 },
          { wLoaded with ticks := 1002, attempts := routeAttempts ++ routeAttempts,
                         calls := routeCalls ++ routeCalls, heapNext := 13 }) ∧
    (∃ tags : List String,
      routeCalls ++ routeCalls = routeCalls ++ "?command=routeList&a=ttc" ::
          tags.map (fun r => MethodRouteConfig "ttc" r ()) ∧
        [route501At 7, route504At 10].length = tags.length) ∧
    Duration.mul DefaultApiHandler.cacheMaxAge Second = 3600 * Second := by
  have hfirst : GetRoutes (feedEnv agencyListBody) DefaultApiHandler ttc [] wStart
      = .ret ((some [route501, route504], none), ttcLoaded, wLoaded) := by decide
  have hthird : GetRoutes (feedEnv agencyListBody) DefaultApiHandler ttcLoaded []
        { wLoaded with ticks := 1000 }
      = .ret ((some [route501At 7, route504At 10], none),
          { ttcLoaded with Routes := some [route501At 7, route504At 10],
                           cacheAge := feedClock 1001 },
          { wLoaded with ticks := 1002, attempts := routeAttempts ++ routeAttempts,
                         calls := routeCalls ++ routeCalls, heapNext := 13 }) := by decide
  obtain ⟨_, hstamp, hcached, hstale, hdef⟩ :=
    GetRoutes_cache_within_max_age (feedEnv agencyListBody) DefaultApiHandler
      DefaultApiHandler.cfg ttc wStart [route501, route504] ttcLoaded wLoaded hfirst
  refine ⟨hfirst, hstamp (by decide), hcached wLoaded (by decide) (by decide), hthird, ?_,
    hdef⟩
  obtain ⟨_, _, _, tags, _, _, _, hcalls, hlen, _, _⟩ :=
    hstale { wLoaded with ticks := 1000 } _ _ _ (by decide) hthird
  exact ⟨tags, hcalls, hlen⟩

/-! ## Agency list and predictions: what every returning call does -/

theorem unmarshalAgenciesLoop_frame (l : List Iface) :
    ∀ (agencies : List Agency) (w : World),
      (unmarshalAgenciesLoop l agencies w).2.calls = w.calls ∧
      (unmarshalAgenciesLoop l agencies w).2.ticks = w.ticks ∧
      (unmarshalAgenciesLoop l agencies w).2.dflt = w.dflt := by
  induction l with
  | nil => intro agencies w; exact ⟨rfl, rfl, rfl⟩
  | cons x rest ih =>
    intro agencies w
    simp only [unmarshalAgenciesLoop, alloc]
    split
    · exact ⟨rfl, rfl, rfl⟩
    · split
      · split
        · exact ih _ _
        · exact ⟨rfl, rfl, rfl⟩
      · exact ⟨rfl, rfl, rfl⟩

theorem unmarshalAgencies_frame (v : Iface) (w : World) :
    (unmarshalAgencies v w).2.calls = w.calls ∧
    (unmarshalAgencies v w).2.ticks = w.ticks ∧
    (unmarshalAgencies v w).2.dflt = w.dflt := by
  unfold unmarshalAgencies
  split
  · exact ⟨rfl, rfl, rfl⟩
  · split
    · exact ⟨rfl, rfl, rfl⟩
    · exact unmarshalAgenciesLoop_frame _ _ _

/-- Whatever the handler, the options, the clock and the feed: a `GetAgencies` call that
returns has issued the agencyList command (the cache branch is never taken), has left the
handler as it was (nothing is stored) and has left the options applied to the package
variable. -/
theorem GetAgencies_ret_frame (env : Env) (a : ApiHandler) (opts : List ApiHandlerOption)
    (w : World) (res : Result (List Agency)) (a1 : ApiHandler) (w1 : World)
    (hrun : GetAgencies env a opts w = .ret (res, a1, w1)) :
    a1 = a ∧ w1.calls = w.calls ++ ["?command=agencyList"] ∧
    w1.dflt = opts.foldl (fun aho opt => opt aho) w.dflt := by
  unfold GetAgencies at hrun
  simp only [timeNow] at hrun
  rw [if_neg (by simp)] at hrun
  cases hG : Get env a.cfg MethodAgencyList
      { w with ticks := w.ticks + 1,
               dflt := opts.foldl (fun aho opt => opt aho) w.dflt } with
  | panic => rw [hG] at hrun; simp [Run.bind] at hrun
  | diverge => rw [hG] at hrun; simp [Run.bind] at hrun
  | ret p =>
    obtain ⟨resp?, w3⟩ := p
    have hf := Get_ret_frame env a.cfg _ _ resp? w3 hG
    rw [hG] at hrun
    simp only [Run.bind] at hrun
    split at hrun
    · simp at hrun
    · split at hrun
      · simp only [Run.ret.injEq, Prod.mk.injEq] at hrun
        obtain ⟨-, ha, hw⟩ := hrun
        subst ha hw
        exact ⟨rfl, hf.1, hf.2.2⟩
      · split at hrun
        · simp only [Run.ret.injEq, Prod.mk.injEq] at hrun
          obtain ⟨-, ha, hw⟩ := hrun
          subst ha hw
          exact ⟨rfl, hf.1, hf.2.2⟩
        · next m hdec =>
          have hu := unmarshalAgencies_frame (.map m) w3
          split at hrun
          · next e w4 heq =>
            rw [heq] at hu
            simp only [Run.ret.injEq, Prod.mk.injEq] at hrun
            obtain ⟨-, ha, hw⟩ := hrun
            subst ha hw
            exact ⟨rfl, hu.1.trans hf.1, hu.2.2.trans hf.2.2⟩
          · next ags w4 heq =>
            rw [heq] at hu
            simp only [Run.ret.injEq, Prod.mk.injEq] at hrun
            obtain ⟨-, ha, hw⟩ := hrun
            subst ha hw
            exact ⟨rfl, hu.1.trans hf.1, hu.2.2.trans hf.2.2⟩

/-- Whatever the inputs, a fetch of predictions that returns leaves the stop's `cacheAge` as
it was. -/
theorem fetchPredictions_ret_cacheAge (env : Env) (h : ApiHandler) (a : Agency) (s : Stop)
    (w : World) (res : Result (List Prediction)) (s1 : Stop) (a1 : Agency) (w1 : World)
    (hrun : fetchPredictions env h a s w = .ret (res, s1, a1, w1)) :
    s1.cacheAge = s.cacheAge := by
  unfold fetchPredictions at hrun
  cases hP : predictionRequest env h a s "" w with
  | panic => rw [hP] at hrun; simp [Run.bind] at hrun
  | diverge => rw [hP] at hrun; simp [Run.bind] at hrun
  | ret p =>
    obtain ⟨⟨data, perr⟩, w2⟩ := p
    rw [hP] at hrun
    simp only [Run.bind] at hrun
    split at hrun
    · simp only [Run.ret.injEq, Prod.mk.injEq] at hrun
      rw [← hrun.2.1]
    · split at hrun
      · simp only [Run.ret.injEq, Prod.mk.injEq] at hrun
        rw [← hrun.2.1]
      · split at hrun
        · simp only [Run.ret.injEq, Prod.mk.injEq] at hrun
          rw [← hrun.2.1]
        · next predArray _ =>
          cases hL : routePredictionsLoop env h predArray [] a w2 with
          | panic => rw [hL] at hrun; simp at hrun
          | diverge => rw [hL] at hrun; simp at hrun
          | ret q =>
            obtain ⟨r, a3, w3⟩ := q
            rw [hL] at hrun
            cases r with
            | error e =>
              simp only [Run.ret.injEq, Prod.mk.injEq] at hrun
              rw [← hrun.2.1]
            | ok preds =>
              simp only [Run.ret.injEq, Prod.mk.injEq] at hrun
              rw [← hrun.2.1]

/-- Whatever the inputs, a `GetPredictions` call that returns leaves the stop's `cacheAge`
as it was: the field is never assigned. -/
theorem GetPredictions_ret_cacheAge (env : Env) (h : ApiHandler) (a : Agency) (s : Stop)
    (opts : List ApiHandlerOption) (w : World) (res : Result (List Prediction)) (s1 : Stop)
    (a1 : Agency) (w1 : World)
    (hrun : GetPredictions env h a s opts w = .ret (res, s1, a1, w1)) :
    s1.cacheAge = s.cacheAge := by
  unfold GetPredictions at hrun
  simp only [timeNow] at hrun
  split_ifs at hrun
  all_goals first
    | (simp only [Run.ret.injEq, Prod.mk.injEq] at hrun
       rw [← hrun.2.1])
    | exact fetchPredictions_ret_cacheAge _ _ _ _ _ _ _ _ _ hrun

/-- For a stop whose `cacheAge` is the zero `Time` (every stop `unmarshalRouteConfig`
builds, and by the previous theorem every such stop after any `GetPredictions`), a call at
any instant later than the year 293 (more than `maxInt64` nanoseconds after the zero
`Time`) is never answered from the cache, whatever the options: it is the fetch. -/
theorem GetPredictions_stale_at_zero_cacheAge (env : Env) (h : ApiHandler) (a : Agency)
    (s : Stop) (opts : List ApiHandlerOption) (w : World)
    (hage : s.cacheAge = 0) (hnow : maxInt64 < env.now w.ticks) :
    GetPredictions env h a s opts w
      = fetchPredictions env h a s { w with ticks := w.ticks + 1 } := by
  have hsub : Time.Sub (env.now w.ticks) s.cacheAge = maxInt64 := by
    rw [hage]
    unfold Time.Sub
    rw [if_pos (by simpa using hnow)]
  have hstale : ∀ c : Int,
      Time.Sub (env.now w.ticks) s.cacheAge > Duration.mul c Second := by
    intro c
    rw [hsub]
    exact (Duration.mul_Second_range c).2
  unfold GetPredictions
  simp only [timeNow, hstale, if_true]
  split_ifs <;> first | rfl | (exfalso; simp_all)

set_option maxRecDepth 100000 in
/-- C6 (code defect, evaluated): `Agency.GetRoutes` never reads its options, so a call with
`WithoutCache()` is the call without options; on the fixture agency with a present
collection stamped ten seconds earlier it returns the cached collection having only read
the clock: no routeList request is issued. -/
theorem GetRoutes_WithoutCache_answers_from_cache :
    (∀ (env : Env) (h : ApiHandler) (a : Agency) (opts : List ApiHandlerOption) (w : World),
      GetRoutes env h a opts w = GetRoutes env h a [] w) ∧
    ttcLoaded.Routes = some [route501, route504] ∧
    feedClock wLoaded.ticks - ttcLoaded.cacheAge = 10 * Second ∧
    GetRoutes (feedEnv agencyListBody) DefaultApiHandler ttcLoaded [WithoutCache] wLoaded
      = .ret ((some [route501, route504], none), ttcLoaded, { wLoaded with ticks := 3 }) := by
  refine ⟨fun _ _ _ _ _ => rfl, rfl, by decide, by decide⟩

set_option maxRecDepth 100000 in
/-- C7 (code defect, evaluated): `GetAgencies(WithoutCache())` applies the option to the
package variable itself: afterwards `DefaultApiHandlerOptions.UseCache` is false (and
`WithCacheMaxAge(5)` likewise leaves `CacheMaxAge = 5` behind). The following
`Agency.GetRoutes()` calls then never use the cache: the second one, thirty seconds after
the first with a maximum age of 3600 seconds, repeats the whole refresh. -/
theorem GetAgencies_options_overwrite_package_default :
    World.init.dflt = { UseCache := true, CacheMaxAge := 60 } ∧
    GetAgencies (feedEnv agencyListBody) DefaultApiHandler [WithoutCache] World.init
      = .ret ((some [ttc], none), DefaultApiHandler,
          { ticks := 1, attempts := ["?command=agencyList", "?command=agencyList"],
            calls := ["?command=agencyList"], slept := [], heapNext := 1,
            dflt := { UseCache := false, CacheMaxAge := 60 } }) ∧
    GetRoutes (feedEnv agencyListBody) DefaultApiHandler ttc []
        { ticks := 1, attempts := ["?command=agencyList", "?command=agencyList"],
          calls := ["?command=agencyList"], slept := [], heapNext := 1,
          dflt := { UseCache := false, CacheMaxAge := 60 } }
      = .ret ((some [route501, route504], none),
          { ttc with Routes := some [route501, route504], cacheAge := feedClock 2 },
          { ticks := 3,
            attempts := ["?command=agencyList", "?command=agencyList"] ++ routeAttempts,
            calls := "?command=agencyList" :: routeCalls, slept := [], heapNext := 7,
            dflt := { UseCache := false, CacheMaxAge := 60 } }) ∧
    GetRoutes (feedEnv agencyListBody) DefaultApiHandler
        { ttc with Routes := some [route501, route504], cacheAge := feedClock 2 } []
        { ticks := 3,
          attempts := ["?command=agencyList", "?command=agencyList"] ++ routeAttempts,
          calls := "?command=agencyList" :: routeCalls, slept := [], heapNext := 7,
          dflt := { UseCache := false, CacheMaxAge := 60 } }
      = .ret ((some [route501At 7, route504At 10], none),
          { ttc with Routes := some [route501At 7, route504At 10], cacheAge := feedClock 4 },
          { ticks := 5,
            attempts := ["?command=agencyList", "?command=agencyList"] ++ routeAttempts
              ++ routeAttempts,
            calls := "?command=agencyList" :: routeCalls ++ routeCalls, slept := [],
            heapNext := 13, dflt := { UseCache := false, CacheMaxAge := 60 } }) ∧
    GetAgencies (feedEnv agencyListBody) DefaultApiHandler [WithCacheMaxAge 5] World.init
      = .ret ((some [ttc], none), DefaultApiHandler,
          { ticks := 1, attempts := ["?command=agencyList", "?command=agencyList"],
            calls := ["?command=agencyList"], slept := [], heapNext := 1,
            dflt := { UseCache := true, CacheMaxAge := 5 } }) := by
  refine ⟨rfl, ?_, ?_, ?_, ?_⟩ <;> decide

set_option maxRecDepth 100000 in
/-- C8 (code defect, evaluated): with the clock standing still, a first `GetAgencies()`
fetches and decodes the agency list and returns the handler with `agencies` still nil; a
second `GetAgencies()` issues the agencyList command again and returns freshly allocated
agencies. Even a handler whose `agencies` is present and whose `cacheAge` is the current
instant fetches. -/
theorem GetAgencies_never_uses_cache :
    GetAgencies (frozenEnv agencyListBody) DefaultApiHandler [] World.init
      = .ret ((some [ttc], none), DefaultApiHandler,
          { World.init with ticks := 1,
                            attempts := ["?command=agencyList", "?command=agencyList"],
                            calls := ["?command=agencyList"], heapNext := 1 }) ∧
    DefaultApiHandler.agencies = none ∧
    GetAgencies (frozenEnv agencyListBody) DefaultApiHandler []
        { World.init with ticks := 1,
                          attempts := ["?command=agencyList", "?command=agencyList"],
                          calls := ["?command=agencyList"], heapNext := 1 }
      = .ret ((some [{ ttc with addr := 1 }], none), DefaultApiHandler,
          { World.init with ticks := 2,
                            attempts := List.replicate 4 "?command=agencyList",
                            calls := ["?command=agencyList", "?command=agencyList"],
                            heapNext := 2 }) ∧
    GetAgencies (frozenEnv agencyListBody)
        { DefaultApiHandler with agencies := some [ttc], cacheAge := t2026 } []
        { World.init with heapNext := 1 }
      = .ret ((some [{ ttc with addr := 1 }], none),
          { DefaultApiHandler with agencies := some [ttc], cacheAge := t2026 },
          { World.init with ticks := 1,
                            attempts := ["?command=agencyList", "?command=agencyList"],
                            calls := ["?command=agencyList"], heapNext := 2 }) := by
  refine ⟨?_, rfl, ?_, ?_⟩ <;> decide

set_option maxRecDepth 100000 in
/-- C9 (code defect, evaluated): a first `GetPredictions(WithCacheMaxAge(60))` succeeds and
stores the prediction set but leaves the stop's `cacheAge` at the zero `Time`; a second
`GetPredictions(WithCacheMaxAge(60))` ten seconds later issues the predictions request
again instead of returning the cached set. -/
theorem GetPredictions_never_stamps_cacheAge :
    GetPredictions (feedEnv agencyListBody) DefaultApiHandler ttc queenStop
        [WithCacheMaxAge 60] wStart
      = .ret ((some [], none), { queenStop with Predictions := some [] }, ttc,
          { wStart with ticks := 1,
                        attempts := List.replicate 2 "?command=predictions&a=ttc&stopId=1001",
                        calls := ["?command=predictions&a=ttc&stopId=1001"] }) ∧
    ({ queenStop with Predictions := some [] } : Stop).cacheAge = 0 ∧
    feedClock 1 - feedClock 0 = 10 * Second ∧
    GetPredictions (feedEnv agencyListBody) DefaultApiHandler ttc
        { queenStop with Predictions := some [] } [WithCacheMaxAge 60]
        { wStart with ticks := 1,
                      attempts := List.replicate 2 "?command=predictions&a=ttc&stopId=1001",
                      calls := ["?command=predictions&a=ttc&stopId=1001"] }
      = .ret ((some [], none), { queenStop with Predictions := some [] }, ttc,
          { wStart with ticks := 2,
                        attempts := List.replicate 4 "?command=predictions&a=ttc&stopId=1001",
                        calls := ["?command=predictions&a=ttc&stopId=1001",
                                  "?command=predictions&a=ttc&stopId=1001"] }) := by
  refine ⟨?_, rfl, ?_, ?_⟩ <;> decide

/-- C10 (code defect, general): whenever the agency-list request succeeds, its body decodes
to a JSON object and `unmarshalAgencies` rejects that object (whatever the shape error),
`GetAgencies` returns a nil agency collection together with a nil error. -/
theorem GetAgencies_drops_decode_error (env : Env) (a : ApiHandler)
    (opts : List ApiHandlerOption) (w : World) (resp : ApiResponse) (w3 : World) (m : JMap)
    (e : Err) (w4 : World)
    (hget : Get env a.cfg MethodAgencyList
        { w with ticks := w.ticks + 1,
                 dflt := opts.foldl (fun aho opt => opt aho) w.dflt } = .ret (some resp, w3))
    (herr : resp.Error = none)
    (hjson : env.jsonUnmarshal (resp.Data.getD "") = .ok m)
    (hshape : unmarshalAgencies (.map m) w3 = (.error e, w4)) :
    GetAgencies env a opts w = .ret ((none, none), a, w4) := by
  unfold GetAgencies
  simp only [timeNow]
  rw [if_neg (by simp)]
  rw [hget]
  simp only [Run.bind]
  rw [herr]
  simp only
  rw [hjson]
  simp only
  rw [hshape]

set_option maxRecDepth 100000 in
/-- C10 on the fixture: the bodies `{}` (no `agency` field) and
`{"agency":[{"title":"Toronto Transit Commission"}]}` (an element without `tag`) both give
a nil collection with a nil error. -/
theorem GetAgencies_drops_decode_error_witness :
    GetAgencies (feedEnv emptyObjectBody) DefaultApiHandler [] World.init
      = .ret ((none, none), DefaultApiHandler,
          { World.init with ticks := 1,
                            attempts := ["?command=agencyList", "?command=agencyList"],
                            calls := ["?command=agencyList"] }) ∧
    GetAgencies (feedEnv agencyNoTagBody) DefaultApiHandler [] World.init
      = .ret ((none, none), DefaultApiHandler,
          { World.init with ticks := 1,
                            attempts := ["?command=agencyList", "?command=agencyList"],
                            calls := ["?command=agencyList"], heapNext := 1 }) :=
  ⟨GetAgencies_drops_decode_error (feedEnv emptyObjectBody) DefaultApiHandler [] World.init
      ⟨some ⟨200, emptyObjectBody, none⟩, none, some emptyObjectBody⟩
      { World.init with ticks := 1,
                        attempts := ["?command=agencyList", "?command=agencyList"],
                        calls := ["?command=agencyList"] }
      [] "could not get agencies from response" _
      (by decide) rfl rfl rfl,
   GetAgencies_drops_decode_error (feedEnv agencyNoTagBody) DefaultApiHandler [] World.init
      ⟨some ⟨200, agencyNoTagBody, none⟩, none, some agencyNoTagBody⟩
      { World.init with ticks := 1,
                        attempts := ["?command=agencyList", "?command=agencyList"],
                        calls := ["?command=agencyList"] }
      [("agency", .slice [.map [("title", .str "Toronto Transit Commission")]])]
      "Could not get tag, this shouldn't happen" _
      (by decide) rfl rfl rfl⟩

/-! ## Decoding of agencies and routes -/

theorem IfaceToString_str (s : String) : IfaceToString (.str s) = (s, true) := rfl

theorem IfaceToString_not_str (v : Iface) (h : ∀ s, v ≠ .str s) :
    IfaceToString v = ("", false) := by
  cases v <;> first | rfl | exact absurd rfl (h _)

theorem IfaceToString_cases (v : Iface) :
    (∃ s, v = .str s ∧ IfaceToString v = (s, true)) ∨
    ((∀ s, v ≠ .str s) ∧ IfaceToString v = ("", false)) := by
  cases v
  case str s => exact Or.inl ⟨s, rfl, rfl⟩
  all_goals exact Or.inr ⟨fun s hs => (by cases hs), rfl⟩

theorem unmarshalAgenciesLoop_well_formed (elems : List JMap) :
    ∀ (acc : List Agency) (w : World),
      (∀ e ∈ elems, ∃ title tag, e.idx "title" = .str title ∧ e.idx "tag" = .str tag) →
      ∃ ags w1, unmarshalAgenciesLoop (elems.map Iface.map) acc w = (.ok (acc ++ ags), w1) ∧
        List.Forall₂ agencyMatches elems ags := by
  induction elems with
  | nil =>
    intro acc w _
    exact ⟨[], w, by simp [unmarshalAgenciesLoop], List.Forall₂.nil⟩
  | cons e rest ih =>
    intro acc w hwf
    obtain ⟨title, tag, ht, hg⟩ := hwf e (List.mem_cons_self _ _)
    have hrest : ∀ e ∈ rest, ∃ title tag, e.idx "title" = .str title ∧ e.idx "tag" = .str tag :=
      fun x hx => hwf x (List.mem_cons_of_mem _ hx)
    simp only [List.map_cons, unmarshalAgenciesLoop, Iface.asMap, alloc, ht, hg,
      IfaceToString_str, if_true]
    rcases IfaceToString_cases (e.idx "shortTitle") with ⟨st, hst, hst2⟩ | ⟨hst, hst2⟩ <;>
    rcases IfaceToString_cases (e.idx "regionTitle") with ⟨rt, hrt, hrt2⟩ | ⟨hrt, hrt2⟩
    all_goals
      simp only [hst2, hrt2, if_true, Bool.false_eq_true, if_false]
      obtain ⟨ags, w1, hrun, hall⟩ := ih (acc ++ [_]) _ hrest
      refine ⟨_ :: ags, w1, (by rw [hrun, List.append_assoc]; rfl), List.Forall₂.cons ?_ hall⟩
      refine ⟨ht, hg, ?_, ?_⟩
    · intro st2 h2; rw [hst] at h2; cases h2; rfl
    · intro h2; exact absurd hst (h2 st)
    · intro st2 h2; rw [hst] at h2; cases h2; rfl
    · intro h2; exact absurd hst (h2 st)
    · intro st2 h2; exact absurd h2 (hst st2)
    · intro _; rfl
    · intro st2 h2; exact absurd h2 (hst st2)
    · intro _; rfl

/-- C11: for every agency-list value whose `agency` field is an array of mappings each
carrying a string `title` and a string `tag`, `unmarshalAgencies` succeeds and returns one
`Agency` per element, in order, whose `Title` and `Tag` are the payload's values and whose
`ShortTitle` is the element's `shortTitle` when that is a string and the agency's `Title`
otherwise. -/
theorem unmarshalAgencies_well_formed (obj : JMap) (elems : List JMap) (w : World)
    (hfield : obj.idx "agency" = .slice (elems.map Iface.map))
    (hwf : ∀ e ∈ elems, ∃ title tag, e.idx "title" = .str title ∧ e.idx "tag" = .str tag) :
    ∃ ags w1, unmarshalAgencies (.map obj) w = (.ok ags, w1) ∧
      ags.length = elems.length ∧
      List.Forall₂ (fun e a =>
        e.idx "title" = .str a.Title ∧ e.idx "tag" = .str a.Tag ∧
        (∀ st, e.idx "shortTitle" = .str st → a.ShortTitle = st) ∧
        ((∀ st, e.idx "shortTitle" ≠ .str st) → a.ShortTitle = a.Title)) elems ags := by
  obtain ⟨ags, w1, hrun, hall⟩ := unmarshalAgenciesLoop_well_formed elems [] w hwf
  refine ⟨ags, w1, ?_, hall.length_eq.symm, hall⟩
  unfold unmarshalAgencies
  simp only [Iface.asMap, hfield, Iface.asSlice]
  rw [hrun]
  rfl

/-- C11 on a list of two agencies, the first without `shortTitle`: its short title is its
title, the second keeps its own. -/
theorem unmarshalAgencies_well_formed_witness :
    unmarshalAgencies (.map twoAgencyList) World.init
      = (.ok [ttc, { addr := 1, Title := "San Francisco Muni", Tag := "sf-muni",
                     ShortTitle := "SF Muni", RegionTitle := "California-Northern",
                     Routes := none, cacheAge := 0 }],
         { World.init with heapNext := 2 }) ∧
    ttc.ShortTitle = ttc.Title ∧
    ∃ ags w1, unmarshalAgencies (.map twoAgencyList) World.init = (.ok ags, w1) ∧
      ags.length = twoAgencyElems.length ∧
      List.Forall₂ (fun e a =>
        e.idx "title" = .str a.Title ∧ e.idx "tag" = .str a.Tag ∧
        (∀ st, e.idx "shortTitle" = .str st → a.ShortTitle = st) ∧
        ((∀ st, e.idx "shortTitle" ≠ .str st) → a.ShortTitle = a.Title)) twoAgencyElems ags :=
  ⟨rfl, rfl,
   unmarshalAgencies_well_formed twoAgencyList twoAgencyElems World.init rfl
    (by
      intro e he
      simp only [twoAgencyElems, List.mem_cons, List.mem_singleton, List.not_mem_nil,
        or_false] at he
      rcases he with rfl | rfl
      · exact ⟨_, _, rfl, rfl⟩
      · exact ⟨_, _, rfl, rfl⟩)⟩

/-- A mapping without a string `shortTitle` leaves the stop's `ShortTitle` as it was (empty
for the fresh stop of `unmarshalRouteConfig`), whatever its `title`. -/
theorem unmarshalRouteStop_keeps_ShortTitle (env : Env) (s : Stop) (stop : JMap)
    (h : ∀ st, stop.idx "shortTitle" ≠ .str st) :
    ∃ s1, unmarshalRouteStop env s (.map stop) = .ok s1 ∧ s1.ShortTitle = s.ShortTitle ∧
      (∀ t, stop.idx "title" = .str t → s1.Title = t) := by
  unfold unmarshalRouteStop
  simp only [Iface.asMap, IfaceToString_not_str _ h]
  refine ⟨_, rfl, ?_, ?_⟩
  · simp only [apply_ite Stop.ShortTitle, ite_self, Bool.false_eq_true, if_false]
  · intro t ht
    simp only [ht, IfaceToString_str, apply_ite Stop.Title, ite_self, Bool.false_eq_true,
      if_false, if_true]

set_option maxRecDepth 100000 in
/-- C12 (code defect, evaluated): for the stop mapping
`{"tag":"s1","stopId":"1001","title":"Queen St"}` (a string title, no `shortTitle`)
`unmarshalRouteStop` leaves `ShortTitle` empty, not equal to `Title`; the stop of the route
`unmarshalRouteConfig` builds from the fixture routeConfig of route 501 is that stop. -/
theorem unmarshalRouteStop_no_shortTitle_fallback :
    queenStopMap.idx "title" = .str "Queen St" ∧
    queenStopMap.get? "shortTitle" = none ∧
    unmarshalRouteStop offlineEnv (freshStop 2) (.map queenStopMap)
      = .ok { freshStop 2 with StopID := "1001", Tag := "s1", Title := "Queen St",
                               ShortTitle := "" } ∧
    feedDecode routeConfig501Body = .ok
      [("route", .map [("tag", .str "501"), ("title", .str "501-Queen"),
        ("stop", .slice [.map queenStopMap]),
        ("direction", .map [("tag", .str "501_0"), ("title", .str "East"),
                            ("stop", .slice [.map [("tag", .str "s1")]])])])] ∧
    unmarshalRouteConfig offlineEnv (.map
      [("route", .map [("tag", .str "501"), ("title", .str "501-Queen"),
        ("stop", .slice [.map queenStopMap]),
        ("direction", .map [("tag", .str "501_0"), ("title", .str "East"),
                            ("stop", .slice [.map [("tag", .str "s1")]])])])]) wStart
      = (.ok route501, { wStart with heapNext := 4 }) ∧
    route501.Stops = some [queenStop] ∧
    queenStop.Title = "Queen St" ∧ queenStop.ShortTitle = "" := by
  refine ⟨rfl, rfl, rfl, rfl, rfl, rfl, rfl, rfl⟩

/-! ## Services of a stop -/

theorem unmarshalServiceRoute_Stops (r : Route) (s s1 : Service) (v : Iface)
    (h : unmarshalServiceRoute r s v = .ok s1) : s1.Stops = s.Stops := by
  unfold unmarshalServiceRoute at h
  split at h
  · cases h
  · simp only at h
    split at h
    · cases h
    · injection h with h
      rw [← h]
      simp only [apply_ite Service.Stops, ite_self]

theorem routeServicesLoop_Stops (r : Route) (l : List Iface) :
    ∀ (acc : List Service) (w : World) (svcs : List Service) (w1 : World),
      routeServicesLoop r l acc w = (.ok svcs, w1) →
      (∀ x ∈ acc, x.Stops = none) → ∀ x ∈ svcs, x.Stops = none := by
  induction l with
  | nil =>
    intro acc w svcs w1 h hacc
    simp only [routeServicesLoop, Prod.mk.injEq, Except.ok.injEq] at h
    rw [← h.1]
    exact hacc
  | cons v rest ih =>
    intro acc w svcs w1 h hacc
    simp only [routeServicesLoop, alloc] at h
    split at h
    · simp at h
    · next svc hsvc =>
      refine ih _ _ _ _ h ?_
      intro x hx
      rcases List.mem_append.1 hx with hx | hx
      · exact hacc x hx
      · rw [List.mem_singleton.1 hx, unmarshalServiceRoute_Stops _ _ _ _ hsvc]

/-- Every service of a route built by `unmarshalRouteConfig` has a nil stop list:
`unmarshalServiceRoute` never assigns `s.Stops`. -/
theorem unmarshalRouteConfig_service_Stops (env : Env) (v : Iface) (w w1 : World) (r : Route)
    (h : unmarshalRouteConfig env v w = (.ok r, w1)) :
    ∀ svc ∈ r.Services.getD [], svc.Stops = none := by
  unfold unmarshalRouteConfig at h
  simp only [alloc] at h
  split at h
  · simp at h
  · split at h
    · simp at h
    · split at h
      · simp at h
      · split at h
        · simp at h
        · split at h
          · simp at h
          · split at h
            · simp at h
            · next svcs w3 heq =>
              simp only [Prod.mk.injEq, Except.ok.injEq] at h
              rw [← h.1]
              exact routeServicesLoop_Stops _ _ _ _ _ _ heq (by simp)

theorem stopRoutesLoop_mem (stopId : String) (rs : List Route) :
    ∀ (acc : List Route), ∀ x ∈ stopRoutesLoop stopId rs acc, x ∈ acc ∨ x ∈ rs := by
  induction rs with
  | nil => intro acc x hx; exact Or.inl hx
  | cons r rest ih =>
    intro acc x hx
    simp only [stopRoutesLoop] at hx
    split at hx
    · rcases ih _ x hx with h | h
      · rcases List.mem_append.1 h with h | h
        · exact Or.inl h
        · exact Or.inr (by rw [List.mem_singleton.1 h]; exact List.mem_cons_self _ _)
      · exact Or.inr (List.mem_cons_of_mem _ h)
    · rcases ih _ x hx with h | h
      · exact Or.inl h
      · exact Or.inr (List.mem_cons_of_mem _ h)

theorem searchServices_mem (rs : List Route) :
    ∀ (acc : List Service), ∀ x ∈ searchServices rs acc,
      x ∈ acc ∨ ∃ r ∈ rs, x ∈ r.Services.getD [] := by
  induction rs with
  | nil => intro acc x hx; exact Or.inl hx
  | cons r rest ih =>
    intro acc x hx
    simp only [searchServices] at hx
    rcases ih _ x hx with h | ⟨r1, hr1, h⟩
    · rcases List.mem_append.1 h with h | h
      · exact Or.inl h
      · exact Or.inr ⟨r, List.mem_cons_self _ _, h⟩
    · exact Or.inr ⟨r1, List.mem_cons_of_mem _ hr1, h⟩

theorem stopServicesLoop_nil_Stops (stopId : String) (svcs : List Service) :
    ∀ (acc : List Service), (∀ x ∈ svcs, x.Stops = none) →
      stopServicesLoop stopId svcs acc = acc := by
  induction svcs with
  | nil => intro acc _; rfl
  | cons svc rest ih =>
    intro acc h
    simp only [stopServicesLoop, h svc (List.mem_cons_self _ _), Option.getD_none,
      serviceStopMatches]
    exact ih acc (fun x hx => h x (List.mem_cons_of_mem _ hx))

/-- C13 (code defect, general): for every agency whose present routes were each built by
`unmarshalRouteConfig`, and every stop identifier, `Agency.GetStopServiceRoutes` returns the
empty list: the services never carry a stop list of their own. -/
theorem GetStopServiceRoutes_always_empty (env : Env) (h : ApiHandler) (a : Agency)
    (rs : List Route) (stopId : String) (w : World)
    (hroutes : a.Routes = some rs)
    (hbuilt : ∀ r ∈ rs, ∃ (env1 : Env) (v : Iface) (w0 w1 : World),
      unmarshalRouteConfig env1 v w0 = (.ok r, w1)) :
    Agency.GetStopServiceRoutes env h a stopId w = .ret (.ok [], a, w) := by
  unfold Agency.GetStopServiceRoutes Agency.GetStopRoutes
  simp only [hroutes, Option.isNone_some, Bool.false_eq_true, if_false, Run.bind,
    Option.getD_some]
  rw [stopServicesLoop_nil_Stops]
  intro x hx
  rcases searchServices_mem _ _ x hx with h1 | ⟨r, hr, h1⟩
  · cases h1
  · rcases stopRoutesLoop_mem _ _ _ r hr with h2 | h2
    · cases h2
    · obtain ⟨env1, v, w0, w1, hb⟩ := hbuilt r h2
      exact unmarshalRouteConfig_service_Stops env1 v w0 w1 r hb x h1

set_option maxRecDepth 100000 in
/-- C13 on two routes: stop 100 is on routes N and J and is listed only in the inbound
direction of each; `GetStopRoutes` finds both routes, yet `GetStopServiceRoutes` returns no
service instead of the two inbound ones. -/
theorem GetStopServiceRoutes_always_empty_witness :
    unmarshalRouteConfig offlineEnv (.map cfgN) wStart = (.ok routeN, { wStart with heapNext := 6 }) ∧
    unmarshalRouteConfig offlineEnv (.map cfgJ) { wStart with heapNext := 6 }
      = (.ok routeJ, { wStart with heapNext := 11 }) ∧
    Agency.GetStopRoutes offlineEnv DefaultApiHandler muni "100" wStart
      = .ret (.ok [routeN, routeJ], muni, wStart) ∧
    Agency.GetStopServiceRoutes offlineEnv DefaultApiHandler muni "100" wStart
      = .ret (.ok [], muni, wStart) :=
  ⟨rfl, rfl, rfl,
   GetStopServiceRoutes_always_empty offlineEnv DefaultApiHandler muni [routeN, routeJ] "100"
    wStart rfl (by
      intro r hr
      simp only [List.mem_cons, List.mem_singleton, List.not_mem_nil, or_false] at hr
      rcases hr with rfl | rfl
      · exact ⟨offlineEnv, .map cfgN, wStart, _, rfl⟩
      · exact ⟨offlineEnv, .map cfgJ, { wStart with heapNext := 6 }, _, rfl⟩)⟩

/-! ## Directions and stops of a route -/

theorem IfaceToString_ite (v : Iface) :
    (if (IfaceToString v).2 = true then (IfaceToString v).1 else "") = (IfaceToString v).1 := by
  rcases IfaceToString_cases v with ⟨s, _, h⟩ | ⟨_, h⟩ <;> simp [h]

theorem IfaceToBool_ite (v : Iface) :
    (if (IfaceToBool v).2 = true then (IfaceToBool v).1 else false) = (IfaceToBool v).1 := by
  cases v <;> simp only [IfaceToBool] <;> (try rfl)
  split_ifs <;> simp_all

theorem unmarshalRouteStop_map (env : Env) (s : Stop) (m : JMap) :
    ∃ s1, unmarshalRouteStop env s (.map m) = .ok s1 := ⟨_, rfl⟩

theorem routeStopsLoop_maps (env : Env) (stops : List JMap) :
    ∀ (acc : List Stop) (w : World),
      ∃ sts w1, routeStopsLoop env (stops.map Iface.map) acc w = (.ok (acc ++ sts), w1) ∧
        sts.length = stops.length := by
  induction stops with
  | nil => intro acc w; exact ⟨[], w, by simp [routeStopsLoop], rfl⟩
  | cons m rest ih =>
    intro acc w
    obtain ⟨s1, hs1⟩ := unmarshalRouteStop_map env (freshStop w.heapNext) m
    simp only [List.map_cons, routeStopsLoop, alloc]
    simp only [freshStop] at hs1
    rw [hs1]
    obtain ⟨sts, w1, hrun, hlen⟩ := ih (acc ++ [s1]) { w with heapNext := w.heapNext + 1 }
    refine ⟨s1 :: sts, w1, ?_, by simp [hlen]⟩
    dsimp only
    rw [hrun, List.append_assoc]
    rfl

/-- A fresh service decoded from a mapping that carries a stop array takes its tag, name,
title and UI flag from the mapping. -/
theorem unmarshalServiceRoute_map (r : Route) (p : Nat) (d : JMap) (sl : List Iface)
    (hsl : d.idx "stop" = .slice sl) :
    ∃ s1, unmarshalServiceRoute r
        { addr := p, Tag := "", Name := "", Title := "", UseForUI := false, Stops := none,
          route := r.addr } (.map d) = .ok s1 ∧
      s1.Tag = (IfaceToString (d.idx "tag")).1 ∧
      s1.Name = (IfaceToString (d.idx "name")).1 ∧
      s1.Title = (IfaceToString (d.idx "title")).1 ∧
      s1.UseForUI = (IfaceToBool (d.idx "useForUI")).1 ∧
      s1.route = r.addr := by
  unfold unmarshalServiceRoute
  simp only [Iface.asMap, hsl, Iface.asSlice]
  refine ⟨_, rfl, ?_, ?_, ?_, ?_, ?_⟩
  · simp only [apply_ite Service.Tag, ite_self, IfaceToString_ite]
  · simp only [apply_ite Service.Name, ite_self, IfaceToString_ite]
  · simp only [apply_ite Service.Title, ite_self, IfaceToString_ite]
  · simp only [apply_ite Service.UseForUI, ite_self, IfaceToBool_ite]
  · simp only [apply_ite Service.route, ite_self]

theorem routeServicesLoop_maps (r : Route) (ds : List JMap) :
    ∀ (acc : List Service) (w : World),
      (∀ d ∈ ds, ∃ sl, d.idx "stop" = .slice sl) →
      ∃ svcs w1, routeServicesLoop r (ds.map Iface.map) acc w = (.ok (acc ++ svcs), w1) ∧
        List.Forall₂ (fun d svc =>
          svc.Tag = (IfaceToString (d.idx "tag")).1 ∧
          svc.Name = (IfaceToString (d.idx "name")).1 ∧
          svc.Title = (IfaceToString (d.idx "title")).1 ∧
          svc.UseForUI = (IfaceToBool (d.idx "useForUI")).1 ∧
          svc.route = r.addr) ds svcs := by
  induction ds with
  | nil => intro acc w _; exact ⟨[], w, by simp [routeServicesLoop], List.Forall₂.nil⟩
  | cons d rest ih =>
    intro acc w hds
    obtain ⟨sl, hsl⟩ := hds d (List.mem_cons_self _ _)
    obtain ⟨s1, hs1, hprops⟩ := unmarshalServiceRoute_map r w.heapNext d sl hsl
    simp only [List.map_cons, routeServicesLoop, alloc]
    rw [hs1]
    obtain ⟨svcs, w1, hrun, hall⟩ := ih (acc ++ [s1]) { w with heapNext := w.heapNext + 1 }
      (fun x hx => hds x (List.mem_cons_of_mem _ hx))
    refine ⟨s1 :: svcs, w1, ?_, List.Forall₂.cons hprops hall⟩
    dsimp only
    rw [hrun, List.append_assoc]
    rfl

theorem routeStopsLoop_maps_eq {env : Env} {stops : List JMap} {acc : List Stop} {w w1 : World}
    {res : Except Err (List Stop)}
    (h : routeStopsLoop env (stops.map Iface.map) acc w = (res, w1)) :
    ∃ sts, res = .ok (acc ++ sts) ∧ sts.length = stops.length := by
  obtain ⟨sts, w2, hrun, hlen⟩ := routeStopsLoop_maps env stops acc w
  rw [hrun] at h
  injection h with h1 h2
  exact ⟨sts, h1.symm, hlen⟩

theorem routeServicesLoop_maps_eq {r : Route} {ds : List JMap} {acc : List Service}
    {w w1 : World} {res : Except Err (List Service)}
    (hds : ∀ d ∈ ds, ∃ sl, d.idx "stop" = .slice sl)
    (h : routeServicesLoop r (ds.map Iface.map) acc w = (res, w1)) :
    ∃ svcs, res = .ok (acc ++ svcs) ∧
      List.Forall₂ (fun d svc =>
        svc.Tag = (IfaceToString (d.idx "tag")).1 ∧
        svc.Name = (IfaceToString (d.idx "name")).1 ∧
        svc.Title = (IfaceToString (d.idx "title")).1 ∧
        svc.UseForUI = (IfaceToBool (d.idx "useForUI")).1 ∧
        svc.route = r.addr) ds svcs := by
  obtain ⟨svcs, w2, hrun, hall⟩ := routeServicesLoop_maps r ds acc w hds
  rw [hrun] at h
  injection h with h1 h2
  exact ⟨svcs, h1.symm, hall⟩

/-- The result of `unmarshalRouteConfig` depends on the route mapping only through its
`tag`, `title`, `shortTitle` and `stop` fields and through the list of directions, whether
that list was written as an array or, for a single direction, as a bare mapping. -/
theorem unmarshalRouteConfig_bare_direction (env : Env) (w : World) (iface iface2 rte rte2 : JMap)
    (d : JMap)
    (hroute : iface.idx "route" = .map rte) (hroute2 : iface2.idx "route" = .map rte2)
    (hsame : ∀ k, k ≠ "direction" → rte2.idx k = rte.idx k)
    (hdir : rte.idx "direction" = .map d) (hdir2 : rte2.idx "direction" = .slice [.map d]) :
    unmarshalRouteConfig env (.map iface2) w = unmarshalRouteConfig env (.map iface) w := by
  unfold unmarshalRouteConfig
  simp only [Iface.asMap, hroute, hroute2, hdir, hdir2, Iface.asSlice,
    hsame "tag" (by decide), hsame "title" (by decide), hsame "shortTitle" (by decide),
    hsame "stop" (by decide)]

theorem unmarshalRouteConfig_services_of_dirs (env : Env) (w : World) (iface rte : JMap)
    (stops ds : List JMap)
    (hroute : iface.idx "route" = .map rte)
    (hstops : rte.idx "stop" = .slice (stops.map Iface.map))
    (hdir : (∃ d, rte.idx "direction" = .map d ∧ ds = [d]) ∨
      rte.idx "direction" = .slice (ds.map Iface.map))
    (hds : ∀ d ∈ ds, ∃ sl, d.idx "stop" = .slice sl) :
    ∃ r w1 svcs sts, unmarshalRouteConfig env (.map iface) w = (.ok r, w1) ∧
      r.Stops = some sts ∧ sts.length = stops.length ∧
      r.Services = some svcs ∧
      List.Forall₂ (fun d svc =>
        svc.Tag = (IfaceToString (d.idx "tag")).1 ∧
        svc.Name = (IfaceToString (d.idx "name")).1 ∧
        svc.Title = (IfaceToString (d.idx "title")).1 ∧
        svc.UseForUI = (IfaceToBool (d.idx "useForUI")).1 ∧
        svc.route = r.addr) ds svcs := by
  have hnorm : (match (rte.idx "direction").asSlice with
      | some svcList => some svcList
      | none =>
        match (rte.idx "direction").asMap with
        | some singleSvc => some [Iface.map singleSvc]
        | none => none) = some (ds.map Iface.map) := by
    rcases hdir with ⟨d, hd, rfl⟩ | hd
    · rw [hd]; rfl
    · rw [hd]; rfl
  unfold unmarshalRouteConfig
  simp only [Iface.asMap, alloc, hroute, hstops, Iface.asSlice]
  simp only [Iface.asMap, Iface.asSlice] at hnorm
  split
  · next err w2 heq =>
    obtain ⟨sts, hsts, _⟩ := routeStopsLoop_maps_eq heq
    cases hsts
  · next sts w2 heq =>
    obtain ⟨sts1, hsts, hlen⟩ := routeStopsLoop_maps_eq heq
    simp only [hnorm]
    split
    · next err w3 heq3 =>
      obtain ⟨svcs, hsv, _⟩ := routeServicesLoop_maps_eq hds heq3
      cases hsv
    · next svcs w3 heq3 =>
      obtain ⟨svcs1, hsv, hall⟩ := routeServicesLoop_maps_eq hds heq3
      injection hsv with hsv
      injection hsts with hsts
      subst hsv hsts
      refine ⟨_, w3, _, _, rfl, rfl, ?_, rfl, ?_⟩
      · simpa using hlen
      · simpa [apply_ite Route.addr] using hall

theorem unmarshalRouteConfig_congr (env : Env) (w : World) (iface iface2 rte rte2 : JMap)
    (hroute : iface.idx "route" = .map rte) (hroute2 : iface2.idx "route" = .map rte2)
    (hsame : ∀ k, rte2.idx k = rte.idx k) :
    unmarshalRouteConfig env (.map iface2) w = unmarshalRouteConfig env (.map iface) w := by
  unfold unmarshalRouteConfig
  simp only [Iface.asMap, hroute, hroute2, hsame]

/-- C14: for every route-config value whose `route.stop` is an array of mappings and whose
`route.direction` is either a single bare mapping `d` carrying a stop array (then
`ds = [d]`) or an array `ds` of such mappings, `unmarshalRouteConfig` succeeds and the route
has exactly one service per element of `ds`, in order, each built from its mapping (so its
tag is the mapping's tag); and a route-config value that differs only in writing the
directions as the array `ds` gives the very same result, so the bare mapping `d` gives the
same services as `[d]`. -/
theorem unmarshalRouteConfig_directions (env : Env) (w : World) (iface rte : JMap)
    (stops ds : List JMap)
    (hroute : iface.idx "route" = .map rte)
    (hstops : rte.idx "stop" = .slice (stops.map Iface.map))
    (hdir : (∃ d, rte.idx "direction" = .map d ∧ ds = [d]) ∨
      rte.idx "direction" = .slice (ds.map Iface.map))
    (hds : ∀ d ∈ ds, ∃ sl, d.idx "stop" = .slice sl) :
    ∃ r w1 svcs, unmarshalRouteConfig env (.map iface) w = (.ok r, w1) ∧
      r.Services = some svcs ∧ svcs.length = ds.length ∧
      svcs.map (fun svc => svc.Tag) = ds.map (fun d => (IfaceToString (d.idx "tag")).1) ∧
      List.Forall₂ (serviceBuiltFrom r.addr) ds svcs ∧
      ∀ iface2 rte2 : JMap, iface2.idx "route" = .map rte2 →
        (∀ k, k ≠ "direction" → rte2.idx k = rte.idx k) →
        rte2.idx "direction" = .slice (ds.map Iface.map) →
        unmarshalRouteConfig env (.map iface2) w = (.ok r, w1) := by
  obtain ⟨r, w1, svcs, sts, hrun, _, _, hsvcs, hall⟩ :=
    unmarshalRouteConfig_services_of_dirs env w iface rte stops ds hroute hstops hdir hds
  have hall2 : List.Forall₂ (serviceBuiltFrom r.addr) ds svcs := hall.imp (fun _ _ h => h)
  have htags : ∀ (l1 : List JMap) (l2 : List Service),
      List.Forall₂ (serviceBuiltFrom r.addr) l1 l2 →
      l2.map (fun svc => svc.Tag) = l1.map (fun d => (IfaceToString (d.idx "tag")).1) := by
    intro l1 l2 h12
    induction h12 with
    | nil => rfl
    | cons h _ ih => simp only [List.map_cons, ih, h.1]
  refine ⟨r, w1, svcs, hrun, hsvcs, hall.length_eq.symm, htags ds svcs hall2, hall2, ?_⟩
  · intro iface2 rte2 hroute2 hsame hdir2
    rw [← hrun]
    rcases hdir with ⟨d, hd, rfl⟩ | hd
    · exact unmarshalRouteConfig_bare_direction env w iface iface2 rte rte2 d hroute hroute2
        hsame hd hdir2
    · refine unmarshalRouteConfig_congr env w iface iface2 rte rte2 hroute hroute2 ?_
      intro k
      by_cases hk : k = "direction"
      · rw [hk, hd, hdir2]
      · exact hsame k hk

set_option maxRecDepth 100000 in
/-- C14 on the fixtures: the routeConfig of route 501, whose direction is the bare mapping
`dir501`, gives the route with the single service `501_0`, the same route as for the
one-element array; the routeConfig of route N, with an array of two directions, gives the
services `N_in`, `N_out` in order. -/
theorem unmarshalRouteConfig_directions_witness :
    unmarshalRouteConfig offlineEnv (.map [("route", .map rte501)]) wStart
      = (.ok route501, { wStart with heapNext := 4 }) ∧
    unmarshalRouteConfig offlineEnv (.map [("route", .map rte501Array)]) wStart
      = (.ok route501, { wStart with heapNext := 4 }) ∧
    (route501.Services.getD []).map (fun svc => svc.Tag) = ["501_0"] ∧
    (routeN.Services.getD []).map (fun svc => svc.Tag) = ["N_in", "N_out"] ∧
    ∃ r w1 svcs, unmarshalRouteConfig offlineEnv (.map [("route", .map rte501)]) wStart
        = (.ok r, w1) ∧
      r.Services = some svcs ∧ svcs.length = [dir501].length ∧
      svcs.map (fun svc => svc.Tag)
        = [dir501].map (fun d => (IfaceToString (d.idx "tag")).1) ∧
      List.Forall₂ (serviceBuiltFrom r.addr) [dir501] svcs ∧
      ∀ iface2 rte2 : JMap, iface2.idx "route" = .map rte2 →
        (∀ k, k ≠ "direction" → rte2.idx k = rte501.idx k) →
        rte2.idx "direction" = .slice ([dir501].map Iface.map) →
        unmarshalRouteConfig offlineEnv (.map iface2) wStart = (.ok r, w1) :=
  ⟨rfl, rfl, rfl, rfl,
   unmarshalRouteConfig_directions offlineEnv wStart [("route", .map rte501)] rte501
    [queenStopMap] [dir501] rfl rfl (Or.inl ⟨dir501, rfl, rfl⟩)
    (by
      intro d hd
      rw [List.mem_singleton.1 hd]
      exact ⟨_, rfl⟩)⟩

/-- C15 (code defect, general): for every route-config value whose `route.stop` is a single
bare mapping, `unmarshalRouteConfig` fails with the stop-list error, whatever the direction
field holds: the stop list is not normalised the way the direction list is. -/
theorem unmarshalRouteConfig_rejects_bare_stop (env : Env) (w : World) (iface rte stop : JMap)
    (hroute : iface.idx "route" = .map rte) (hstop : rte.idx "stop" = .map stop) :
    unmarshalRouteConfig env (.map iface) w
      = (.error "Could not get list of stops from routeConfig",
         { w with heapNext := w.heapNext + 1 }) := by
  unfold unmarshalRouteConfig
  simp only [Iface.asMap, alloc, hroute, hstop, Iface.asSlice]

set_option maxRecDepth 100000 in
/-- C15 on the routeConfig of route 501 with its one stop written as a bare mapping: the
decode fails, while the same payload with `stop` written as a one-element array gives the
route with that stop. -/
theorem unmarshalRouteConfig_rejects_bare_stop_witness :
    rte501BareStop.idx "stop" = .map queenStopMap ∧
    rte501.idx "stop" = .slice [.map queenStopMap] ∧
    unmarshalRouteConfig offlineEnv (.map [("route", .map rte501)]) wStart
      = (.ok route501, { wStart with heapNext := 4 }) ∧
    unmarshalRouteConfig offlineEnv (.map [("route", .map rte501BareStop)]) wStart
      = (.error "Could not get list of stops from routeConfig",
         { wStart with heapNext := wStart.heapNext + 1 }) :=
  ⟨rfl, rfl, rfl,
   unmarshalRouteConfig_rejects_bare_stop offlineEnv wStart [("route", .map rte501BareStop)]
    rte501BareStop queenStopMap rfl rfl⟩

/-! ## Failures of the routes refresh -/

/-- C16 (code defect, general): whenever the routeList request succeeds and its body
decodes to an object whose `route` field is present and is neither an array nor a mapping,
the refresh of `Agency.GetRoutes` panics on the unchecked type assertion; so does
`GetRoutes` for an agency without cached routes. -/
theorem GetRoutes_panics_on_scalar_route (env : Env) (h : ApiHandler) (a : Agency)
    (opts : List ApiHandlerOption) (w : World) (resp : ApiResponse) (w2 : World)
    (routesIface : JMap) (v : Iface)
    (hmiss : a.Routes = none)
    (hget : Get env h.cfg (MethodRoutes a.Tag) { w with ticks := w.ticks + 1 }
      = .ret (some resp, w2))
    (herr : resp.Error = none)
    (hjson : env.jsonUnmarshal (resp.Data.getD "") = .ok routesIface)
    (hfield : routesIface.get? "route" = some v)
    (hslice : v.asSlice = none) (hmap : v.asMap = none) :
    refreshRoutes env h a { w with ticks := w.ticks + 1 } = .panic ∧
    GetRoutes env h a opts w = .panic := by
  have hrefresh : refreshRoutes env h a { w with ticks := w.ticks + 1 } = .panic := by
    unfold refreshRoutes
    rw [hget]
    simp only [Run.bind]
    rw [herr]
    simp only
    rw [hjson]
    simp only [routeTags, hfield, hslice, hmap]
  refine ⟨hrefresh, ?_⟩
  rw [GetRoutes_eq, if_neg (by simp [hmiss]), hrefresh]

set_option maxRecDepth 100000 in
/-- C16 on the bodies `{"route":null}` and `{"route":"501"}`: `GetRoutes` panics. -/
theorem GetRoutes_panics_on_scalar_route_witness :
    shapeDecode routeNullBody = .ok [("route", .nil)] ∧
    (refreshRoutes (shapeEnv routeNullBody) DefaultApiHandler ttc
        { wStart with ticks := wStart.ticks + 1 } = .panic ∧
      GetRoutes (shapeEnv routeNullBody) DefaultApiHandler ttc [] wStart = .panic) ∧
    GetRoutes (shapeEnv routeStringBody) DefaultApiHandler ttc [] wStart = .panic :=
  ⟨rfl,
   GetRoutes_panics_on_scalar_route (shapeEnv routeNullBody) DefaultApiHandler ttc [] wStart
    ⟨some ⟨200, routeNullBody, none⟩, none, some routeNullBody⟩
    { wStart with ticks := 1,
                  attempts := ["?command=routeList&a=ttc", "?command=routeList&a=ttc"],
                  calls := ["?command=routeList&a=ttc"] }
    [("route", .nil)] .nil rfl (by decide) rfl rfl rfl rfl rfl,
   by decide⟩

theorem refreshRoutes_err (env : Env) (h : ApiHandler) (a : Agency) (w1 : World)
    (res : Option (List Route)) (err : Err) (a2 : Agency) (w3 : World)
    (hrun : refreshRoutes env h a w1 = .ret ((res, some err), a2, w3)) :
    a2 = a ∧ res = none := by
  unfold refreshRoutes at hrun
  cases hG : Get env h.cfg (MethodRoutes a.Tag) w1 with
  | panic => rw [hG] at hrun; simp [Run.bind] at hrun
  | diverge => rw [hG] at hrun; simp [Run.bind] at hrun
  | ret p =>
    obtain ⟨resp?, w2⟩ := p
    rw [hG] at hrun
    simp only [Run.bind] at hrun
    split at hrun
    · simp at hrun
    · split at hrun
      · simp only [Run.ret.injEq, Prod.mk.injEq] at hrun
        exact ⟨hrun.2.1.symm, hrun.1.1.symm⟩
      · split at hrun
        · simp only [Run.ret.injEq, Prod.mk.injEq] at hrun
          exact ⟨hrun.2.1.symm, hrun.1.1.symm⟩
        · split at hrun
          · simp at hrun
          · next tags htags =>
            cases hL : routeConfigsLoop env h a.Tag tags [] w2 with
            | panic => rw [hL] at hrun; simp at hrun
            | diverge => rw [hL] at hrun; simp at hrun
            | ret q =>
              obtain ⟨r, w2b⟩ := q
              rw [hL] at hrun
              cases r with
              | error e =>
                simp only [Run.ret.injEq, Prod.mk.injEq] at hrun
                exact ⟨hrun.2.1.symm, hrun.1.1.symm⟩
              | ok rtes => simp [timeNow] at hrun

/-- C17: whatever the agency, the handler, the clock, the transport and the payloads, if
`Agency.GetRoutes` returns a non-nil error then it returns no collection and the agency
after the call is the agency before it: `Routes` and `cacheAge` (and every other field) are
untouched, no partially built route list is installed. -/
theorem GetRoutes_error_leaves_agency (env : Env) (h : ApiHandler) (a : Agency)
    (opts : List ApiHandlerOption) (w : World) (res : Option (List Route)) (err : Err)
    (a1 : Agency) (w1 : World)
    (hrun : GetRoutes env h a opts w = .ret ((res, some err), a1, w1)) :
    a1 = a ∧ a1.Routes = a.Routes ∧ a1.cacheAge = a.cacheAge ∧ res = none := by
  rw [GetRoutes_eq] at hrun
  split at hrun
  · simp at hrun
  · obtain ⟨ha, hres⟩ := refreshRoutes_err env h a _ res err a1 w1 hrun
    exact ⟨ha, by rw [ha], by rw [ha], hres⟩

set_option maxRecDepth 100000 in
/-- C17 on the fixture with a broken route 504: a refresh of the stale, loaded agency
fetches the route list, rebuilds route 501, fails on route 504 and returns that failure;
the agency still holds its two old routes and its old stamp. -/
theorem GetRoutes_error_leaves_agency_witness :
    GetRoutes brokenEnv DefaultApiHandler ttcLoaded [] { wLoaded with ticks := 1000 }
      = .ret ((none, some "connection reset by peer"), ttcLoaded,
          { wLoaded with ticks := 1001, attempts := routeAttempts ++ routeAttempts,
                         calls := routeCalls ++ routeCalls,
                         slept := [100000000, 100000000], heapNext := 10 }) ∧
    (ttcLoaded = ttcLoaded ∧ ttcLoaded.Routes = some [route501, route504] ∧
      ttcLoaded.cacheAge = feedClock 1 ∧ (none : Option (List Route)) = none) :=
  ⟨by decide,
   GetRoutes_error_leaves_agency brokenEnv DefaultApiHandler ttcLoaded []
    { wLoaded with ticks := 1000 } none "connection reset by peer" ttcLoaded
    { wLoaded with ticks := 1001, attempts := routeAttempts ++ routeAttempts,
                   calls := routeCalls ++ routeCalls,
                   slept := [100000000, 100000000], heapNext := 10 }
    (by decide)⟩

/-! ## Failure of the predictions request -/

/-- C18 (code defect, general): for a stop without cached predictions, when the
predictions request fails with the transport error `e` and `json.Unmarshal` of the missing
body reports `ej`, `Stop.GetPredictions` decodes all the same and returns the decoder's
error `ej`, not `e`; the stop (its `Predictions` included) and the agency are unchanged. -/
theorem GetPredictions_overwrites_transport_error (env : Env) (h : ApiHandler) (a : Agency)
    (s : Stop) (opts : List ApiHandlerOption) (w : World) (e ej : Err) (w2 : World)
    (hmiss : s.Predictions = none)
    (hreq : predictionRequest env h a s "" { w with ticks := w.ticks + 1 }
      = .ret ((none, some e), w2))
    (hjson : env.jsonUnmarshal "" = .error ej) :
    fetchPredictions env h a s { w with ticks := w.ticks + 1 }
      = .ret ((none, some ej), s, a, w2) ∧
    GetPredictions env h a s opts w = .ret ((none, some ej), s, a, w2) := by
  have hfetch : fetchPredictions env h a s { w with ticks := w.ticks + 1 }
      = .ret ((none, some ej), s, a, w2) := by
    unfold fetchPredictions
    rw [hreq]
    simp only [Run.bind, Option.getD_none]
    rw [hjson]
  refine ⟨hfetch, ?_⟩
  unfold GetPredictions
  simp only [timeNow, hmiss, Option.isNone_none, if_true]
  rw [← hfetch]
  split_ifs <;> first | rfl | (exfalso; simp_all)

set_option maxRecDepth 100000 in
/-- C18 with a transport that always fails with `connection refused`: the request reports
that failure, and `GetPredictions` returns `unexpected end of JSON input`. -/
theorem GetPredictions_overwrites_transport_error_witness :
    predictionRequest offlineEnv DefaultApiHandler ttc queenStop "" { wStart with ticks := 1 }
      = .ret ((none, some "connection refused"),
          { wStart with ticks := 1,
                        attempts := List.replicate 2 "?command=predictions&a=ttc&stopId=1001",
                        calls := ["?command=predictions&a=ttc&stopId=1001"],
                        slept := [100000000, 100000000] }) ∧
    (fetchPredictions offlineEnv DefaultApiHandler ttc queenStop
        { wStart with ticks := wStart.ticks + 1 }
      = .ret ((none, some "unexpected end of JSON input"), queenStop, ttc,
          { wStart with ticks := 1,
                        attempts := List.replicate 2 "?command=predictions&a=ttc&stopId=1001",
                        calls := ["?command=predictions&a=ttc&stopId=1001"],
                        slept := [100000000, 100000000] }) ∧
     GetPredictions offlineEnv DefaultApiHandler ttc queenStop [] wStart
      = .ret ((none, some "unexpected end of JSON input"), queenStop, ttc,
          { wStart with ticks := 1,
                        attempts := List.replicate 2 "?command=predictions&a=ttc&stopId=1001",
                        calls := ["?command=predictions&a=ttc&stopId=1001"],
                        slept := [100000000, 100000000] })) :=
  ⟨by decide,
   GetPredictions_overwrites_transport_error offlineEnv DefaultApiHandler ttc queenStop []
    wStart "connection refused" "unexpected end of JSON input" _ rfl (by decide) rfl⟩

/-! ## Stops of an agency -/

theorem flattenStops_eq (rs : List Route) :
    ∀ acc : List Stop,
      flattenStops rs acc = acc ++ rs.flatMap (fun r => r.Stops.getD []) := by
  induction rs with
  | nil => intro acc; simp [flattenStops]
  | cons r rest ih =>
    intro acc
    simp only [flattenStops, ih, List.flatMap_cons, List.append_assoc]

/-- C19: for every agency whose `Routes` is present (possibly empty) and every stop
identifier, `Agency.GetStop` returns without touching the state (no request, no clock
reading, the agency unchanged); its result is the first stop, in route order and then in
stop order within the route, whose `StopID` is the identifier, and it is the
stop-not-found error exactly when no stop of any route has that identifier. -/
theorem GetStop_scans_present_routes (env : Env) (h : ApiHandler) (a : Agency)
    (rs : List Route) (stopId : String) (w : World)
    (hroutes : a.Routes = some rs) :
    ∃ res, Agency.GetStop env h a stopId w = .ret (res, a, w) ∧
      (∀ s, res = .ok s ↔
        s.StopID = stopId ∧ ∃ pre post, rs.flatMap (fun r => r.Stops.getD []) = pre ++ s :: post ∧
          ∀ x ∈ pre, x.StopID ≠ stopId) ∧
      (res = .error "StopNotFoundErr" ↔
        ∀ r ∈ rs, ∀ s ∈ r.Stops.getD [], s.StopID ≠ stopId) ∧
      (∀ e, res = .error e → e = "StopNotFoundErr") := by
  unfold Agency.GetStop
  simp only [hroutes, Option.isNone_some, Bool.false_eq_true, if_false, Option.getD_some,
    flattenStops_eq, List.nil_append]
  cases hf : (rs.flatMap (fun r => r.Stops.getD [])).find? (fun stop => stop.StopID = stopId) with
  | none =>
    refine ⟨_, rfl, ?_, ?_, ?_⟩
    · intro s
      constructor
      · intro hs; cases hs
      · rintro ⟨hid, pre, post, hsplit, _⟩
        exfalso
        rw [List.find?_eq_none] at hf
        exact hf s (by rw [hsplit]; simp) (by simpa using hid)
    · constructor
      · intro _ r hr s hs hid
        rw [List.find?_eq_none] at hf
        exact hf s (List.mem_flatMap.2 ⟨r, hr, hs⟩) (by simpa using hid)
      · intro _; rfl
    · intro e he; cases he; rfl
  | some s0 =>
    refine ⟨_, rfl, ?_, ?_, ?_⟩
    · intro s
      rw [List.find?_eq_some] at hf
      constructor
      · intro hs
        cases hs
        obtain ⟨hp, pre, post, hsplit, hpre⟩ := hf
        exact ⟨by simpa using hp, pre, post, hsplit, fun x hx => by simpa using hpre x hx⟩
      · rintro ⟨hid, pre, post, hsplit, hpre⟩
        have h2 : (rs.flatMap (fun r => r.Stops.getD [])).find? (fun stop => stop.StopID = stopId)
            = some s := by
          rw [List.find?_eq_some]
          exact ⟨by simpa using hid, pre, post, hsplit, fun x hx => by simpa using hpre x hx⟩
        have h3 : (rs.flatMap (fun r => r.Stops.getD [])).find? (fun stop => stop.StopID = stopId)
            = some s0 := by
          rw [List.find?_eq_some]
          exact hf
        rw [h2] at h3
        cases h3
        rfl
    · constructor
      · intro hres; cases hres
      · intro hnone
        exfalso
        have hmem := List.mem_of_find?_eq_some hf
        obtain ⟨r, hr, hs⟩ := List.mem_flatMap.1 hmem
        exact hnone r hr s0 hs (by simpa using List.find?_some hf)
    · intro e he; cases he

set_option maxRecDepth 100000 in
/-- C19 on the loaded fixture agency: stop 1001 is found as the stop of route 501 (the first
of the two stops with that identifier), stop 9999 is not found, and neither call touches the
state. -/
theorem GetStop_scans_present_routes_witness :
    Agency.GetStop (feedEnv agencyListBody) DefaultApiHandler ttcLoaded "1001" wLoaded
      = .ret (.ok queenStop, ttcLoaded, wLoaded) ∧
    Agency.GetStop (feedEnv agencyListBody) DefaultApiHandler ttcLoaded "9999" wLoaded
      = .ret (.error "StopNotFoundErr", ttcLoaded, wLoaded) ∧
    ∃ res, Agency.GetStop (feedEnv agencyListBody) DefaultApiHandler ttcLoaded "9999" wLoaded
        = .ret (res, ttcLoaded, wLoaded) ∧
      (∀ s, res = .ok s ↔
        s.StopID = "9999" ∧ ∃ pre post,
          [route501, route504].flatMap (fun r => r.Stops.getD []) = pre ++ s :: post ∧
          ∀ x ∈ pre, x.StopID ≠ "9999") ∧
      (res = .error "StopNotFoundErr" ↔
        ∀ r ∈ [route501, route504], ∀ s ∈ r.Stops.getD [], s.StopID ≠ "9999") ∧
      (∀ e, res = .error e → e = "StopNotFoundErr") :=
  ⟨rfl, rfl,
   GetStop_scans_present_routes (feedEnv agencyListBody) DefaultApiHandler ttcLoaded
    [route501, route504] "9999" wLoaded rfl⟩

theorem unionStopList_distinct (l : List Stop) :
    ∀ acc : List Stop,
      ((acc ++ l).map (fun s => s.addr)).Nodup → unionStopList l acc = acc ++ l := by
  induction l with
  | nil => intro acc _; simp [unionStopList]
  | cons x rest ih =>
    intro acc hnd
    have hx : acc.any (fun y => decide (y.addr = x.addr)) = false := by
      rw [List.any_eq_false]
      intro y hy hyx
      simp only [decide_eq_true_eq] at hyx
      rw [List.map_append, List.map_cons, List.nodup_append] at hnd
      exact hnd.2.2 (List.mem_map.2 ⟨y, hy, rfl⟩) (by rw [hyx]; exact List.mem_cons_self _ _)
    simp only [unionStopList, hx, Bool.false_eq_true, if_false]
    rw [ih (acc ++ [x]) (by simpa using hnd)]
    simp

/-- When the stops of the routes are pairwise distinct objects (as they are for routes built
by `unmarshalRouteConfig`, which allocates every stop), the union computed by
`Agency.GetStops` is the plain concatenation of the routes' stop lists: nothing is ever
dropped, whatever the stop identifiers. -/
theorem unionStopsLoop_distinct (rs : List Route) :
    ∀ acc : List Stop,
      ((acc ++ rs.flatMap (fun r => r.Stops.getD [])).map (fun s => s.addr)).Nodup →
      unionStopsLoop rs acc = acc ++ rs.flatMap (fun r => r.Stops.getD []) := by
  induction rs with
  | nil => intro acc _; simp [unionStopsLoop]
  | cons r rest ih =>
    intro acc hnd
    simp only [List.flatMap_cons, ← List.append_assoc] at hnd
    have h1 : unionStopList (r.Stops.getD []) acc = acc ++ r.Stops.getD [] := by
      apply unionStopList_distinct
      rw [List.map_append] at hnd
      exact (List.nodup_append.1 hnd).1
    simp only [unionStopsLoop, h1, List.flatMap_cons]
    rw [ih _ hnd, List.append_assoc]

set_option maxRecDepth 100000 in
/-- C20 (code defect, evaluated): on the loaded fixture agency, whose routes 501 and 504
both serve the physical stop 1001 (each route holding its own `Stop` object),
`Agency.GetStops` returns both objects: two entries with the same `StopID`. The pointer
comparison of `slices.Contains` never recognises the stop of another route. -/
theorem GetStops_keeps_duplicate_stop_ids :
    GetRoutes (feedEnv agencyListBody) DefaultApiHandler ttc [] wStart
      = .ret ((some [route501, route504], none), ttcLoaded, wLoaded) ∧
    Agency.GetStops (feedEnv agencyListBody) DefaultApiHandler ttcLoaded [] wLoaded
      = .ret (.ok [queenStop, kingStop], ttcLoaded, { wLoaded with ticks := 3 }) ∧
    queenStop.StopID = "1001" ∧ kingStop.StopID = "1001" ∧
    queenStop.addr ≠ kingStop.addr ∧
    ¬ ([queenStop, kingStop].map (fun s => s.StopID)).Nodup := by
  refine ⟨by decide, rfl, rfl, rfl, by decide, ?_⟩
  simp [queenStop, kingStop]

/-! ## Boolean coercion and the staleness threshold -/

/-- The staleness test of `GetRoutes` compares the elapsed time with `routesThreshold`. -/
theorem GetRoutes_compares_routesThreshold (env : Env) (h : ApiHandler) (a : Agency)
    (opts : List ApiHandlerOption) (w : World) :
    GetRoutes env h a opts w =
      if w.dflt.UseCache = true ∧ a.Routes.isSome = true ∧
          ¬ Time.Sub (env.now w.ticks) a.cacheAge > routesThreshold h then
        .ret ((a.Routes, none), a, { w with ticks := w.ticks + 1 })
      else refreshRoutes env h a { w with ticks := w.ticks + 1 } :=
  GetRoutes_eq env h a opts w

/-- Lower-casing a string lower-cases its characters one by one. -/
theorem toLower_eq_map (s : String) : s.toLower = ⟨s.data.map Char.toLower⟩ := by
  rw [String.toLower, String.map_eq]

/-! ## Decoding one prediction -/

theorem ite_ret_ok (C : Prop) [Decidable C] (X Y : Prediction) (a : Agency) (W w : World) :
    (if C then Run.ret ((Except.ok X : Except Err Prediction), a, W)
      else Run.ret (Except.ok Y, a, w)) =
      Run.ret (Except.ok (if C then X else Y), a, if C then W else w) := by
  split <;> rfl

/-- A prediction mapping whose `dirTag` resolves to a service and whose `epochTime` converts
to the integer `n` is decoded: `Eta` is the instant `n` milliseconds after the Unix epoch and
each boolean flag is the first result of `IfaceToBool` on its field. -/
theorem unmarshalPrediction_ok_of (env : Env) (h : ApiHandler) (a a1 : Agency) (p : Prediction)
    (pIface : JMap) (w w1 : World) (tag : String) (svc : Service) (n : Int)
    (hdir : pIface.idx "dirTag" = .str tag)
    (hsvc : Agency.GetService env h a tag w = .ret (.ok svc, a1, w1))
    (hint : IfaceToInt (pIface.idx "epochTime") = (n, true)) :
    ∃ p1 w2, unmarshalPrediction env h a p (.map pIface) w = .ret (.ok p1, a1, w2) ∧
      p1.Service = some svc.addr ∧ p1.Route = some svc.route ∧ p1.Eta = UnixMilli n ∧
      p1.AffectedByLayover = (IfaceToBool (pIface.idx "affectedByLayover")).1 ∧
      p1.IsDeparture = (IfaceToBool (pIface.idx "isDeparture")).1 ∧
      p1.ScheduleBased = (IfaceToBool (pIface.idx "isScheduleBased")).1 ∧
      p1.Delayed = (IfaceToBool (pIface.idx "delayed")).1 := by
  unfold unmarshalPrediction
  simp only [Iface.asMap, hdir, IfaceToString_str, Bool.not_true, Bool.false_eq_true, if_false,
    hsvc, Run.bind, hint]
  refine ⟨_, _, ite_ret_ok _ _ _ _ _ _, ?_, ?_, ?_, ?_, ?_, ?_, ?_⟩ <;>
    simp only [apply_ite Prediction.Service, apply_ite Prediction.Route,
      apply_ite Prediction.Eta, apply_ite Prediction.AffectedByLayover,
      apply_ite Prediction.IsDeparture, apply_ite Prediction.ScheduleBased,
      apply_ite Prediction.Delayed, ite_self]

/-- A prediction mapping whose `dirTag` resolves to a service and whose `epochTime` does not
convert to an integer is rejected. -/
theorem unmarshalPrediction_err_of (env : Env) (h : ApiHandler) (a a1 : Agency) (p : Prediction)
    (pIface : JMap) (w w1 : World) (tag : String) (svc : Service)
    (hdir : pIface.idx "dirTag" = .str tag)
    (hsvc : Agency.GetService env h a tag w = .ret (.ok svc, a1, w1))
    (hint : (IfaceToInt (pIface.idx "epochTime")).2 = false) :
    unmarshalPrediction env h a p (.map pIface) w =
      .ret (.error "Could not get prediction time from response", a1, w1) := by
  unfold unmarshalPrediction
  simp only [Iface.asMap, hdir, IfaceToString_str, Bool.not_true, Bool.false_eq_true, if_false,
    hsvc, Run.bind, hint, Bool.not_false, if_true]

set_option maxRecDepth 100000 in
/-- On the loaded fixture agency the tag `501_0` resolves to the service of route 501 after
one reading of the clock and without a request. -/
theorem GetService_501_0 :
    Agency.GetService (feedEnv agencyListBody) DefaultApiHandler ttcLoaded "501_0" wLoaded
      = .ret (.ok svc501, ttcLoaded, { wLoaded with ticks := 3 }) := rfl

/-- A prediction whose `epochTime` is a string of digits that `strconv.Atoi` reads as `n`
is decoded with `Eta` the instant `n` milliseconds after the Unix epoch. -/
theorem unmarshalPrediction_string_epochTime (env : Env) (h : ApiHandler) (a a1 : Agency)
    (p : Prediction) (pIface : JMap) (w w1 : World) (tag s : String) (svc : Service) (n : Int)
    (hdir : pIface.idx "dirTag" = .str tag)
    (hsvc : Agency.GetService env h a tag w = .ret (.ok svc, a1, w1))
    (hstr : pIface.idx "epochTime" = .str s) (hatoi : Atoi s = some n) :
    ∃ p1 w2, unmarshalPrediction env h a p (.map pIface) w = .ret (.ok p1, a1, w2) ∧
      p1.Eta = UnixMilli n := by
  obtain ⟨p1, w2, hrun, _, _, heta, _⟩ :=
    unmarshalPrediction_ok_of env h a a1 p pIface w w1 tag svc n hdir hsvc
      (by rw [hstr]; simp only [IfaceToInt, hatoi])
  exact ⟨p1, w2, hrun, heta⟩

set_option maxRecDepth 100000 in
/-- The fixture prediction with the string `1700000000000` as `epochTime` is decoded, and
its `Eta` is 2023-11-14T22:13:20Z: day 19675 after 1970-01-01, 22 hours 13 minutes and
20 seconds into the day. -/
theorem unmarshalPrediction_string_epochTime_fixture :
    ∃ p1 w2, unmarshalPrediction (feedEnv agencyListBody) DefaultApiHandler ttcLoaded blankPrediction
        (.map stringEpochPrediction) wLoaded = .ret (.ok p1, ttcLoaded, w2) ∧
      p1.Eta = unixEpoch + (19675 * 86400 + 22 * 3600 + 13 * 60 + 20) * Second := by
  obtain ⟨p1, w2, hrun, heta⟩ :=
    unmarshalPrediction_string_epochTime (feedEnv agencyListBody) DefaultApiHandler ttcLoaded ttcLoaded
      blankPrediction stringEpochPrediction wLoaded _ "501_0" "1700000000000" svc501
      1700000000000 rfl GetService_501_0 rfl (by decide)
  exact ⟨p1, w2, hrun, by rw [heta]; decide⟩

/-- Claim C23, evaluated on the code: a prediction mapping whose `dirTag` resolves to a
service and whose `epochTime` is a JSON number (decoded by `encoding/json` to a `float64`)
is rejected by `unmarshalPrediction` with the error
`Could not get prediction time from response`: no `Eta` is set. -/
theorem unmarshalPrediction_rejects_numeric_epochTime (env : Env) (h : ApiHandler)
    (a a1 : Agency) (p : Prediction) (pIface : JMap) (w w1 : World) (tag : String)
    (svc : Service) (f : Float64)
    (hdir : pIface.idx "dirTag" = .str tag)
    (hsvc : Agency.GetService env h a tag w = .ret (.ok svc, a1, w1))
    (hnum : pIface.idx "epochTime" = .float64 f) :
    unmarshalPrediction env h a p (.map pIface) w =
      .ret (.error "Could not get prediction time from response", a1, w1) :=
  unmarshalPrediction_err_of env h a a1 p pIface w w1 tag svc hdir hsvc (by rw [hnum]; rfl)

set_option maxRecDepth 100000 in
/-- Witness of `unmarshalPrediction_rejects_numeric_epochTime`: the decoded prediction
`{"dirTag":"501_0","epochTime":1700000000000,"minutes":"5"}` on the loaded fixture agency. -/
theorem unmarshalPrediction_rejects_numeric_epochTime_witness :
    numericEpochPrediction.idx "dirTag" = .str "501_0" ∧
    numericEpochPrediction.idx "epochTime" = .float64 epoch1700 ∧
    Agency.GetService (feedEnv agencyListBody) DefaultApiHandler ttcLoaded "501_0" wLoaded
      = .ret (.ok svc501, ttcLoaded, { wLoaded with ticks := 3 }) ∧
    unmarshalPrediction (feedEnv agencyListBody) DefaultApiHandler ttcLoaded blankPrediction
        (.map numericEpochPrediction) wLoaded =
      .ret (.error "Could not get prediction time from response", ttcLoaded,
        { wLoaded with ticks := 3 }) :=
  ⟨rfl, rfl, GetService_501_0,
    unmarshalPrediction_rejects_numeric_epochTime (feedEnv agencyListBody) DefaultApiHandler ttcLoaded ttcLoaded
      blankPrediction numericEpochPrediction wLoaded _ "501_0" svc501 epoch1700 rfl
      GetService_501_0 rfl⟩

set_option maxRecDepth 100000 in
/-- Claim C24, evaluated on the code: `IfaceToBool` agrees with the reference definition
exactly on the values that are not a string whose lower-cased form is `1`, `true`, `0` or
`false`; on those four it returns `(false, false)`, where the reference definition returns
`(true, true)` for `1` and `true` and `(false, true)` for `0` and `false`. The fixture
prediction whose `affectedByLayover`, `isDeparture`, `isScheduleBased` and `delayed` fields
are the string `true` is decoded with all four flags false. -/
theorem IfaceToBool_differs_from_reference :
    (∀ v : Iface, IfaceToBool v = IfaceToBoolSpec v ↔
      ∀ s, v = .str s → s.toLower ∉ ["1", "true", "0", "false"]) ∧
    (∀ s : String, s.toLower ∈ ["1", "true", "0", "false"] →
      IfaceToBool (.str s) = (false, false)) ∧
    IfaceToBool (.str "true") = (false, false) ∧
    IfaceToBoolSpec (.str "true") = (true, true) ∧
    (∃ p1 w2, unmarshalPrediction (feedEnv agencyListBody) DefaultApiHandler ttcLoaded
        blankPrediction (.map flaggedPrediction) wLoaded = .ret (.ok p1, ttcLoaded, w2) ∧
      p1.AffectedByLayover = false ∧ p1.IsDeparture = false ∧ p1.ScheduleBased = false ∧
      p1.Delayed = false) := by
  have htrue : IfaceToBool (.str "true") = (false, false) := by
    simp only [IfaceToBool, toLower_eq_map]; decide
  refine ⟨?_, ?_, htrue, by simp only [IfaceToBoolSpec, toLower_eq_map]; decide, ?_⟩
  rotate_left 2
  · obtain ⟨p1, w2, hrun, _, _, _, h1, h2, h3, h4⟩ :=
      unmarshalPrediction_ok_of (feedEnv agencyListBody) DefaultApiHandler ttcLoaded ttcLoaded
        blankPrediction flaggedPrediction wLoaded _ "501_0" svc501 1700000000000 rfl
        GetService_501_0 (by decide)
    have e1 : flaggedPrediction.idx "affectedByLayover" = .str "true" := rfl
    have e2 : flaggedPrediction.idx "isDeparture" = .str "true" := rfl
    have e3 : flaggedPrediction.idx "isScheduleBased" = .str "true" := rfl
    have e4 : flaggedPrediction.idx "delayed" = .str "true" := rfl
    rw [e1, htrue] at h1
    rw [e2, htrue] at h2
    rw [e3, htrue] at h3
    rw [e4, htrue] at h4
    exact ⟨p1, w2, hrun, h1, h2, h3, h4⟩
  · intro v
    cases v with
    | str s =>
      simp only [IfaceToBool, IfaceToBoolSpec, Iface.str.injEq, forall_eq']
      generalize s.toLower = l
      by_cases h1 : l = "1"
      · subst h1; decide
      by_cases h2 : l = "true"
      · subst h2; decide
      by_cases h3 : l = "yes"
      · subst h3; decide
      by_cases h4 : l = "0"
      · subst h4; decide
      by_cases h5 : l = "false"
      · subst h5; decide
      by_cases h6 : l = "no"
      · subst h6; decide
      simp [h1, h2, h3, h4, h5, h6]
    | _ => simp [IfaceToBool, IfaceToBoolSpec]
  · intro s hs
    simp only [IfaceToBool]
    generalize s.toLower = l at hs
    simp only [List.mem_cons, List.mem_singleton, List.not_mem_nil, or_false] at hs
    rcases hs with h | h | h | h <;> subst h <;> decide

/-! ## The staleness threshold of `WithMaxCacheAge` -/

/-- The option `WithMaxCacheAge n` stores `n` seconds as a duration in nanoseconds, and
`GetRoutes` multiplies the stored value by `time.Second` once more. -/
theorem routesThreshold_WithMaxCacheAge (cfg : GetConfig) (n : Int) :
    routesThreshold (NewApiHandler cfg [WithMaxCacheAge n])
      = wrapInt64 (wrapInt64 (n * 1000000000) * 1000000000) := rfl

/-- Wrapping changes a value by a multiple of `2^64`. -/
theorem wrapInt64_congr (x : Int) : ∃ k : Int, wrapInt64 x = x - 18446744073709551616 * k :=
  ⟨(x + 9223372036854775808) / 18446744073709551616, by simp only [wrapInt64]; omega⟩

/-- Scaling a non-negative `n` by `10^9` twice, wrapping each time, gives `n * 10^9` only
for `n = 0`: `2^64` divides `n * (10^18 - 10^9)` only if `2^55` divides `n`, and
`n * 10^9` has to lie in the range of `int64`. -/
theorem wrapInt64_scaled_twice (n : Int) (h0 : 0 ≤ n)
    (h : wrapInt64 (wrapInt64 (n * 1000000000) * 1000000000) = n * Second) : n = 0 := by
  have hlt : ∀ y : Int, wrapInt64 y < 9223372036854775808 := by
    intro y; simp only [wrapInt64]; omega
  have hr := hlt (wrapInt64 (n * 1000000000) * 1000000000)
  simp only [Second, Duration] at h hr
  rw [h] at hr
  have hin : wrapInt64 (n * 1000000000) = n * 1000000000 := by
    simp only [wrapInt64]; omega
  rw [hin] at h
  obtain ⟨k, hk⟩ := wrapInt64_congr (n * 1000000000 * 1000000000)
  rw [hk] at h
  have h2 : (36028797018963968 : Int) ∣ n * 1953124998046875 := Dvd.intro k (by linarith)
  have h3 : (36028797018963968 : Int) ∣ n :=
    Int.dvd_of_dvd_mul_left_of_gcd_one h2 (by norm_num)
  obtain ⟨c, hc⟩ := h3
  clear h h2 hk hin hlt
  omega

/-- Claim C25, evaluated on the code: for `0 ≤ n` within the range of `int`, the value
`a.api.cacheMaxAge*time.Second` of a handler built with `WithMaxCacheAge(n)` is
`n * 10^18` wrapped to 64 bits, and it equals `n * 10^9` nanoseconds (`n` seconds) only for
`n = 0`. The default handler stores the bare number 3600, so its threshold is 3600 seconds. -/
theorem WithMaxCacheAge_threshold_scaled_twice (cfg : GetConfig) (n : Int) (h0 : 0 ≤ n)
    (hmax : n ≤ maxInt64) :
    routesThreshold (NewApiHandler cfg [WithMaxCacheAge n])
      = wrapInt64 (n * 1000000000000000000) ∧
    (routesThreshold (NewApiHandler cfg [WithMaxCacheAge n]) = n * Second ↔ n = 0) ∧
    routesThreshold (NewApiHandler cfg []) = 3600 * Second := by
  rw [routesThreshold_WithMaxCacheAge]
  refine ⟨?_, ?_, rfl⟩
  · simp only [wrapInt64, Duration] at *; omega
  · constructor
    · intro h
      exact wrapInt64_scaled_twice n h0 h
    · intro h
      subst h
      rfl

/-- Witness of `WithMaxCacheAge_threshold_scaled_twice` at `n = 60`: the threshold is
4659767778871345152 nanoseconds (more than 147 years), not 60 seconds. -/
theorem WithMaxCacheAge_threshold_scaled_twice_witness :
    routesThreshold (NewApiHandler DefaultApiHandler.cfg [WithMaxCacheAge 60])
      = 4659767778871345152 ∧
    routesThreshold (NewApiHandler DefaultApiHandler.cfg [WithMaxCacheAge 60]) ≠ 60 * Second := by
  have h := WithMaxCacheAge_threshold_scaled_twice DefaultApiHandler.cfg 60 (by decide)
    (by decide)
  refine ⟨by rw [h.1]; decide, fun h60 => ?_⟩
  have := h.2.1.mp h60
  omega

/-! ## Groups without predictions -/

/-- The method `Stop.GetPredictions` is its cache test followed by the fetch. -/
theorem GetPredictions_eq (env : Env) (h : ApiHandler) (a : Agency) (s : Stop)
    (opts : List ApiHandlerOption) (w : World) :
    GetPredictions env h a s opts w =
      if predictionsCacheHit env s opts w = true then
        .ret ((s.Predictions, none), s, a, { w with ticks := w.ticks + 1 })
      else fetchPredictions env h a s { w with ticks := w.ticks + 1 } := by
  unfold GetPredictions predictionsCacheHit
  simp only [timeNow]
  generalize opts.foldl (fun aho opt => opt aho) { UseCache := true, CacheMaxAge := 0 } = aho
  have hcm : (if aho.CacheMaxAge ≠ 0 then aho.CacheMaxAge else 0) = aho.CacheMaxAge := by
    split_ifs with h0
    · rfl
    · exact (not_not.mp h0).symm
  simp only [hcm]
  by_cases hc : Time.Sub (env.now w.ticks) s.cacheAge > Duration.mul aho.CacheMaxAge Second
  · simp [hc]
  · cases hn : s.Predictions with
    | none => simp [hc]
    | some x =>
      cases hu : aho.UseCache <;> simp [hc, hu]

/-- A group that carries a string `dirTitleBecauseNoPredictions` field is skipped by the
loop of `Stop.GetPredictions`: the predictions collected so far, the agency and the world
pass unchanged to the rest of the groups. -/
theorem routePredictionsLoop_marker (env : Env) (h : ApiHandler) (g : JMap) (t : String)
    (rest : List Iface) (acc : List Prediction) (a : Agency) (w : World)
    (hm : g.idx "dirTitleBecauseNoPredictions" = .str t) :
    routePredictionsLoop env h (.map g :: rest) acc a w
      = routePredictionsLoop env h rest acc a w := by
  simp only [routePredictionsLoop, Iface.asMap, hm, IfaceToString_str, if_true]

/-- An array made only of marker groups is run through without a prediction and without an
error. -/
theorem routePredictionsLoop_markers (env : Env) (h : ApiHandler) (groups : List JMap)
    (hmarker : ∀ g ∈ groups, ∃ t, g.idx "dirTitleBecauseNoPredictions" = .str t)
    (acc : List Prediction) (a : Agency) (w : World) :
    routePredictionsLoop env h (groups.map Iface.map) acc a w = .ret (.ok acc, a, w) := by
  induction groups with
  | nil => rfl
  | cons g rest ih =>
    obtain ⟨t, ht⟩ := hmarker g (List.mem_cons_self _ _)
    rw [List.map_cons, routePredictionsLoop_marker env h g t _ acc a w ht]
    exact ih (fun g1 hg1 => hmarker g1 (List.mem_cons_of_mem _ hg1))

/-- Claim C22: in the loop of `Stop.GetPredictions` a group that is a mapping with a string
`dirTitleBecauseNoPredictions` field adds no prediction and raises no error, whatever else
it contains and whatever groups follow; and when a call that is not answered from the cache
receives a payload whose `predictions` field is a mapping or an array of mappings that all
carry the marker, `GetPredictions` returns a present, empty prediction set with no error and
stores it in place of the stop's previous set. -/
theorem GetPredictions_skips_no_prediction_groups (env : Env) (h : ApiHandler) (a : Agency)
    (s : Stop) (opts : List ApiHandlerOption) (w w2 : World) (data : Option Bytes)
    (perr : Option Err) (pIface : JMap) (preds : Iface) (groups : List JMap)
    (hmiss : predictionsCacheHit env s opts w = false)
    (hreq : predictionRequest env h a s "" { w with ticks := w.ticks + 1 }
      = .ret ((data, perr), w2))
    (hjson : env.jsonUnmarshal (data.getD "") = .ok pIface)
    (hfield : pIface.get? "predictions" = some preds)
    (hshape : preds = .slice (groups.map Iface.map) ∨ ∃ g, preds = .map g ∧ groups = [g])
    (hmarker : ∀ g ∈ groups, ∃ t, g.idx "dirTitleBecauseNoPredictions" = .str t) :
    GetPredictions env h a s opts w
      = .ret ((some [], none), { s with Predictions := some [] }, a, w2) ∧
    ∀ (g : JMap) (t : String) (rest : List Iface) (acc : List Prediction) (a0 : Agency)
      (w0 : World), g.idx "dirTitleBecauseNoPredictions" = .str t →
        routePredictionsLoop env h (.map g :: rest) acc a0 w0
          = routePredictionsLoop env h rest acc a0 w0 := by
  refine ⟨?_, fun g t rest acc a0 w0 hm => routePredictionsLoop_marker env h g t rest acc a0 w0 hm⟩
  have hloop := routePredictionsLoop_markers env h groups hmarker [] a w2
  rw [GetPredictions_eq, hmiss]
  simp only [Bool.false_eq_true, if_false]
  unfold fetchPredictions
  simp only [hreq, Run.bind, hjson, hfield]
  rcases hshape with hs | ⟨g, hg, hgs⟩
  · subst hs
    simp only [Iface.asSlice, hloop]
  · subst hg
    subst hgs
    simp only [Iface.asSlice, Iface.asMap]
    simp only [List.map_cons, List.map_nil] at hloop
    simp only [hloop]

set_option maxRecDepth 100000 in
/-- Witness of `GetPredictions_skips_no_prediction_groups`: the fixture stop holding one
earlier prediction, the payload
`{"predictions":{"routeTag":"501","dirTitleBecauseNoPredictions":"East"}}`. -/
theorem GetPredictions_skips_no_prediction_groups_witness :
    queenStopWithPrediction.Predictions = some [blankPrediction] ∧
    GetPredictions (feedEnv agencyListBody) DefaultApiHandler ttc queenStopWithPrediction []
        wStart
      = .ret ((some [], none), { queenStopWithPrediction with Predictions := some [] }, ttc,
          { wStart with ticks := 1,
                        attempts := List.replicate 2 "?command=predictions&a=ttc&stopId=1001",
                        calls := ["?command=predictions&a=ttc&stopId=1001"] }) :=
  ⟨rfl,
    (GetPredictions_skips_no_prediction_groups (feedEnv agencyListBody) DefaultApiHandler ttc
      queenStopWithPrediction [] wStart _ (some noPredictionsBody) none
      [("predictions", .map noPredictionsGroup)] (.map noPredictionsGroup) [noPredictionsGroup]
      (by decide) (by decide) rfl rfl (Or.inr ⟨noPredictionsGroup, rfl, rfl⟩)
      (fun g hg => ⟨"East", by
        rw [List.mem_singleton] at hg
        subst hg
        rfl⟩)).1⟩

/-! ## Looking a service up by tag -/

/-- With pairwise distinct route tags, looking a route of the collection up by its own tag
finds that route. -/
theorem find?_own_tag (rs : List Route) (hnd : (rs.map (fun r => r.Tag)).Nodup) :
    ∀ r ∈ rs, rs.find? (fun route => decide (route.Tag = r.Tag)) = some r := by
  induction rs with
  | nil => intro r hr; cases hr
  | cons x xs ih =>
    intro r hr
    rw [List.map_cons, List.nodup_cons] at hnd
    rcases List.mem_cons.1 hr with hx | hx
    · subst hx
      simp
    · have hne : ¬ x.Tag = r.Tag := fun he =>
        hnd.1 (by rw [he]; exact List.mem_map.2 ⟨r, hx, rfl⟩)
      rw [List.find?_cons_of_neg _ (by simpa using hne)]
      exact ih hnd.2 r hx

/-- The loop of `Agency.GetService` over routes that the agency resolves to themselves (by
their tags) is the search of the first service with the tag among their services; the
agency and the world are left as they are. -/
theorem getServiceLoop_cached (env : Env) (h : ApiHandler) (a : Agency) (rs : List Route)
    (tag : String) (w : World) (hroutes : a.Routes = some rs) :
    ∀ l : List Route,
      (∀ r ∈ l, rs.find? (fun route => decide (route.Tag = r.Tag)) = some r) →
      getServiceLoop env h tag l a w =
        .ret (match (cachedServices l).find? (fun v => decide (v.Tag = tag)) with
              | some v => .ok v
              | none => .error "ServiceNotFoundErr", a, w) := by
  intro l
  induction l with
  | nil => intro _; rfl
  | cons r rest ih =>
    intro hself
    have hr := hself r (List.mem_cons_self _ _)
    have hrest := ih (fun r1 h1 => hself r1 (List.mem_cons_of_mem _ h1))
    simp only [getServiceLoop, Agency.GetServiceByRoute, Agency.GetRoute, hroutes,
      Option.isNone_some, Bool.false_eq_true, if_false, Option.getD_some, hr, Run.bind,
      Route.GetService, cachedServices, List.flatMap_cons, List.find?_append]
    cases hs : r.Services with
    | none =>
      simp only [Option.getD_none, List.find?_nil, Option.none_or]
      exact hrest
    | some svcs =>
      simp only [Option.getD_some]
      cases hf : svcs.find? (fun v => decide (v.Tag = tag)) with
      | none =>
        simp only [Option.none_or]
        exact hrest
      | some v => rfl

/-- The first match of a search, spelled out: the result is `s` exactly when `s` satisfies
the test and stands in the list behind a prefix of elements that fail it; there is no result
exactly when every element fails the test. -/
theorem find?_first_match {α : Type} (p : α → Bool) (l : List α) :
    (∀ s, l.find? p = some s ↔
      p s = true ∧ ∃ pre post, l = pre ++ s :: post ∧ ∀ x ∈ pre, p x = false) ∧
    (l.find? p = none ↔ ∀ x ∈ l, p x = false) := by
  constructor
  · intro s
    rw [List.find?_eq_some]
    constructor
    · rintro ⟨hp, pre, post, hsplit, hpre⟩
      exact ⟨hp, pre, post, hsplit, fun x hx => by simpa using hpre x hx⟩
    · rintro ⟨hp, pre, post, hsplit, hpre⟩
      exact ⟨hp, pre, post, hsplit, fun x hx => by simp [hpre x hx]⟩
  · rw [List.find?_eq_none]
    constructor
    · intro hall x hx
      simpa using hall x hx
    · intro hall x hx
      simp [hall x hx]

set_option maxRecDepth 100000 in
/-- Claim C21 fails in two ways. First, when two cached routes bear the same tag: a routes
refresh from a feed whose routeConfig payloads carry no route tag builds the routes 501 and
504 with the empty tag; the collection is present and fresh and the service `504_0` is the
first (and only) cached service with that tag, yet `Agency.GetService` answers
`ServiceNotFoundErr`, because for both routes of the loop `GetServiceByRoute` resolves the
tag to the first route. Second, when the package default `UseCache` is false (as
`GetAgencies(WithoutCache())` leaves it): with the routes 501 and 504 cached ten seconds
earlier under a maximum age of 3600 seconds, `Agency.GetService` finds the service `504_0`
only after repeating the three requests of a routes refresh. -/
theorem GetService_fails_on_equal_tags_and_default_off :
    (GetRoutes noTagEnv DefaultApiHandler ttc [] wStart
        = .ret ((some [untagged501, untagged504], none), ttcUntagged, wLoaded) ∧
      wLoaded.dflt.UseCache = true ∧
      ¬ Time.Sub (noTagEnv.now wLoaded.ticks) ttcUntagged.cacheAge
          > routesThreshold DefaultApiHandler ∧
      cachedServices [untagged501, untagged504] = [svc501, svc504] ∧
      svc501.Tag ≠ "504_0" ∧ svc504.Tag = "504_0" ∧
      Agency.GetService noTagEnv DefaultApiHandler ttcUntagged "504_0" wLoaded
        = .ret (.error "ServiceNotFoundErr", ttcUntagged, { wLoaded with ticks := 3 })) ∧
    (GetAgencies (feedEnv agencyListBody) DefaultApiHandler [WithoutCache] World.init
        = .ret ((some [ttc], none), DefaultApiHandler, wDefaultOff) ∧
      GetRoutes (feedEnv agencyListBody) DefaultApiHandler ttc [] wDefaultOff
        = .ret ((some [route501, route504], none), ttcLoadedOff, wLoadedOff) ∧
      [route501, route504].map (fun r => r.Tag) = ["501", "504"] ∧
      Time.Sub (feedClock wLoadedOff.ticks) ttcLoadedOff.cacheAge = 10 * Second ∧
      routesThreshold DefaultApiHandler = 3600 * Second ∧
      Agency.GetService (feedEnv agencyListBody) DefaultApiHandler ttcLoadedOff "504_0"
          wLoadedOff
        = .ret (.ok { svc504 with addr := 12, route := 10 }, ttcReloadedOff, wReloadedOff 5) ∧
      (wReloadedOff 5).calls = wLoadedOff.calls ++ routeCalls) := by
  refine ⟨⟨by decide, rfl, by decide, by decide, by decide, rfl, rfl⟩,
    ⟨by decide, by decide, rfl, by decide, by decide, rfl, by decide⟩⟩

/-- Claim C21, amended: for every agency whose cached route collection is present and fresh
(the elapsed time not above the handler's threshold), with the package default `UseCache`
set and the routes bearing pairwise distinct tags, and for every tag, `Agency.GetService`
reads the clock once and issues no request; its result is the first service, in route order and then
in service order within the route, whose `Tag` is the tag, and it is `ServiceNotFoundErr`
exactly when no service of any cached route has that tag. -/
theorem GetService_first_match_distinct_route_tags (env : Env) (h : ApiHandler) (a : Agency)
    (rs : List Route) (tag : String) (w : World)
    (hroutes : a.Routes = some rs)
    (huse : w.dflt.UseCache = true)
    (hfresh : ¬ Time.Sub (env.now w.ticks) a.cacheAge > routesThreshold h)
    (hdistinct : (rs.map (fun r => r.Tag)).Nodup) :
    ∃ res, Agency.GetService env h a tag w
        = .ret (res, a, { w with ticks := w.ticks + 1 }) ∧
      (∀ svc, res = .ok svc ↔
        svc.Tag = tag ∧ ∃ pre post, cachedServices rs = pre ++ svc :: post ∧
          ∀ x ∈ pre, x.Tag ≠ tag) ∧
      (res = .error "ServiceNotFoundErr" ↔
        ∀ r ∈ rs, ∀ svc ∈ r.Services.getD [], svc.Tag ≠ tag) ∧
      (∀ e, res = .error e → e = "ServiceNotFoundErr") := by
  have hloop := getServiceLoop_cached env h a rs tag { w with ticks := w.ticks + 1 } hroutes
    rs (find?_own_tag rs hdistinct)
  obtain ⟨hsome, hnone⟩ := find?_first_match (fun v : Service => decide (v.Tag = tag))
    (cachedServices rs)
  unfold Agency.GetService
  rw [GetRoutes_eq, if_pos ⟨huse, by rw [hroutes]; rfl, hfresh⟩]
  simp only [Run.bind, hroutes, Option.getD_some, hloop]
  cases hf : (cachedServices rs).find? (fun v => decide (v.Tag = tag)) with
  | none =>
    have hall := hnone.1 hf
    refine ⟨_, rfl, ?_, ?_, ?_⟩
    · intro svc
      constructor
      · intro hs; cases hs
      · rintro ⟨htag, pre, post, hsplit, _⟩
        exfalso
        have := hall svc (by rw [hsplit]; simp)
        simp [htag] at this
    · constructor
      · intro _ r hr svc hsvc htag
        have := hall svc (List.mem_flatMap.2 ⟨r, hr, hsvc⟩)
        simp [htag] at this
      · intro _; rfl
    · intro e he; cases he; rfl
  | some s0 =>
    have h0 := (hsome s0).1 hf
    refine ⟨_, rfl, ?_, ?_, ?_⟩
    · intro svc
      constructor
      · intro hs
        cases hs
        obtain ⟨hp, pre, post, hsplit, hpre⟩ := h0
        exact ⟨by simpa using hp, pre, post, hsplit, fun x hx => by simpa using hpre x hx⟩
      · rintro ⟨htag, pre, post, hsplit, hpre⟩
        have h2 := (hsome svc).2 ⟨by simpa using htag, pre, post, hsplit,
          fun x hx => by simpa using hpre x hx⟩
        rw [hf] at h2
        cases h2
        rfl
    · constructor
      · intro hres; cases hres
      · intro hno
        exfalso
        obtain ⟨r, hr, hs⟩ := List.mem_flatMap.1 (List.mem_of_find?_eq_some hf)
        exact hno r hr s0 hs (by simpa using h0.1)
    · intro e he; cases he

set_option maxRecDepth 100000 in
/-- Witness of `GetService_first_match_distinct_route_tags`: on the loaded fixture agency,
whose routes bear the tags `501` and `504`, the tag `504_0` resolves to the service of route
504 after one reading of the clock. -/
theorem GetService_first_match_distinct_route_tags_witness :
    Agency.GetService (feedEnv agencyListBody) DefaultApiHandler ttcLoaded "504_0" wLoaded
      = .ret (.ok svc504, ttcLoaded, { wLoaded with ticks := 3 }) ∧
    ∃ res, Agency.GetService (feedEnv agencyListBody) DefaultApiHandler ttcLoaded "504_0" wLoaded
        = .ret (res, ttcLoaded, { wLoaded with ticks := wLoaded.ticks + 1 }) ∧
      (∀ svc, res = .ok svc ↔
        svc.Tag = "504_0" ∧ ∃ pre post, cachedServices [route501, route504] = pre ++ svc :: post ∧
          ∀ x ∈ pre, x.Tag ≠ "504_0") ∧
      (res = .error "ServiceNotFoundErr" ↔
        ∀ r ∈ [route501, route504], ∀ svc ∈ r.Services.getD [], svc.Tag ≠ "504_0") ∧
      (∀ e, res = .error e → e = "ServiceNotFoundErr") :=
  ⟨rfl,
   GetService_first_match_distinct_route_tags (feedEnv agencyListBody) DefaultApiHandler
    ttcLoaded [route501, route504] "504_0" wLoaded rfl rfl (by decide) (by decide)⟩

set_option maxRecDepth 100000 in
/-- A handler built with `WithMaxCacheAge(60)` answers `GetRoutes` from a route collection
stamped 3990 seconds earlier: no request is issued. -/
theorem GetRoutes_WithMaxCacheAge_60_serves_old_cache :
    Time.Sub (feedClock 400) ttcLoaded.cacheAge = 3990 * Second ∧
    GetRoutes (feedEnv agencyListBody) (NewApiHandler DefaultApiHandler.cfg [WithMaxCacheAge 60])
        ttcLoaded [] { wLoaded with ticks := 400 }
      = .ret ((some [route501, route504], none), ttcLoaded, { wLoaded with ticks := 401 }) := by
  refine ⟨by decide, by decide⟩

/-! ## The routes cache against its maximum age -/

/-- While the package default `UseCache` is false, `Agency.GetRoutes` is never answered from
the cache: every call is the refresh, whatever the age of the collection. -/
theorem GetRoutes_default_off (env : Env) (h : ApiHandler) (a : Agency)
    (opts : List ApiHandlerOption) (w : World) (hoff : w.dflt.UseCache = false) :
    GetRoutes env h a opts w = refreshRoutes env h a { w with ticks := w.ticks + 1 } := by
  rw [GetRoutes_eq, if_neg (by simp [hoff])]

set_option maxRecDepth 100000 in
/-- Claim C5, evaluated on the code. (a) After a `GetAgencies(WithoutCache())`, which leaves
the package default `UseCache` false, a first `GetRoutes()` refreshes and stamps the
collection at `t0`; a second `GetRoutes()` ten seconds after `t0`, under the maximum age of
3600 seconds of the default handler, is not answered from the cache: it issues the routeList
request and the two routeConfig requests again and rebuilds the routes. (b) Under a handler
built with `WithMaxCacheAge(60)` a `GetRoutes()` 3990 seconds after the stamp is answered
from the cache with no request, the threshold being 60 seconds scaled by `time.Second`
twice. -/
theorem GetRoutes_max_age_contract_broken :
    GetAgencies (feedEnv agencyListBody) DefaultApiHandler [WithoutCache] World.init
      = .ret ((some [ttc], none), DefaultApiHandler, wDefaultOff) ∧
    GetRoutes (feedEnv agencyListBody) DefaultApiHandler ttc [] wDefaultOff
      = .ret ((some [route501, route504], none), ttcLoadedOff, wLoadedOff) ∧
    wLoadedOff.calls = wDefaultOff.calls ++ routeCalls ∧
    Time.Sub (feedClock wLoadedOff.ticks) ttcLoadedOff.cacheAge = 10 * Second ∧
    routesThreshold DefaultApiHandler = 3600 * Second ∧
    GetRoutes (feedEnv agencyListBody) DefaultApiHandler ttcLoadedOff [] wLoadedOff
      = .ret ((some [route501At 7, route504At 10], none), ttcReloadedOff, wReloadedOff 5) ∧
    (wReloadedOff 5).calls = wLoadedOff.calls ++ routeCalls ∧
    Time.Sub (feedClock 400) ttcLoaded.cacheAge = 3990 * Second ∧
    GetRoutes (feedEnv agencyListBody)
        (NewApiHandler DefaultApiHandler.cfg [WithMaxCacheAge 60]) ttcLoaded []
        { wLoaded with ticks := 400 }
      = .ret ((some [route501, route504], none), ttcLoaded, { wLoaded with ticks := 401 }) := by
  refine ⟨by decide, by decide, by decide, by decide, by decide, by decide, by decide,
    by decide, by decide⟩

end Umo
